import Mathlib

/-!
# User management console: the client-side data pipeline

A shallow embedding of `src/js/userService.js` (record store and query engine),
`src/js/pagination.js` (pager), `src/js/validation.js` (validator) and
`src/js/api.js` (transport), followed by the properties proved about them.

Conventions of the embedding.

* A JavaScript string is a Lean `String`, read through its list of characters
  (well-formed UTF-16, no lone surrogates). `String.prototype.toLowerCase` is the
  Unicode default case conversion (the simple lowercase mappings of version 14.0
  of the Unicode Character Database and the two language-independent rules of
  `SpecialCasing.txt`); the relational operators on strings are the
  lexicographic order on UTF-16 code units.
* A JavaScript array is a `List`; an object used as a dictionary (`currentFilters`)
  is the list of its `[key, value]` entries in insertion order.
* Integers (`id`, `currentPage`, `pageSize`, `totalItems`) are `Int`.
* A method of a service is a function from the state of the service (its fields)
  to the new state, paired with the returned value when there is one. Calls into
  the DOM (`render`, `uiService.*`) do not touch these fields and are left out.
-/

namespace UserManagement

set_option maxRecDepth 100000

/-! ## JavaScript primitives -/

/-- White space and line terminators, the code points that
`String.prototype.trim` strips from both ends. -/
def isTrimChar (c : Char) : Bool :=
  let n := c.toNat
  n == 0x09 || n == 0x0A || n == 0x0B || n == 0x0C || n == 0x0D || n == 0x20 ||
  n == 0xA0 || n == 0x1680 || (0x2000 ≤ n && n ≤ 0x200A) || n == 0x2028 ||
  n == 0x2029 || n == 0x202F || n == 0x205F || n == 0x3000 || n == 0xFEFF

/-- Model of `s.trim()`. -/
def trim (s : String) : String :=
  String.mk ((s.data.dropWhile isTrimChar).rdropWhile isTrimChar)

/-- The simple lowercase mappings of the Unicode Character Database (version 14.0),
in increasing order, as runs `(lo, hi, step, target)`: the code points `lo`,
`lo + step`, ..., up to `hi` map to `target`, `target + step`, ... -/
def lowerRuns : List (Nat × Nat × Nat × Nat) := [
  (65, 90, 1, 97), (192, 214, 1, 224), (216, 222, 1, 248), (256, 302, 2, 257),
  (306, 310, 2, 307), (313, 327, 2, 314), (330, 374, 2, 331), (376, 376, 1, 255),
  (377, 381, 2, 378), (385, 385, 1, 595), (386, 388, 2, 387), (390, 390, 1, 596),
  (391, 391, 1, 392), (393, 394, 1, 598), (395, 395, 1, 396), (398, 398, 1, 477),
  (399, 399, 1, 601), (400, 400, 1, 603), (401, 401, 1, 402), (403, 403, 1, 608),
  (404, 404, 1, 611), (406, 406, 1, 617), (407, 407, 1, 616), (408, 408, 1, 409),
  (412, 412, 1, 623), (413, 413, 1, 626), (415, 415, 1, 629), (416, 420, 2, 417),
  (422, 422, 1, 640), (423, 423, 1, 424), (425, 425, 1, 643), (428, 428, 1, 429),
  (430, 430, 1, 648), (431, 431, 1, 432), (433, 434, 1, 650), (435, 437, 2, 436),
  (439, 439, 1, 658), (440, 440, 1, 441), (444, 444, 1, 445), (452, 452, 1, 454),
  (453, 453, 1, 454), (455, 455, 1, 457), (456, 456, 1, 457), (458, 458, 1, 460),
  (459, 475, 2, 460), (478, 494, 2, 479), (497, 497, 1, 499), (498, 500, 2, 499),
  (502, 502, 1, 405), (503, 503, 1, 447), (504, 542, 2, 505), (544, 544, 1, 414),
  (546, 562, 2, 547), (570, 570, 1, 11365), (571, 571, 1, 572), (573, 573, 1, 410),
  (574, 574, 1, 11366), (577, 577, 1, 578), (579, 579, 1, 384), (580, 580, 1, 649),
  (581, 581, 1, 652), (582, 590, 2, 583), (880, 882, 2, 881), (886, 886, 1, 887),
  (895, 895, 1, 1011), (902, 902, 1, 940), (904, 906, 1, 941), (908, 908, 1, 972),
  (910, 911, 1, 973), (913, 929, 1, 945), (931, 939, 1, 963), (975, 975, 1, 983),
  (984, 1006, 2, 985), (1012, 1012, 1, 952), (1015, 1015, 1, 1016), (1017, 1017, 1, 1010),
  (1018, 1018, 1, 1019), (1021, 1023, 1, 891), (1024, 1039, 1, 1104), (1040, 1071, 1, 1072),
  (1120, 1152, 2, 1121), (1162, 1214, 2, 1163), (1216, 1216, 1, 1231), (1217, 1229, 2, 1218),
  (1232, 1326, 2, 1233), (1329, 1366, 1, 1377), (4256, 4293, 1, 11520), (4295, 4295, 1, 11559),
  (4301, 4301, 1, 11565), (5024, 5103, 1, 43888), (5104, 5109, 1, 5112), (7312, 7354, 1, 4304),
  (7357, 7359, 1, 4349), (7680, 7828, 2, 7681), (7838, 7838, 1, 223), (7840, 7934, 2, 7841),
  (7944, 7951, 1, 7936), (7960, 7965, 1, 7952), (7976, 7983, 1, 7968), (7992, 7999, 1, 7984),
  (8008, 8013, 1, 8000), (8025, 8031, 2, 8017), (8040, 8047, 1, 8032), (8072, 8079, 1, 8064),
  (8088, 8095, 1, 8080), (8104, 8111, 1, 8096), (8120, 8121, 1, 8112), (8122, 8123, 1, 8048),
  (8124, 8124, 1, 8115), (8136, 8139, 1, 8050), (8140, 8140, 1, 8131), (8152, 8153, 1, 8144),
  (8154, 8155, 1, 8054), (8168, 8169, 1, 8160), (8170, 8171, 1, 8058), (8172, 8172, 1, 8165),
  (8184, 8185, 1, 8056), (8186, 8187, 1, 8060), (8188, 8188, 1, 8179), (8486, 8486, 1, 969),
  (8490, 8490, 1, 107), (8491, 8491, 1, 229), (8498, 8498, 1, 8526), (8544, 8559, 1, 8560),
  (8579, 8579, 1, 8580), (9398, 9423, 1, 9424), (11264, 11311, 1, 11312),
  (11360, 11360, 1, 11361), (11362, 11362, 1, 619), (11363, 11363, 1, 7549),
  (11364, 11364, 1, 637), (11367, 11371, 2, 11368), (11373, 11373, 1, 593),
  (11374, 11374, 1, 625), (11375, 11375, 1, 592), (11376, 11376, 1, 594),
  (11378, 11378, 1, 11379), (11381, 11381, 1, 11382), (11390, 11391, 1, 575),
  (11392, 11490, 2, 11393), (11499, 11501, 2, 11500), (11506, 11506, 1, 11507),
  (42560, 42604, 2, 42561), (42624, 42650, 2, 42625), (42786, 42798, 2, 42787),
  (42802, 42862, 2, 42803), (42873, 42875, 2, 42874), (42877, 42877, 1, 7545),
  (42878, 42886, 2, 42879), (42891, 42891, 1, 42892), (42893, 42893, 1, 613),
  (42896, 42898, 2, 42897), (42902, 42920, 2, 42903), (42922, 42922, 1, 614),
  (42923, 42923, 1, 604), (42924, 42924, 1, 609), (42925, 42925, 1, 620),
  (42926, 42926, 1, 618), (42928, 42928, 1, 670), (42929, 42929, 1, 647),
  (42930, 42930, 1, 669), (42931, 42931, 1, 43859), (42932, 42946, 2, 42933),
  (42948, 42948, 1, 42900), (42949, 42949, 1, 642), (42950, 42950, 1, 7566),
  (42951, 42953, 2, 42952), (42960, 42960, 1, 42961), (42966, 42968, 2, 42967),
  (42997, 42997, 1, 42998), (65313, 65338, 1, 65345), (66560, 66599, 1, 66600),
  (66736, 66771, 1, 66776), (66928, 66938, 1, 66967), (66940, 66954, 1, 66979),
  (66956, 66962, 1, 66995), (66964, 66965, 1, 67003), (68736, 68786, 1, 68800),
  (71840, 71871, 1, 71872), (93760, 93791, 1, 93792), (125184, 125217, 1, 125218)]

/-- The ranges `(lo, hi)` of the code points with the property `Case_Ignorable`, in
increasing order. -/
def caseIgnorableRanges : List (Nat × Nat) := [
  (39, 39), (46, 46), (58, 58), (94, 94), (96, 96), (168, 168), (173, 173), (175, 175),
  (180, 180), (183, 184), (688, 879), (884, 885), (890, 890), (900, 901), (903, 903),
  (1155, 1161), (1369, 1369), (1375, 1375), (1425, 1469), (1471, 1471), (1473, 1474),
  (1476, 1477), (1479, 1479), (1524, 1524), (1536, 1541), (1552, 1562), (1564, 1564),
  (1600, 1600), (1611, 1631), (1648, 1648), (1750, 1757), (1759, 1768), (1770, 1773),
  (1807, 1807), (1809, 1809), (1840, 1866), (1958, 1968), (2027, 2037), (2042, 2042),
  (2045, 2045), (2070, 2093), (2137, 2139), (2184, 2184), (2192, 2193), (2200, 2207),
  (2249, 2306), (2362, 2362), (2364, 2364), (2369, 2376), (2381, 2381), (2385, 2391),
  (2402, 2403), (2417, 2417), (2433, 2433), (2492, 2492), (2497, 2500), (2509, 2509),
  (2530, 2531), (2558, 2558), (2561, 2562), (2620, 2620), (2625, 2626), (2631, 2632),
  (2635, 2637), (2641, 2641), (2672, 2673), (2677, 2677), (2689, 2690), (2748, 2748),
  (2753, 2757), (2759, 2760), (2765, 2765), (2786, 2787), (2810, 2815), (2817, 2817),
  (2876, 2876), (2879, 2879), (2881, 2884), (2893, 2893), (2901, 2902), (2914, 2915),
  (2946, 2946), (3008, 3008), (3021, 3021), (3072, 3072), (3076, 3076), (3132, 3132),
  (3134, 3136), (3142, 3144), (3146, 3149), (3157, 3158), (3170, 3171), (3201, 3201),
  (3260, 3260), (3263, 3263), (3270, 3270), (3276, 3277), (3298, 3299), (3328, 3329),
  (3387, 3388), (3393, 3396), (3405, 3405), (3426, 3427), (3457, 3457), (3530, 3530),
  (3538, 3540), (3542, 3542), (3633, 3633), (3636, 3642), (3654, 3662), (3761, 3761),
  (3764, 3772), (3782, 3782), (3784, 3789), (3864, 3865), (3893, 3893), (3895, 3895),
  (3897, 3897), (3953, 3966), (3968, 3972), (3974, 3975), (3981, 3991), (3993, 4028),
  (4038, 4038), (4141, 4144), (4146, 4151), (4153, 4154), (4157, 4158), (4184, 4185),
  (4190, 4192), (4209, 4212), (4226, 4226), (4229, 4230), (4237, 4237), (4253, 4253),
  (4348, 4348), (4957, 4959), (5906, 5908), (5938, 5939), (5970, 5971), (6002, 6003),
  (6068, 6069), (6071, 6077), (6086, 6086), (6089, 6099), (6103, 6103), (6109, 6109),
  (6155, 6159), (6211, 6211), (6277, 6278), (6313, 6313), (6432, 6434), (6439, 6440),
  (6450, 6450), (6457, 6459), (6679, 6680), (6683, 6683), (6742, 6742), (6744, 6750),
  (6752, 6752), (6754, 6754), (6757, 6764), (6771, 6780), (6783, 6783), (6823, 6823),
  (6832, 6862), (6912, 6915), (6964, 6964), (6966, 6970), (6972, 6972), (6978, 6978),
  (7019, 7027), (7040, 7041), (7074, 7077), (7080, 7081), (7083, 7085), (7142, 7142),
  (7144, 7145), (7149, 7149), (7151, 7153), (7212, 7219), (7222, 7223), (7288, 7293),
  (7376, 7378), (7380, 7392), (7394, 7400), (7405, 7405), (7412, 7412), (7416, 7417),
  (7468, 7530), (7544, 7544), (7579, 7679), (8125, 8125), (8127, 8129), (8141, 8143),
  (8157, 8159), (8173, 8175), (8189, 8190), (8203, 8207), (8216, 8217), (8228, 8228),
  (8231, 8231), (8234, 8238), (8288, 8292), (8294, 8303), (8305, 8305), (8319, 8319),
  (8336, 8348), (8400, 8432), (11388, 11389), (11503, 11505), (11631, 11631), (11647, 11647),
  (11744, 11775), (11823, 11823), (12293, 12293), (12330, 12333), (12337, 12341),
  (12347, 12347), (12441, 12446), (12540, 12542), (40981, 40981), (42232, 42237),
  (42508, 42508), (42607, 42610), (42612, 42621), (42623, 42623), (42652, 42655),
  (42736, 42737), (42752, 42785), (42864, 42864), (42888, 42890), (42994, 42996),
  (43000, 43001), (43010, 43010), (43014, 43014), (43019, 43019), (43045, 43046),
  (43052, 43052), (43204, 43205), (43232, 43249), (43263, 43263), (43302, 43309),
  (43335, 43345), (43392, 43394), (43443, 43443), (43446, 43449), (43452, 43453),
  (43471, 43471), (43493, 43494), (43561, 43566), (43569, 43570), (43573, 43574),
  (43587, 43587), (43596, 43596), (43632, 43632), (43644, 43644), (43696, 43696),
  (43698, 43700), (43703, 43704), (43710, 43711), (43713, 43713), (43741, 43741),
  (43756, 43757), (43763, 43764), (43766, 43766), (43867, 43871), (43881, 43883),
  (44005, 44005), (44008, 44008), (44013, 44013), (64286, 64286), (64434, 64450),
  (65024, 65039), (65043, 65043), (65056, 65071), (65106, 65106), (65109, 65109),
  (65279, 65279), (65287, 65287), (65294, 65294), (65306, 65306), (65342, 65342),
  (65344, 65344), (65392, 65392), (65438, 65439), (65507, 65507), (65529, 65531),
  (66045, 66045), (66272, 66272), (66422, 66426), (67456, 67461), (67463, 67504),
  (67506, 67514), (68097, 68099), (68101, 68102), (68108, 68111), (68152, 68154),
  (68159, 68159), (68325, 68326), (68900, 68903), (69291, 69292), (69446, 69456),
  (69506, 69509), (69633, 69633), (69688, 69702), (69744, 69744), (69747, 69748),
  (69759, 69761), (69811, 69814), (69817, 69818), (69821, 69821), (69826, 69826),
  (69837, 69837), (69888, 69890), (69927, 69931), (69933, 69940), (70003, 70003),
  (70016, 70017), (70070, 70078), (70089, 70092), (70095, 70095), (70191, 70193),
  (70196, 70196), (70198, 70199), (70206, 70206), (70367, 70367), (70371, 70378),
  (70400, 70401), (70459, 70460), (70464, 70464), (70502, 70508), (70512, 70516),
  (70712, 70719), (70722, 70724), (70726, 70726), (70750, 70750), (70835, 70840),
  (70842, 70842), (70847, 70848), (70850, 70851), (71090, 71093), (71100, 71101),
  (71103, 71104), (71132, 71133), (71219, 71226), (71229, 71229), (71231, 71232),
  (71339, 71339), (71341, 71341), (71344, 71349), (71351, 71351), (71453, 71455),
  (71458, 71461), (71463, 71467), (71727, 71735), (71737, 71738), (71995, 71996),
  (71998, 71998), (72003, 72003), (72148, 72151), (72154, 72155), (72160, 72160),
  (72193, 72202), (72243, 72248), (72251, 72254), (72263, 72263), (72273, 72278),
  (72281, 72283), (72330, 72342), (72344, 72345), (72752, 72758), (72760, 72765),
  (72767, 72767), (72850, 72871), (72874, 72880), (72882, 72883), (72885, 72886),
  (73009, 73014), (73018, 73018), (73020, 73021), (73023, 73029), (73031, 73031),
  (73104, 73105), (73109, 73109), (73111, 73111), (73459, 73460), (78896, 78904),
  (92912, 92916), (92976, 92982), (92992, 92995), (94031, 94031), (94095, 94111),
  (94176, 94177), (94179, 94180), (110576, 110579), (110581, 110587), (110589, 110590),
  (113821, 113822), (113824, 113827), (118528, 118573), (118576, 118598), (119143, 119145),
  (119155, 119170), (119173, 119179), (119210, 119213), (119362, 119364), (121344, 121398),
  (121403, 121452), (121461, 121461), (121476, 121476), (121499, 121503), (121505, 121519),
  (122880, 122886), (122888, 122904), (122907, 122913), (122915, 122916), (122918, 122922),
  (123184, 123197), (123566, 123566), (123628, 123631), (125136, 125142), (125252, 125259),
  (127995, 127999), (917505, 917505), (917536, 917631), (917760, 917999)]

/-- The ranges `(lo, hi)` of the code points with the property `Cased` that are not
`Case_Ignorable`, in increasing order. -/
def casedRanges : List (Nat × Nat) := [
  (65, 90), (97, 122), (170, 170), (181, 181), (186, 186), (192, 214), (216, 246), (248, 442),
  (444, 447), (452, 659), (661, 687), (880, 883), (886, 887), (891, 893), (895, 895),
  (902, 902), (904, 906), (908, 908), (910, 929), (931, 1013), (1015, 1153), (1162, 1327),
  (1329, 1366), (1376, 1416), (4256, 4293), (4295, 4295), (4301, 4301), (4304, 4346),
  (4349, 4351), (5024, 5109), (5112, 5117), (7296, 7304), (7312, 7354), (7357, 7359),
  (7424, 7467), (7531, 7543), (7545, 7578), (7680, 7957), (7960, 7965), (7968, 8005),
  (8008, 8013), (8016, 8023), (8025, 8025), (8027, 8027), (8029, 8029), (8031, 8061),
  (8064, 8116), (8118, 8124), (8126, 8126), (8130, 8132), (8134, 8140), (8144, 8147),
  (8150, 8155), (8160, 8172), (8178, 8180), (8182, 8188), (8450, 8450), (8455, 8455),
  (8458, 8467), (8469, 8469), (8473, 8477), (8484, 8484), (8486, 8486), (8488, 8488),
  (8490, 8493), (8495, 8500), (8505, 8505), (8508, 8511), (8517, 8521), (8526, 8526),
  (8544, 8575), (8579, 8580), (9398, 9449), (11264, 11387), (11390, 11492), (11499, 11502),
  (11506, 11507), (11520, 11557), (11559, 11559), (11565, 11565), (42560, 42605),
  (42624, 42651), (42786, 42863), (42865, 42887), (42891, 42894), (42896, 42954),
  (42960, 42961), (42963, 42963), (42965, 42969), (42997, 42998), (43002, 43002),
  (43824, 43866), (43872, 43880), (43888, 43967), (64256, 64262), (64275, 64279),
  (65313, 65338), (65345, 65370), (66560, 66639), (66736, 66771), (66776, 66811),
  (66928, 66938), (66940, 66954), (66956, 66962), (66964, 66965), (66967, 66977),
  (66979, 66993), (66995, 67001), (67003, 67004), (68736, 68786), (68800, 68850),
  (71840, 71903), (93760, 93823), (119808, 119892), (119894, 119964), (119966, 119967),
  (119970, 119970), (119973, 119974), (119977, 119980), (119982, 119993), (119995, 119995),
  (119997, 120003), (120005, 120069), (120071, 120074), (120077, 120084), (120086, 120092),
  (120094, 120121), (120123, 120126), (120128, 120132), (120134, 120134), (120138, 120144),
  (120146, 120485), (120488, 120512), (120514, 120538), (120540, 120570), (120572, 120596),
  (120598, 120628), (120630, 120654), (120656, 120686), (120688, 120712), (120714, 120744),
  (120746, 120770), (120772, 120779), (122624, 122633), (122635, 122654), (125184, 125251),
  (127280, 127305), (127312, 127337), (127344, 127369)]

/-- Model of the lookup of a code point in the table of simple lowercase mappings. -/
def lookupRun : List (Nat × Nat × Nat × Nat) → Nat → Nat
  | [], n => n
  | (lo, hi, step, target) :: rest, n =>
    if n < lo then n
    else if n ≤ hi ∧ (n - lo) % step = 0 then target + (n - lo)
    else lookupRun rest n

/-- Whether a code point lies in one of the ranges of an increasing list. -/
def inRanges : List (Nat × Nat) → Nat → Bool
  | [], _ => false
  | (lo, hi) :: rest, n =>
    if n < lo then false
    else if n ≤ hi then true
    else inRanges rest n

/-- The property `Case_Ignorable`. -/
def isCaseIgnorable (c : Char) : Bool :=
  inRanges caseIgnorableRanges c.toNat

/-- The property `Cased`, for a character that is not `Case_Ignorable`. -/
def isCased (c : Char) : Bool :=
  inRanges casedRanges c.toNat

/-- The condition `Final_Sigma` of `SpecialCasing.txt` for a capital sigma: going
backwards from it (`before` lists the preceding characters, the nearest first)
the first character that is not case-ignorable is cased, and going
forwards the first character that is not case-ignorable, if any, is not cased. -/
def finalSigma (before after : List Char) : Bool :=
  match before.dropWhile isCaseIgnorable with
  | [] => false
  | c :: _ =>
    isCased c &&
      (match after.dropWhile isCaseIgnorable with
        | [] => true
        | d :: _ => !isCased d)

/-- The lowercase mapping of the character `c`, given the characters before it
(the nearest first) and after it: the capital sigma U+03A3 maps to the final
sigma U+03C2 or to the small sigma U+03C3, U+0130 maps to `i` followed by
U+0307, every other character follows the table of simple mappings. -/
def lowerChar (before : List Char) (c : Char) (after : List Char) : List Char :=
  if c.toNat = 0x3A3 then
    [if finalSigma before after then Char.ofNat 0x3C2 else Char.ofNat 0x3C3]
  else if c.toNat = 0x130 then [Char.ofNat 0x69, Char.ofNat 0x307]
  else [Char.ofNat (lookupRun lowerRuns c.toNat)]

/-- The lowercase mapping of the characters `rest` that follow the characters
`before` (the nearest first). -/
def lowerFrom : List Char → List Char → List Char
  | _, [] => []
  | before, c :: rest => lowerChar before c rest ++ lowerFrom (c :: before) rest

/-- Model of `s.toLowerCase()`: the Unicode default case conversion, that is the
simple lowercase mappings together with the two rules of `SpecialCasing.txt`
that do not depend on the language. -/
def toLowerCase (s : String) : String :=
  String.mk (lowerFrom [] s.data)

/-- The UTF-16 code units of a character. -/
def utf16Units (c : Char) : List Nat :=
  if c.toNat < 0x10000 then [c.toNat]
  else [0xD800 + (c.toNat - 0x10000) / 0x400, 0xDC00 + (c.toNat - 0x10000) % 0x400]

/-- The UTF-16 code units of a string, the elements that JavaScript compares. -/
def codeUnits (s : String) : List Nat :=
  s.data.flatMap utf16Units

/-- Model of `s.includes(q)`: `q` occurs in `s` as a contiguous run of characters. -/
def includes (s q : String) : Bool :=
  decide (q.data <:+: s.data)

/-- Model of `s.split(' ')`. -/
def splitSpace (s : String) : List String :=
  (s.data.splitOn ' ').map String.mk

/-- Model of `parts.join(' ')`. -/
def joinSpace (parts : List String) : String :=
  String.mk ([' '].intercalate (parts.map String.data))

/-- Model of `x || ''` for a possibly missing string `x`: a missing or empty value gives `''`. -/
def orEmpty (x : Option String) : String :=
  x.getD ""

/-- The values a property of a user record can hold, as far as the relational
operators `<` and `>` tell them apart. -/
inductive JSValue where
  | num (n : Int)
  | str (s : String)
  | obj
  | undefined
  deriving DecidableEq, Repr

/-- Model of `x < y` on two values read from the same property of two records: numbers
compare numerically, strings lexicographically by their UTF-16 code units; an
object converts to the string `[object Object]` (never below itself) and
`undefined` converts to `NaN`, so every other comparison is false. -/
def JSValue.lt : JSValue → JSValue → Bool
  | .num a, .num b => decide (a < b)
  | .str a, .str b => decide (codeUnits a < codeUnits b)
  | _, _ => false

/-- Model of `arr.sort(compareFn)` on a copy of the array. ECMAScript fixes the result for
a consistent comparator: the sort is stable, an element is placed before another
one exactly when `compareFn` does not rank it after (`compareFn(a, b) <= 0`
for `a` the earlier one). -/
def arraySort {α : Type} (compareFn : α → α → Int) (arr : List α) : List α :=
  arr.insertionSort (fun a b => compareFn a b ≤ 0)

/-- The index that `Array.prototype.slice` derives from an integer argument:
a negative argument counts from the end, and the result is clamped to `[0, len]`. -/
def sliceIndex (len : Nat) (i : Int) : Nat :=
  if i < 0 then (len + i).toNat else min i.toNat len

/-- Model of `arr.slice(start, end)`. -/
def slice {α : Type} (arr : List α) (start stop : Int) : List α :=
  (arr.take (sliceIndex arr.length stop)).drop (sliceIndex arr.length start)

/-! ## Data model -/

/-- The nested `company` object of a record. -/
structure Company where
  name : String
  deriving DecidableEq, Repr

/-- The nested `geo` object of an address. -/
structure Geo where
  lat : String
  lng : String
  deriving DecidableEq, Repr

/-- The nested `address` object of a record. -/
structure Address where
  street : String
  suite : String
  city : String
  zipcode : String
  geo : Geo
  deriving DecidableEq, Repr

/-- A user record as held by the store. `company` and `address` may be missing. -/
structure User where
  id : Int
  name : String
  username : String
  email : String
  phone : String
  website : String
  company : Option Company
  address : Option Address
  deriving DecidableEq, Repr

/-- Model of `user.company?.name || ''`. -/
def User.companyName (user : User) : String :=
  orEmpty (user.company.map Company.name)

/-- Model of `user[key]` for a property name `key`. -/
def User.prop (user : User) (key : String) : JSValue :=
  if key = "id" then .num user.id
  else if key = "name" then .str user.name
  else if key = "username" then .str user.username
  else if key = "email" then .str user.email
  else if key = "phone" then .str user.phone
  else if key = "website" then .str user.website
  else if key = "company" then (match user.company with | some _ => .obj | none => .undefined)
  else if key = "address" then (match user.address with | some _ => .obj | none => .undefined)
  else .undefined

/-- The `currentSort` object. -/
structure SortSpec where
  field : String
  order : String
  deriving DecidableEq, Repr

/-- The fields of a `UserService` instance. -/
structure UserService where
  users : List User
  originalUsers : List User
  filteredUsers : List User
  currentSort : SortSpec
  currentFilters : List (String × String)
  searchQuery : String
  deriving DecidableEq, Repr

/-- Model of `CONFIG.DATA.SORT_ORDERS.ASC`. -/
def ASC : String := "asc"

/-- Model of `CONFIG.DATA.SORT_ORDERS.DESC`. -/
def DESC : String := "desc"

/-- The state built by the constructor of `UserService`. -/
def UserService.new : UserService :=
  { users := [], originalUsers := [], filteredUsers := [],
    currentSort := { field := "id", order := "asc" },
    currentFilters := [], searchQuery := "" }

/-- A sample record. -/
def johnDoe : User := ⟨1, "John Doe", "jdoe", "j@x.io", "", "", none, none⟩

/-- A sample record. -/
def annLee : User := ⟨2, "Ann Lee", "alee", "a@x.io", "", "", some ⟨"Sales"⟩, none⟩

/-- A sample record whose name differs from that of `alice2` by letter case only. -/
def alice3 : User := ⟨3, "Alice", "alice3", "a3@x.io", "", "", none, none⟩

/-- A sample record whose name differs from that of `alice3` by letter case only. -/
def alice2 : User := ⟨2, "alice", "alice2", "a2@x.io", "", "", none, none⟩

/-- A sample record. -/
def zed1 : User := ⟨1, "Zed", "zed", "z@x.io", "", "", none, none⟩

/-- A freshly constructed store holding the two sample records `johnDoe`, `annLee`. -/
def sampleStore : UserService :=
  { UserService.new with users := [johnDoe, annLee], originalUsers := [johnDoe, annLee] }

/-! ## Query engine (`userService.js`) -/

/-- The value `aValue` / `bValue` that the comparator of `sortUsers` reads from a
record for the sort field (the `switch (sortField)`). -/
def sortValue (sortField : String) (a : User) : JSValue :=
  if sortField = "id" then .num a.id
  else if sortField = "name" then .str (toLowerCase a.name)
  else if sortField = "email" then .str (toLowerCase a.email)
  else if sortField = "username" then .str (toLowerCase a.username)
  else a.prop sortField

/-- The comparator passed to `sort` inside `sortUsers`. -/
def compareUsers (sortField sortOrder : String) (a b : User) : Int :=
  let aValue := sortValue sortField a
  let bValue := sortValue sortField b
  if aValue.lt bValue then
    (if sortOrder = ASC then -1 else 1)
  else if bValue.lt aValue then
    (if sortOrder = ASC then 1 else -1)
  else 0

/-- Model of `field || fallback` for an optional string argument (`null` and `''` are falsy). -/
def orElse (x : Option String) (fallback : String) : String :=
  match x with
  | some v => if v = "" then fallback else v
  | none => fallback

/-- A string argument is truthy when it is given and not empty. -/
def truthy (x : Option String) : Bool :=
  match x with
  | some v => decide (v ≠ "")
  | none => false

/-- Model of `UserService.sortUsers(users, field = null, order = null)`: the new store
state and the sorted copy. -/
def UserService.sortUsers (self : UserService) (users : List User)
    (field order : Option String) : UserService × List User :=
  let sortField := orElse field self.currentSort.field
  let sortOrder := orElse order self.currentSort.order
  let self1 :=
    if truthy field && truthy order then
      { self with currentSort := { field := field.getD "", order := order.getD "" } }
    else self
  (self1, arraySort (compareUsers sortField sortOrder) users)

/-- The predicate of the search `filter` in `applyFiltersAndSearch`. -/
def matchesSearch (searchQuery : String) (user : User) : Bool :=
  let searchFields :=
    [user.name, user.username, user.email, user.companyName].map toLowerCase
  searchFields.any (fun field => includes field searchQuery)

/-- The predicate of the criteria `filter` in `applyFiltersAndSearch`. -/
def matchesFilters (currentFilters : List (String × String)) (user : User) : Bool :=
  let nameParts := splitSpace user.name
  let firstName := orEmpty nameParts.head?
  let lastName := joinSpace (nameParts.drop 1)
  let department := user.companyName
  currentFilters.all (fun entry =>
    let key := entry.1
    let value := entry.2
    if trim value = "" then true
    else
      let filterValue := trim (toLowerCase value)
      if key = "firstName" then includes (toLowerCase firstName) filterValue
      else if key = "lastName" then includes (toLowerCase lastName) filterValue
      else if key = "email" then includes (toLowerCase user.email) filterValue
      else if key = "department" then includes (toLowerCase department) filterValue
      else true)

/-- Model of `UserService.applyFiltersAndSearch()`: the new store state and the returned
view. The view is also handed to the pager (`paginationService.updateData`),
which is a separate object, see `PaginationService.updateData`. -/
def UserService.applyFiltersAndSearch (self : UserService) : UserService × List User :=
  let filtered0 := self.users
  let filtered1 :=
    if self.searchQuery ≠ "" then filtered0.filter (matchesSearch self.searchQuery)
    else filtered0
  let filtered2 :=
    if self.currentFilters.length > 0 then filtered1.filter (matchesFilters self.currentFilters)
    else filtered1
  let sorted := self.sortUsers filtered2 none none
  ({ sorted.1 with filteredUsers := sorted.2 }, sorted.2)

/-- Model of `UserService.applySearch(query)`. -/
def UserService.applySearch (self : UserService) (query : String) : UserService :=
  ({ self with searchQuery := trim (toLowerCase query) }).applyFiltersAndSearch.1

/-- Model of `UserService.applyFilters(filters)`. -/
def UserService.applyFilters (self : UserService) (filters : List (String × String)) :
    UserService :=
  ({ self with currentFilters := filters }).applyFiltersAndSearch.1

/-- Model of `UserService.clearFilters()`. -/
def UserService.clearFilters (self : UserService) : UserService :=
  ({ self with currentFilters := [], searchQuery := "" }).applyFiltersAndSearch.1

/-! ## Pager (`pagination.js`) -/

/-- Model of `Math.ceil(a / b)` for integers `a` and `b` with `b > 0`. -/
def ceilDiv (a b : Int) : Int :=
  -((-a) / b)

/-- Model of `Math.floor(a / b)` for integers `a` and `b` with `b > 0`. -/
def floorDiv (a b : Int) : Int :=
  a / b

/-- Model of `CONFIG.PAGINATION.DEFAULT_PAGE_SIZE`. -/
def DEFAULT_PAGE_SIZE : Int := 10

/-- Model of `CONFIG.PAGINATION.MAX_VISIBLE_PAGES`. -/
def MAX_VISIBLE_PAGES : Int := 5

/-- The fields of a `PaginationService` instance, over any type of items. -/
structure PaginationService (α : Type) where
  currentPage : Int
  pageSize : Int
  totalItems : Int
  data : List α
  maxVisiblePages : Int
  deriving DecidableEq, Repr

/-- The state built by the constructor of `PaginationService`. -/
def PaginationService.new {α : Type} : PaginationService α :=
  { currentPage := 1, pageSize := DEFAULT_PAGE_SIZE, totalItems := 0, data := [],
    maxVisiblePages := MAX_VISIBLE_PAGES }

/-- Model of `PaginationService.getTotalPages()`. -/
def PaginationService.getTotalPages {α : Type} (self : PaginationService α) : Int :=
  ceilDiv self.totalItems self.pageSize

/-- Model of `PaginationService.getCurrentPageData()`. -/
def PaginationService.getCurrentPageData {α : Type} (self : PaginationService α) : List α :=
  let startIndex := (self.currentPage - 1) * self.pageSize
  let endIndex := startIndex + self.pageSize
  slice self.data startIndex endIndex

/-- Model of `PaginationService.updateData(newData)`. -/
def PaginationService.updateData {α : Type} (self : PaginationService α) (newData : List α) :
    PaginationService α :=
  let self1 := { self with data := newData, totalItems := (newData.length : Int) }
  let totalPages := self1.getTotalPages
  if self1.currentPage > totalPages ∧ totalPages > 0 then
    { self1 with currentPage := 1 }
  else self1

/-- Model of `PaginationService.goToPage(page)`. -/
def PaginationService.goToPage {α : Type} (self : PaginationService α) (page : Int) :
    PaginationService α :=
  let totalPages := self.getTotalPages
  if page < 1 then
    { self with currentPage := 1 }
  else if page > totalPages then
    { self with currentPage := totalPages }
  else
    { self with currentPage := page }

/-- Model of `PaginationService.nextPage()`. -/
def PaginationService.nextPage {α : Type} (self : PaginationService α) : PaginationService α :=
  self.goToPage (self.currentPage + 1)

/-- Model of `PaginationService.previousPage()`. -/
def PaginationService.previousPage {α : Type} (self : PaginationService α) :
    PaginationService α :=
  self.goToPage (self.currentPage - 1)

/-- Model of `PaginationService.changePageSize(newPageSize)`, the argument being the
integer that `parseInt` reads from the selected option. -/
def PaginationService.changePageSize {α : Type} (self : PaginationService α)
    (newPageSize : Int) : PaginationService α :=
  let currentItemIndex := (self.currentPage - 1) * self.pageSize
  let self1 := { self with pageSize := newPageSize }
  { self1 with currentPage := floorDiv currentItemIndex self1.pageSize + 1 }

/-- Model of `data[i]` for an integer index: `undefined` (here `none`) outside the array. -/
def itemAt {α : Type} (data : List α) (i : Int) : Option α :=
  if i < 0 then none else data[i.toNat]?

/-- A pager reached from a fresh one by the calls `changePageSize(25)`,
`nextPage()` (on the still empty data), `changePageSize(10)` and then
`updateData` with the 25 items `0, ..., 24`. -/
def stalePager : PaginationService Nat :=
  (((PaginationService.new.changePageSize 25).nextPage).changePageSize 10).updateData
    (List.range 25)

/-! ## Regular expressions (`CONFIG.VALIDATION.*_PATTERN`) -/

/-- The regular expressions needed for the patterns of `CONFIG.VALIDATION`: a
character class is given by its membership test. -/
inductive RegExp where
  | never : RegExp
  | eps : RegExp
  | cls (p : Char → Bool) : RegExp
  | seq (r s : RegExp) : RegExp
  | alt (r s : RegExp) : RegExp
  | star (r : RegExp) : RegExp

/-- Whether the expression matches the empty string. -/
def RegExp.nullable : RegExp → Bool
  | .never => false
  | .eps => true
  | .cls _ => false
  | .seq r s => r.nullable && s.nullable
  | .alt r s => r.nullable || s.nullable
  | .star _ => true

/-- The expression matching what is left of a match after its first character `c`. -/
def RegExp.deriv (c : Char) : RegExp → RegExp
  | .never => .never
  | .eps => .never
  | .cls p => if p c then .eps else .never
  | .seq r s => if r.nullable then .alt (.seq (r.deriv c) s) (s.deriv c) else .seq (r.deriv c) s
  | .alt r s => .alt (r.deriv c) (s.deriv c)
  | .star r => .seq (r.deriv c) (.star r)

/-- Model of `/^r$/.test(s)`: the whole string matches `r`. -/
def RegExp.test (r : RegExp) (s : String) : Bool :=
  (s.data.foldl (fun q c => q.deriv c) r).nullable

/-- The expression for a single character `c`. -/
def RegExp.chr (c : Char) : RegExp :=
  .cls (fun x => x == c)

/-- The expression `r+`. -/
def RegExp.plus (r : RegExp) : RegExp :=
  .seq r (.star r)

/-- The expression `r?`. -/
def RegExp.opt (r : RegExp) : RegExp :=
  .alt r .eps

/-- The expression `r{0,n}`. -/
def RegExp.upTo : Nat → RegExp → RegExp
  | 0, _ => .eps
  | n + 1, r => .opt (.seq r (RegExp.upTo n r))

/-- The expression `r{n}`. -/
def RegExp.times : Nat → RegExp → RegExp
  | 0, _ => .eps
  | n + 1, r => .seq r (RegExp.times n r)

/-- The expression for a literal run of characters. -/
def RegExp.lit : List Char → RegExp
  | [] => .eps
  | c :: cs => .seq (.chr c) (RegExp.lit cs)

/-- The class `\d`. -/
def isDigitChar (c : Char) : Bool :=
  decide ('0' ≤ c ∧ c ≤ '9')

/-- The class `\w`. -/
def isWordChar (c : Char) : Bool :=
  decide ('a' ≤ c ∧ c ≤ 'z') || decide ('A' ≤ c ∧ c ≤ 'Z') || isDigitChar c || c == '_'

/-- The class `[^\s@]`; `\s` is the white space that `trim` strips. -/
def isEmailChar (c : Char) : Bool :=
  !(isTrimChar c || c == '@')

/-- The pattern `CONFIG.VALIDATION.EMAIL_PATTERN`, `/^[^\s@]+@[^\s@]+\.[^\s@]+$/`. -/
def EMAIL_PATTERN : RegExp :=
  .seq (.plus (.cls isEmailChar)) (.seq (.chr '@')
    (.seq (.plus (.cls isEmailChar)) (.seq (.chr '.') (.plus (.cls isEmailChar)))))

/-- The pattern `CONFIG.VALIDATION.PHONE_PATTERN`, `/^[\+]?[1-9][\d]{0,15}$/`. -/
def PHONE_PATTERN : RegExp :=
  .seq (.opt (.chr '+')) (.seq (.cls (fun c => decide ('1' ≤ c ∧ c ≤ '9')))
    (.upTo 15 (.cls isDigitChar)))

/-- The pattern `CONFIG.VALIDATION.URL_PATTERN`,
`/^(https?:\/\/)?([\da-z\.-]+)\.([a-z\.]{2,6})([\/\w \.-]*)*\/?$/`. -/
def URL_PATTERN : RegExp :=
  .seq (.opt (.seq (.lit ['h', 't', 't', 'p']) (.seq (.opt (.chr 's')) (.lit [':', '/', '/']))))
    (.seq (.plus (.cls (fun c =>
        isDigitChar c || decide ('a' ≤ c ∧ c ≤ 'z') || c == '.' || c == '-')))
      (.seq (.chr '.')
        (.seq (.seq (.times 2 (.cls (fun c => decide ('a' ≤ c ∧ c ≤ 'z') || c == '.')))
            (.upTo 4 (.cls (fun c => decide ('a' ≤ c ∧ c ≤ 'z') || c == '.'))))
          (.seq (.star (.star (.cls (fun c =>
              c == '/' || isWordChar c || c == ' ' || c == '.' || c == '-'))))
            (.opt (.chr '/'))))))

/-! ## Validator (`validation.js`) -/

/-- Model of `s.length`: the number of UTF-16 code units of the string. -/
def jsLength (s : String) : Nat :=
  (s.data.map (fun c => if c.toNat < 0x10000 then 1 else 2)).sum

/-- All occurrences of the non-empty run `pat` in `s` replaced by `rep`, scanning
from the left; `fuel` bounds the number of steps. -/
def replaceAllAux (pat rep : List Char) : Nat → List Char → List Char
  | 0, s => s
  | _ + 1, [] => []
  | fuel + 1, c :: cs =>
    if pat.isPrefixOf (c :: cs) then
      rep ++ replaceAllAux pat rep fuel ((c :: cs).drop pat.length)
    else c :: replaceAllAux pat rep fuel cs

/-- Model of `message.replace(new RegExp('\\{key\\}', 'g'), value)`. -/
def replacePlaceholder (message key value : String) : String :=
  String.mk (replaceAllAux (['\x7b'] ++ key.data ++ ['\x7d']) value.data
    (message.data.length + 1) message.data)

/-- The constant `CONFIG.VALIDATION.MIN_NAME_LENGTH`. -/
def MIN_NAME_LENGTH : Nat := 2

/-- The constant `CONFIG.VALIDATION.MAX_NAME_LENGTH`. -/
def MAX_NAME_LENGTH : Nat := 50

/-- The constant `CONFIG.VALIDATION.MAX_EMAIL_LENGTH`. -/
def MAX_EMAIL_LENGTH : Nat := 100

/-- The constant `CONFIG.VALIDATION.MAX_PHONE_LENGTH`. -/
def MAX_PHONE_LENGTH : Nat := 20

/-- The constant `CONFIG.VALIDATION.MAX_WEBSITE_LENGTH`. -/
def MAX_WEBSITE_LENGTH : Nat := 200

/-- The constant `CONFIG.VALIDATION.MAX_DEPARTMENT_LENGTH`. -/
def MAX_DEPARTMENT_LENGTH : Nat := 50

/-- The constant `CONFIG.MESSAGES.VALIDATION.REQUIRED_FIELD`. -/
def REQUIRED_FIELD : String := "This field is required."

/-- The constant `CONFIG.MESSAGES.VALIDATION.INVALID_EMAIL`. -/
def INVALID_EMAIL : String := "Please enter a valid email address."

/-- The constant `CONFIG.MESSAGES.VALIDATION.INVALID_PHONE`. -/
def INVALID_PHONE : String := "Please enter a valid phone number."

/-- The constant `CONFIG.MESSAGES.VALIDATION.INVALID_URL`. -/
def INVALID_URL : String := "Please enter a valid website URL."

/-- The constant `CONFIG.MESSAGES.VALIDATION.MIN_LENGTH`. -/
def MIN_LENGTH : String := "Must be at least \x7bmin\x7d characters long."

/-- The constant `CONFIG.MESSAGES.VALIDATION.MAX_LENGTH`. -/
def MAX_LENGTH : String := "Must be no more than \x7bmax\x7d characters long."

/-- The constant `CONFIG.MESSAGES.VALIDATION.DUPLICATE_USERNAME`. -/
def DUPLICATE_USERNAME : String := "Username already exists."

/-- The constant `CONFIG.MESSAGES.VALIDATION.DUPLICATE_EMAIL`. -/
def DUPLICATE_EMAIL : String := "Email already exists."

/-- Model of `CONFIG.get(path, defaultValue)` on the paths below
`MESSAGES.VALIDATION`, the ones the validator asks for; any other path gives the
default value here. -/
def configGet (path defaultValue : String) : String :=
  if path = "MESSAGES.VALIDATION.REQUIRED_FIELD" then REQUIRED_FIELD
  else if path = "MESSAGES.VALIDATION.INVALID_EMAIL" then INVALID_EMAIL
  else if path = "MESSAGES.VALIDATION.INVALID_PHONE" then INVALID_PHONE
  else if path = "MESSAGES.VALIDATION.INVALID_URL" then INVALID_URL
  else if path = "MESSAGES.VALIDATION.MIN_LENGTH" then MIN_LENGTH
  else if path = "MESSAGES.VALIDATION.MAX_LENGTH" then MAX_LENGTH
  else if path = "MESSAGES.VALIDATION.DUPLICATE_USERNAME" then DUPLICATE_USERNAME
  else if path = "MESSAGES.VALIDATION.DUPLICATE_EMAIL" then DUPLICATE_EMAIL
  else defaultValue

/-- Model of `CONFIG.formatMessage(messageKey, replacements)`, the replacements
being numbers. -/
def formatMessage (messageKey : String) (replacements : List (String × Nat)) : String :=
  replacements.foldl (fun message entry => replacePlaceholder message entry.1 (toString entry.2))
    (configGet messageKey messageKey)

/-- Model of `ValidationService.validateName(value)`. -/
def validateName (value : String) : List String :=
  let trimmedValue := trim value
  if trimmedValue = "" then [REQUIRED_FIELD]
  else
    let errors1 :=
      if jsLength trimmedValue < MIN_NAME_LENGTH then
        [formatMessage "MESSAGES.VALIDATION.MIN_LENGTH" [("min", MIN_NAME_LENGTH)]]
      else []
    let errors2 :=
      if jsLength trimmedValue > MAX_NAME_LENGTH then
        errors1 ++ [formatMessage "MESSAGES.VALIDATION.MAX_LENGTH" [("max", MAX_NAME_LENGTH)]]
      else errors1
    errors2

/-- Model of `ValidationService.validateUsername(value, existingUsers)`. -/
def validateUsername (value : String) (existingUsers : List User) : List String :=
  let trimmedValue := trim value
  if trimmedValue = "" then [REQUIRED_FIELD]
  else
    let errors1 :=
      if jsLength trimmedValue < MIN_NAME_LENGTH then
        [formatMessage "MESSAGES.VALIDATION.MIN_LENGTH" [("min", MIN_NAME_LENGTH)]]
      else []
    let errors2 :=
      if jsLength trimmedValue > MAX_NAME_LENGTH then
        errors1 ++ [formatMessage "MESSAGES.VALIDATION.MAX_LENGTH" [("max", MAX_NAME_LENGTH)]]
      else errors1
    let isDuplicate :=
      existingUsers.any (fun user => toLowerCase user.username == toLowerCase trimmedValue)
    if isDuplicate then errors2 ++ [DUPLICATE_USERNAME] else errors2

/-- Model of `ValidationService.validateEmail(value, existingUsers)`. -/
def validateEmail (value : String) (existingUsers : List User) : List String :=
  let trimmedValue := trim value
  if trimmedValue = "" then [REQUIRED_FIELD]
  else
    let errors1 := if !EMAIL_PATTERN.test trimmedValue then [INVALID_EMAIL] else []
    let errors2 :=
      if jsLength trimmedValue > MAX_EMAIL_LENGTH then
        errors1 ++ [formatMessage "MESSAGES.VALIDATION.MAX_LENGTH" [("max", MAX_EMAIL_LENGTH)]]
      else errors1
    let isDuplicate :=
      existingUsers.any (fun user => toLowerCase user.email == toLowerCase trimmedValue)
    if isDuplicate then errors2 ++ [DUPLICATE_EMAIL] else errors2

/-- Model of `ValidationService.validatePhone(value)`. -/
def validatePhone (value : String) : List String :=
  let trimmedValue := trim value
  let errors1 :=
    if trimmedValue ≠ "" ∧ !PHONE_PATTERN.test trimmedValue then [INVALID_PHONE] else []
  if jsLength trimmedValue > MAX_PHONE_LENGTH then
    errors1 ++ [formatMessage "MESSAGES.VALIDATION.MAX_LENGTH" [("max", MAX_PHONE_LENGTH)]]
  else errors1

/-- Model of `ValidationService.validateWebsite(value)`. -/
def validateWebsite (value : String) : List String :=
  let trimmedValue := trim value
  let errors1 :=
    if trimmedValue ≠ "" ∧ !URL_PATTERN.test trimmedValue then [INVALID_URL] else []
  if jsLength trimmedValue > MAX_WEBSITE_LENGTH then
    errors1 ++ [formatMessage "MESSAGES.VALIDATION.MAX_LENGTH" [("max", MAX_WEBSITE_LENGTH)]]
  else errors1

/-- Model of `ValidationService.validateDepartment(value)`. -/
def validateDepartment (value : String) : List String :=
  let trimmedValue := trim value
  if jsLength trimmedValue > MAX_DEPARTMENT_LENGTH then
    [formatMessage "MESSAGES.VALIDATION.MAX_LENGTH" [("max", MAX_DEPARTMENT_LENGTH)]]
  else []

/-- Model of `ValidationService.validateField(name, value, existingUsers)`. -/
def validateField (name value : String) (existingUsers : List User) : List String :=
  if name = "firstName" ∨ name = "lastName" then validateName value
  else if name = "username" then validateUsername value existingUsers
  else if name = "email" then validateEmail value existingUsers
  else if name = "phone" then (if trim value ≠ "" then validatePhone value else [])
  else if name = "website" then (if trim value ≠ "" then validateWebsite value else [])
  else if name = "department" then (if trim value ≠ "" then validateDepartment value else [])
  else []

/-- The object returned by `getFormData()`: the seven inputs of the user form. -/
structure FormData where
  firstName : String
  lastName : String
  username : String
  email : String
  phone : String
  website : String
  department : String
  deriving DecidableEq, Repr

/-- The entries `[key, formData[key]]` for `key` in `Object.keys(formData)`, in
the order in which `getFormData()` writes the properties. -/
def FormData.entries (formData : FormData) : List (String × String) :=
  [("firstName", formData.firstName), ("lastName", formData.lastName),
    ("username", formData.username), ("email", formData.email), ("phone", formData.phone),
    ("website", formData.website), ("department", formData.department)]

/-- The object `{ isValid, errors }` returned by `validateForm`; `errors` lists the
properties of `allErrors` in insertion order. -/
structure ValidationResult where
  isValid : Bool
  errors : List (String × List String)
  deriving DecidableEq, Repr

/-- A value used as a condition is truthy unless it is `null` (or `NaN`), here
`none`, or the number 0. -/
def truthyId (excludeUserId : Option Int) : Bool :=
  match excludeUserId with
  | some n => decide (n ≠ 0)
  | none => false

/-- The list `usersForDuplicateCheck` of `validateForm`:
`existingUsers.filter(user => excludeUserId ? user.id !== excludeUserId : true)`. -/
def usersForDuplicateCheck (existingUsers : List User) (excludeUserId : Option Int) :
    List User :=
  existingUsers.filter (fun user =>
    if truthyId excludeUserId then decide (some user.id ≠ excludeUserId) else true)

/-- Model of `ValidationService.validateForm(formData, existingUsers, excludeUserId)`.
The keys of a form are distinct, so each assignment `allErrors[fieldName] = ...`
adds a property. -/
def validateForm (formData : FormData) (existingUsers : List User)
    (excludeUserId : Option Int) : ValidationResult :=
  let users := usersForDuplicateCheck existingUsers excludeUserId
  formData.entries.foldl
    (fun acc entry =>
      let fieldErrors := validateField entry.1 entry.2 users
      if fieldErrors.length > 0 then
        { isValid := false, errors := acc.errors ++ [(entry.1, fieldErrors)] }
      else acc)
    { isValid := true, errors := [] }

/-- Model of `UserService.validateUserData(formData, excludeUserId)`. -/
def UserService.validateUserData (self : UserService) (formData : FormData)
    (excludeUserId : Option Int) : ValidationResult :=
  let usersForValidation := self.originalUsers.filter (fun user =>
    if truthyId excludeUserId then decide (some user.id ≠ excludeUserId) else true)
  validateForm formData usersForValidation excludeUserId

/-! ## Transport (`api.js`) -/

/-- An error value: its `name` and its `message`. -/
structure JSError where
  name : String
  message : String
  deriving DecidableEq, Repr

/-- Model of `new Error(message)`. -/
def JSError.new (message : String) : JSError :=
  { name := "Error", message := message }

/-- The response a `fetch` resolves with: status line, and what `response.json()`
settles to (the parsed body, or the error it rejects with). -/
structure Response (α : Type) where
  status : Nat
  statusText : String
  json : Except JSError α

/-- Model of `response.ok`: the status is in the range 200-299. -/
def Response.ok {α : Type} (response : Response α) : Bool :=
  decide (200 ≤ response.status ∧ response.status ≤ 299)

/-- How one call of `fetch` settles: it resolves with a response or rejects with
an error (a network failure, or an `AbortError` when the signal aborts it). -/
inductive FetchResult (α : Type) where
  | resolved (response : Response α) : FetchResult α
  | rejected (error : JSError) : FetchResult α

/-- The calls that `request` makes to the timer functions and to `fetch`, in the
order in which it makes them. -/
inductive Event where
  | setTimeout (ms : Nat) : Event
  | clearTimeout : Event
  | fetch (attempt : Nat) : Event
  | delay (ms : Nat) : Event
  deriving DecidableEq, Repr

/-- The fields of an `ApiService` instance; the numbers are non-negative integers. -/
structure ApiService where
  baseUrl : String
  timeout : Nat
  retryAttempts : Nat
  retryDelay : Nat
  deriving DecidableEq, Repr

/-- The state built by the constructor of `ApiService`, from `CONFIG.API`. -/
def ApiService.new : ApiService :=
  { baseUrl := "https://jsonplaceholder.typicode.com", timeout := 10000, retryAttempts := 3,
    retryDelay := 1000 }

/-- The constant `CONFIG.MESSAGES.ERRORS.NETWORK_ERROR`. -/
def NETWORK_ERROR : String := "Network error occurred. Please check your internet connection."

/-- The constant `CONFIG.MESSAGES.ERRORS.SERVER_ERROR`. -/
def SERVER_ERROR : String := "Server error occurred. Please try again later."

/-- The constant `CONFIG.MESSAGES.ERRORS.TIMEOUT_ERROR`. -/
def TIMEOUT_ERROR : String := "Request timed out. Please try again."

/-- The constant `CONFIG.MESSAGES.ERRORS.UNKNOWN_ERROR`. -/
def UNKNOWN_ERROR : String := "An unknown error occurred. Please try again."

/-- How `request` ends: the value it returns or the error it throws, and the
events it caused. -/
structure RequestRun (α : Type) where
  result : Except JSError α
  events : List Event

/-- The body of the `try` block of `request` for one attempt: the parsed body, or
the error that reaches the `catch` clause. -/
def attemptOutcome {α : Type} (settled : FetchResult α) : Except JSError α :=
  match settled with
  | .resolved response =>
    if !response.ok then
      .error (JSError.new ("HTTP " ++ toString response.status ++ ": " ++ response.statusText))
    else response.json
  | .rejected error => .error error

/-- The statements of `request` after the loop ("Handle specific error types"),
which throw according to `lastError.message`; reading `message` of an undefined
`lastError` throws a `TypeError`. -/
def classifyLastError (lastError : Option JSError) : JSError :=
  match lastError with
  | none =>
    { name := "TypeError", message := "Cannot read properties of undefined (reading 'message')" }
  | some error =>
    if includes error.message "Failed to fetch" || includes error.message "NetworkError" then
      JSError.new NETWORK_ERROR
    else if includes error.message "5" then JSError.new SERVER_ERROR
    else JSError.new UNKNOWN_ERROR

/-- The `for` loop of `request` from the iteration `attempt` on, with `remaining`
iterations left before `attempt` exceeds `retryAttempts`, followed by the
statements after the loop. `fetch attempt` tells how the call of `fetch` made in
iteration `attempt` settles. -/
def requestLoop {α : Type} (self : ApiService) (fetch : Nat → FetchResult α) :
    Nat → Nat → Option JSError → RequestRun α
  | 0, _, lastError => { result := .error (classifyLastError lastError), events := [] }
  | remaining + 1, attempt, _ =>
    match attemptOutcome (fetch attempt) with
    | .ok body => { result := .ok body, events := [.clearTimeout, .fetch attempt] }
    | .error error =>
      if error.name = "AbortError" then
        { result := .error (JSError.new TIMEOUT_ERROR), events := [.clearTimeout, .fetch attempt] }
      else if attempt = self.retryAttempts then
        { result := .error (classifyLastError (some error)),
          events := [.clearTimeout, .fetch attempt] }
      else
        let rest := requestLoop self fetch remaining (attempt + 1) (some error)
        { result := rest.result,
          events := [.clearTimeout, .fetch attempt, .delay (self.retryDelay * attempt)] ++
            rest.events }

/-- Model of `ApiService.request(url, options)`. -/
def ApiService.request {α : Type} (self : ApiService) (fetch : Nat → FetchResult α) :
    RequestRun α :=
  let run := requestLoop self fetch self.retryAttempts 1 none
  { result := run.result, events := .setTimeout self.timeout :: run.events }

/-- The attempt numbers of the calls of `fetch`, in order. -/
def fetchAttempts : List Event → List Nat
  | [] => []
  | .fetch attempt :: rest => attempt :: fetchAttempts rest
  | _ :: rest => fetchAttempts rest

/-- The durations of the calls of `delay`, in order. -/
def delays : List Event → List Nat
  | [] => []
  | .delay ms :: rest => ms :: delays rest
  | _ :: rest => delays rest

/-- For each call of `fetch`, whether the abort timer is armed when the call is
made: a timer is armed by `setTimeout` and disarmed by `clearTimeout`. The first
argument tells whether it is armed before the first event. -/
def timerArmedAtFetch : Bool → List Event → List Bool
  | _, [] => []
  | _, .setTimeout _ :: rest => timerArmedAtFetch true rest
  | _, .clearTimeout :: rest => timerArmedAtFetch false rest
  | armed, .fetch _ :: rest => armed :: timerArmedAtFetch armed rest
  | armed, .delay _ :: rest => timerArmedAtFetch armed rest

/-! ## Record store (`userService.js`, `api.js`, `ui.js`) -/

/-- The object built by `formatUserDataForAPI`: a record that has no `id` yet. -/
structure UserData where
  name : String
  username : String
  email : String
  phone : String
  website : String
  company : Company
  address : Address
  deriving DecidableEq, Repr

/-- Model of `{ ...userData, id: id }`. -/
def UserData.withId (userData : UserData) (id : Int) : User :=
  { id := id, name := userData.name, username := userData.username, email := userData.email,
    phone := userData.phone, website := userData.website, company := some userData.company,
    address := some userData.address }

/-- Model of `UserService.formatUserDataForAPI(formData)`. -/
def formatUserDataForAPI (formData : FormData) : UserData :=
  { name := trim (trim formData.firstName ++ " " ++ trim formData.lastName),
    username := trim formData.username,
    email := trim formData.email,
    phone := trim formData.phone,
    website := trim formData.website,
    company := { name := if trim formData.department = "" then "Not specified"
                         else trim formData.department },
    address := { street := "", suite := "", city := "", zipcode := "",
                 geo := { lat := "0", lng := "0" } } }

/-- Model of `UIService.getDepartment(user)`, `user.company?.name || ''`. -/
def getDepartment (user : User) : String :=
  orEmpty (user.company.map Company.name)

/-- The parsed body of a response, as far as `createUser` reads it: `null`, or a
value with its `id` property when that is an integer. -/
inductive Json where
  | null : Json
  | object (id : Option Int) : Json
  deriving DecidableEq, Repr

/-- The constant `CONFIG.MESSAGES.ERRORS.CREATE_ERROR`. -/
def CREATE_ERROR : String := "Failed to create user. Please try again."

/-- The constant `CONFIG.MESSAGES.ERRORS.UPDATE_ERROR`. -/
def UPDATE_ERROR : String := "Failed to update user. Please try again."

/-- The constant `CONFIG.MESSAGES.ERRORS.DELETE_ERROR`. -/
def DELETE_ERROR : String := "Failed to delete user. Please try again."

/-- Model of `responseId || Date.now()`: the id of the response when it is truthy
(an integer other than 0), the clock value otherwise. -/
def idOrNow (responseId : Option Int) (now : Int) : Int :=
  match responseId with
  | some n => if n = 0 then now else n
  | none => now

/-- Model of `ApiService.getUsers()`: the body of `GET /users`, or the error of
`request` thrown again. `fetch` tells how the calls of `fetch` settle. -/
def ApiService.getUsers (self : ApiService) (fetch : Nat → FetchResult (List User)) :
    Except JSError (List User) :=
  (self.request fetch).result

/-- Model of `ApiService.createUser(userData)`; `now` is the value of `Date.now()`.
Reading `response.id` of a `null` body throws inside the `try` block. -/
def ApiService.createUser (self : ApiService) (fetch : Nat → FetchResult Json) (now : Int)
    (userData : UserData) : Except JSError User :=
  match (self.request fetch).result with
  | .ok .null => .error (JSError.new CREATE_ERROR)
  | .ok (.object responseId) => .ok (userData.withId (idOrNow responseId now))
  | .error _ => .error (JSError.new CREATE_ERROR)

/-- Model of `ApiService.updateUser(id, userData)`. -/
def ApiService.updateUser (self : ApiService) (fetch : Nat → FetchResult Json) (id : Int)
    (userData : UserData) : Except JSError User :=
  match (self.request fetch).result with
  | .ok _ => .ok (userData.withId id)
  | .error _ => .error (JSError.new UPDATE_ERROR)

/-- Model of `ApiService.deleteUser(id)`: the id of the object
`{ success: true, id }` it returns. -/
def ApiService.deleteUser (self : ApiService) (fetch : Nat → FetchResult Json) (id : Int) :
    Except JSError Int :=
  match (self.request fetch).result with
  | .ok _ => .ok id
  | .error _ => .error (JSError.new DELETE_ERROR)

/-- Model of `UserService.loadUsers()`: the new store state and the value returned
or the error thrown. -/
def UserService.loadUsers (self : UserService) (api : ApiService)
    (fetch : Nat → FetchResult (List User)) : UserService × Except JSError (List User) :=
  match api.getUsers fetch with
  | .ok users =>
    (({ self with users := users, originalUsers := users }).applyFiltersAndSearch.1, .ok users)
  | .error error => (self, .error error)

/-- Model of `UserService.getUserById(id)`. -/
def UserService.getUserById (self : UserService) (id : Int) : Option User :=
  self.users.find? (fun user => user.id == id)

/-- Model of `UserService.createUser(userData)`. -/
def UserService.createUser (self : UserService) (api : ApiService)
    (fetch : Nat → FetchResult Json) (now : Int) (userData : FormData) :
    UserService × Except JSError User :=
  let apiUserData := formatUserDataForAPI userData
  match api.createUser fetch now apiUserData with
  | .ok newUser =>
    (({ self with users := self.users ++ [newUser],
                  originalUsers := self.originalUsers ++ [newUser] }).applyFiltersAndSearch.1,
      .ok newUser)
  | .error error => (self, .error error)

/-- Model of `const i = arr.findIndex(u => u.id === id); if (i !== -1) arr[i] = x;`:
the first entry with that id, if any, is overwritten. -/
def replaceById (arr : List User) (id : Int) (x : User) : List User :=
  let i := arr.findIdx (fun user => user.id == id)
  if i < arr.length then arr.set i x else arr

/-- Model of `UserService.updateUser(id, userData)`. -/
def UserService.updateUser (self : UserService) (api : ApiService)
    (fetch : Nat → FetchResult Json) (id : Int) (userData : FormData) :
    UserService × Except JSError User :=
  let apiUserData := formatUserDataForAPI userData
  match api.updateUser fetch id apiUserData with
  | .ok updatedUser =>
    (({ self with users := replaceById self.users id updatedUser,
                  originalUsers := replaceById self.originalUsers id updatedUser
        }).applyFiltersAndSearch.1,
      .ok updatedUser)
  | .error error => (self, .error error)

/-- Model of `UserService.deleteUser(id)`; it returns `true`. -/
def UserService.deleteUser (self : UserService) (api : ApiService)
    (fetch : Nat → FetchResult Json) (id : Int) : UserService × Except JSError Bool :=
  match api.deleteUser fetch id with
  | .ok _ =>
    (({ self with users := self.users.filter (fun user => user.id != id),
                  originalUsers := self.originalUsers.filter (fun user => user.id != id)
        }).applyFiltersAndSearch.1,
      .ok true)
  | .error error => (self, .error error)

/-- Model of `UserService.toggleSortOrder()`: the new store state and the new order. -/
def UserService.toggleSortOrder (self : UserService) : UserService × String :=
  let newOrder := if self.currentSort.order = ASC then DESC else ASC
  (({ self with currentSort := { self.currentSort with order := newOrder }
      }).applyFiltersAndSearch.1, newOrder)

/-- Model of `UserService.reset()`. -/
def UserService.reset (self : UserService) : UserService :=
  ({ self with users := self.originalUsers, currentFilters := [], searchQuery := "",
               currentSort := { field := "id", order := "asc" } }).applyFiltersAndSearch.1

/-- An entry of the list returned by `getPageRange`: a page number or `'...'`. -/
inductive PageItem where
  | page (n : Int) : PageItem
  | ellipsis : PageItem
  deriving DecidableEq, Repr

/-- The integers `a, a + 1, ..., b`, the values of `i` in
`for (let i = a; i <= b; i++)`. -/
def intRange (a b : Int) : List Int :=
  (List.range (b - a + 1).toNat).map (fun i : Nat => a + (i : Int))

/-- Model of `PaginationService.getPageRange(totalPages)`. -/
def PaginationService.getPageRange {α : Type} (self : PaginationService α) (totalPages : Int) :
    List PageItem :=
  let start := max 1 (self.currentPage - floorDiv self.maxVisiblePages 2)
  let stop := min totalPages (start + self.maxVisiblePages - 1)
  let adjustedStart := max 1 (stop - self.maxVisiblePages + 1)
  let range1 : List PageItem :=
    if adjustedStart > 1 then
      (if adjustedStart > 2 then [.page 1, .ellipsis] else [.page 1])
    else []
  let range2 := range1 ++ (intRange adjustedStart stop).map PageItem.page
  let range3 :=
    if stop < totalPages then
      (if stop < totalPages - 1 then range2 ++ [.ellipsis] else range2) ++ [.page totalPages]
    else range2
  range3

/-! ## Pager state and form extraction (`pagination.js`, `userService.js`) -/

/-- The object returned by `PaginationService.getCurrentState()`. -/
structure PagerState where
  currentPage : Int
  pageSize : Int
  totalItems : Int
  totalPages : Int
  hasNextPage : Bool
  hasPreviousPage : Bool
  deriving DecidableEq, Repr

/-- Model of `PaginationService.getCurrentState()`. -/
def PaginationService.getCurrentState {α : Type} (self : PaginationService α) : PagerState :=
  { currentPage := self.currentPage,
    pageSize := self.pageSize,
    totalItems := self.totalItems,
    totalPages := self.getTotalPages,
    hasNextPage := decide (self.currentPage < self.getTotalPages),
    hasPreviousPage := decide (self.currentPage > 1) }

/-- Model of `PaginationService.reset()`. -/
def PaginationService.reset {α : Type} (self : PaginationService α) : PaginationService α :=
  { self with currentPage := 1, pageSize := DEFAULT_PAGE_SIZE, totalItems := 0, data := [] }

/-- Model of `UserService.extractFormDataFromUser(user)`. -/
def extractFormDataFromUser (user : User) : FormData :=
  let nameParts := splitSpace user.name
  { firstName := orEmpty nameParts.head?,
    lastName := joinSpace (nameParts.drop 1),
    username := user.username,
    email := user.email,
    phone := user.phone,
    website := user.website,
    department := user.companyName }

/-- Model of `UserService.getFilteredUsers()`: a copy of `filteredUsers`. -/
def UserService.getFilteredUsers (self : UserService) : List User :=
  self.filteredUsers

/-! ## Notions used to state the properties -/

/-- Values of one sort: two numbers, two strings, or neither a number nor a string. -/
def JSValue.sameSort : JSValue → JSValue → Prop
  | .num _, .num _ => True
  | .str _, .str _ => True
  | .num _, _ => False
  | .str _, _ => False
  | _, .num _ => False
  | _, .str _ => False
  | _, _ => True

/-- The order on sort keys for the four named sort fields: the numeric order on
`id`, the order of the lower-cased strings on `name`, `email` and `username`,
strings being compared as JavaScript does, by their UTF-16 code units. -/
def keyLe (sortField : String) (a b : User) : Prop :=
  (sortField = "id" → a.id ≤ b.id) ∧
  (sortField = "name" → codeUnits (toLowerCase a.name) ≤ codeUnits (toLowerCase b.name)) ∧
  (sortField = "email" → codeUnits (toLowerCase a.email) ≤ codeUnits (toLowerCase b.email)) ∧
  (sortField = "username" →
    codeUnits (toLowerCase a.username) ≤ codeUnits (toLowerCase b.username))

/-- The part of a display name before its first space (the whole name when it
has no space). -/
def firstNameOf (name : String) : String :=
  String.mk (name.data.takeWhile (fun c => c != ' '))

/-- Everything after the first space of a display name (empty when it has no
space). -/
def lastNameOf (name : String) : String :=
  String.mk ((name.data.dropWhile (fun c => c != ' ')).drop 1)

/-- A sample record whose name and username start with a lower-case `é`. -/
def ericLower : User := ⟨1, "éric a", "éric", "eric1@x.io", "", "", none, none⟩

/-- A sample record whose name and username are those of `ericLower` in another
letter case. -/
def ericUpper : User := ⟨2, "Éric a", "ÉRIC", "eric2@x.io", "", "", none, none⟩

/-- A sample record named `Émile Zola`. -/
def emileZola : User := ⟨4, "Émile Zola", "ezola", "zola@x.io", "", "", some ⟨"Éditions"⟩, none⟩

/-- A sample record named `Éz`. -/
def nameEz : User := ⟨1, "Éz", "ez", "ez@x.io", "", "", none, none⟩

/-- A sample record named `éa`. -/
def nameEa : User := ⟨2, "éa", "ea", "ea@x.io", "", "", none, none⟩

/-- A sample record whose name is the character U+FFFD. -/
def nameReplacement : User := ⟨1, "\uFFFD", "r", "r@x.io", "", "", none, none⟩

/-- A sample record whose name is the character U+1F600, two UTF-16 code units. -/
def nameFace : User := ⟨2, String.mk [Char.ofNat 0x1F600], "f", "f@x.io", "", "", none, none⟩

/-- A sample form with the username `ÉRIC`. -/
def ericForm : FormData := ⟨"Éric", "Arnaud", "ÉRIC", "eric@x.io", "", "", ""⟩

/-- A sample record with an empty username. -/
def namelessUser : User := ⟨1, "Ann Lee", "", "ann@x.io", "", "", none, none⟩

/-- A sample form whose username is blank. -/
def blankUsernameForm : FormData := ⟨"Al", "Lee", "  ", "al@x.io", "", "", ""⟩

/-- A sample record with username `bob` and id 7. -/
def bobSeven : User := ⟨7, "Bob Seven", "bob", "bob@x.io", "", "", none, none⟩

/-- A sample record with username `bob` and id 0. -/
def bobZero : User := ⟨0, "Bob Zero", "bob", "bob@x.io", "", "", none, none⟩

/-- A sample form with username `Bob` and a fresh email. -/
def bobForm : FormData := ⟨"Bob", "Seven", "Bob", "robert@x.io", "", "", ""⟩

/-- A sample form repeating the username and email of `bobSeven` and `bobZero`. -/
def bobEditForm : FormData := ⟨"Bob", "Zero", "bob", "bob@x.io", "", "", ""⟩

/-- A sample `fetch`: the first two calls reject with a network error, the third
resolves with status 200 and the body 42. -/
def failTwiceThenSucceed : Nat → FetchResult Nat :=
  fun attempt =>
    if attempt ≤ 2 then .rejected { name := "TypeError", message := "Failed to fetch" }
    else .resolved { status := 200, statusText := "OK", json := .ok 42 }

/-- A sample `fetch`: every call resolves with status 405. -/
def always405 : Nat → FetchResult Nat :=
  fun _ => .resolved { status := 405, statusText := "Method Not Allowed", json := .ok 0 }

/-- A sample `fetch`: every call resolves with status 404. -/
def always404 : Nat → FetchResult Nat :=
  fun _ => .resolved { status := 404, statusText := "Not Found", json := .ok 0 }

/-- A sample `fetch`: the first call resolves with status 503, the second is
aborted. -/
def abortOnSecond : Nat → FetchResult Nat :=
  fun attempt =>
    if attempt ≤ 1 then
      .resolved { status := 503, statusText := "Service Unavailable", json := .ok 0 }
    else .rejected { name := "AbortError", message := "The user aborted a request." }

/-- A call of `fetch` fails without an abort: it rejects with an error that is
not an `AbortError`, or it resolves with a status outside 200-299. -/
def failsWithoutAbort {α : Type} (settled : FetchResult α) : Prop :=
  (∃ e, settled = .rejected e ∧ e.name ≠ "AbortError") ∨
  (∃ r, settled = .resolved r ∧ r.ok = false)

/-- A call of `fetch` succeeds with the parsed body `body`. -/
def succeedsWith {α : Type} (settled : FetchResult α) (body : α) : Prop :=
  ∃ r, settled = .resolved r ∧ r.ok = true ∧ r.json = .ok body

/-- A call of `fetch` fails with an abort. -/
def abortsWith {α : Type} (settled : FetchResult α) : Prop :=
  ∃ e, settled = .rejected e ∧ e.name = "AbortError"

/-- The strings matched by a regular expression, read as lists of characters. -/
inductive RegExp.Matches : RegExp → List Char → Prop where
  | eps : RegExp.Matches .eps []
  | cls (p : Char → Bool) (c : Char) (h : p c = true) : RegExp.Matches (.cls p) [c]
  | seq (r s : RegExp) (x y : List Char) (hx : RegExp.Matches r x) (hy : RegExp.Matches s y) :
      RegExp.Matches (.seq r s) (x ++ y)
  | altLeft (r s : RegExp) (x : List Char) (hx : RegExp.Matches r x) :
      RegExp.Matches (.alt r s) x
  | altRight (r s : RegExp) (x : List Char) (hx : RegExp.Matches s x) :
      RegExp.Matches (.alt r s) x
  | starNil (r : RegExp) : RegExp.Matches (.star r) []
  | starCons (r : RegExp) (x y : List Char) (hx : RegExp.Matches r x)
      (hy : RegExp.Matches (.star r) y) : RegExp.Matches (.star r) (x ++ y)

/-- The shape `local@domain.tld`: three non-empty parts free of white space and of
`@`, joined as local part, `@`, domain, `.`, top-level part. -/
def emailShape (s : List Char) : Prop :=
  ∃ a b c : List Char, a ≠ [] ∧ b ≠ [] ∧ c ≠ [] ∧
    (∀ x ∈ a, isTrimChar x = false ∧ x ≠ '@') ∧
    (∀ x ∈ b, isTrimChar x = false ∧ x ≠ '@') ∧
    (∀ x ∈ c, isTrimChar x = false ∧ x ≠ '@') ∧
    s = a ++ '@' :: (b ++ '.' :: c)

/-- A sample `fetch`: every call resolves with status 201 and a body whose `id`
property is the given one. -/
def respondWith (id : Option Int) : Nat → FetchResult Json :=
  fun _ => .resolved { status := 201, statusText := "Created", json := .ok (.object id) }

/-- A sample `fetch`: every call resolves with status 200 and the given list of
records as body. -/
def respondUsers (users : List User) : Nat → FetchResult (List User) :=
  fun _ => .resolved { status := 200, statusText := "OK", json := .ok users }

/-- A sample `fetch`: every call rejects with a network error. -/
def alwaysOffline : Nat → FetchResult Json :=
  fun _ => .rejected { name := "TypeError", message := "Failed to fetch" }

/-- A sample form with a blank department. -/
def newUserForm : FormData := ⟨" New ", "User", "nu", "nu@x.io", "", "", "  "⟩

/-- The store after two creations from `sampleStore`, the server answering both
with the id 11 (as JSONPlaceholder does for every `POST /users`). -/
def twiceCreatedStore : UserService :=
  ((sampleStore.createUser ApiService.new (respondWith (some 11)) 1700000000000
    newUserForm).1.createUser ApiService.new (respondWith (some 11)) 1700000000001
    bobForm).1

/-- A store holding `alice3`, `zed1`, `alice2`, its view derived under the default
sort (by `id`, ascending), after the call `sortUsers(filteredUsers, 'name', 'asc')`
that the sort field selector makes. -/
def staleStore : UserService :=
  ((({ UserService.new with users := [alice3, zed1, alice2],
                            originalUsers := [alice3, zed1, alice2] } :
      UserService).applyFiltersAndSearch.1).sortUsers [zed1, alice2, alice3] (some "name")
    (some "asc")).1

/-- The store states reached from a successful `loadUsers` by calls of the
mutators (whether they succeed or fail) and of the search, filter, sort order and
reset operations. -/
inductive UserService.Reachable : UserService → Prop where
  | loadUsers (s : UserService) (api : ApiService) (fetch : Nat → FetchResult (List User))
      (users : List User) (h : (s.loadUsers api fetch).2 = .ok users) :
      UserService.Reachable (s.loadUsers api fetch).1
  | createUser (s : UserService) (api : ApiService) (fetch : Nat → FetchResult Json)
      (now : Int) (userData : FormData) (h : UserService.Reachable s) :
      UserService.Reachable (s.createUser api fetch now userData).1
  | updateUser (s : UserService) (api : ApiService) (fetch : Nat → FetchResult Json)
      (id : Int) (userData : FormData) (h : UserService.Reachable s) :
      UserService.Reachable (s.updateUser api fetch id userData).1
  | deleteUser (s : UserService) (api : ApiService) (fetch : Nat → FetchResult Json)
      (id : Int) (h : UserService.Reachable s) :
      UserService.Reachable (s.deleteUser api fetch id).1
  | applySearch (s : UserService) (query : String) (h : UserService.Reachable s) :
      UserService.Reachable (s.applySearch query)
  | applyFilters (s : UserService) (filters : List (String × String))
      (h : UserService.Reachable s) : UserService.Reachable (s.applyFilters filters)
  | clearFilters (s : UserService) (h : UserService.Reachable s) :
      UserService.Reachable s.clearFilters
  | toggleSortOrder (s : UserService) (h : UserService.Reachable s) :
      UserService.Reachable s.toggleSortOrder.1
  | reset (s : UserService) (h : UserService.Reachable s) : UserService.Reachable s.reset

/-- The last page number of the window of page numbers: `min(totalPages,
max(1, currentPage - floor(maxVisible / 2)) + maxVisible - 1)`. -/
def windowEnd (currentPage maxVisible totalPages : Int) : Int :=
  min totalPages (max 1 (currentPage - maxVisible / 2) + maxVisible - 1)

/-- The first page number of the window of page numbers:
`max(1, end - maxVisible + 1)`. -/
def windowStart (currentPage maxVisible totalPages : Int) : Int :=
  max 1 (windowEnd currentPage maxVisible totalPages - maxVisible + 1)

/-- The pager states reached from a freshly constructed `PaginationService` by
calls of `updateData`, `goToPage`, `nextPage`, `previousPage`, `changePageSize`
with a positive size, and `reset`. -/
inductive PaginationService.Reachable {α : Type} : PaginationService α → Prop where
  | new : PaginationService.Reachable PaginationService.new
  | updateData (s : PaginationService α) (newData : List α)
      (h : PaginationService.Reachable s) : PaginationService.Reachable (s.updateData newData)
  | goToPage (s : PaginationService α) (page : Int) (h : PaginationService.Reachable s) :
      PaginationService.Reachable (s.goToPage page)
  | nextPage (s : PaginationService α) (h : PaginationService.Reachable s) :
      PaginationService.Reachable s.nextPage
  | previousPage (s : PaginationService α) (h : PaginationService.Reachable s) :
      PaginationService.Reachable s.previousPage
  | changePageSize (s : PaginationService α) (newPageSize : Int) (hpos : 0 < newPageSize)
      (h : PaginationService.Reachable s) :
      PaginationService.Reachable (s.changePageSize newPageSize)
  | reset (s : PaginationService α) (h : PaginationService.Reachable s) :
      PaginationService.Reachable s.reset

/-- A pager with the default page size holding the twelve items `1, ..., 12`. -/
def twelveItems : PaginationService Nat :=
  PaginationService.new.updateData [1, 2, 3, 4, 5, 6, 7, 8, 9, 10, 11, 12]

/-- The page numbers of a page range, the ellipses left out. -/
def pageNumbers : List PageItem → List Int
  | [] => []
  | .page n :: rest => n :: pageNumbers rest
  | .ellipsis :: rest => pageNumbers rest

/-- A list of page numbers written out with an ellipsis between two neighbours
exactly when they differ by more than 1. -/
def withGaps : List Int → List PageItem
  | [] => []
  | [a] => [.page a]
  | a :: b :: rest =>
    if b - a > 1 then .page a :: .ellipsis :: withGaps (b :: rest)
    else .page a :: withGaps (b :: rest)

/-- The shape of a phone number: an optional `+`, one digit from 1 to 9, then at
most 15 further digits. -/
def phoneShape (s : List Char) : Prop :=
  ∃ (sign : List Char) (d : Char) (rest : List Char),
    (sign = [] ∨ sign = ['+']) ∧ ('1' ≤ d ∧ d ≤ '9') ∧
    (∀ x ∈ rest, '0' ≤ x ∧ x ≤ '9') ∧ rest.length ≤ 15 ∧ s = sign ++ d :: rest

/-- A sample value of 101 letters `a`: not an email address and longer than
`MAX_EMAIL_LENGTH`. -/
def longInvalidEmail : String :=
  String.mk (List.replicate 101 'a')

/-- A sample record with the one-letter username `B`. -/
def userB : User := ⟨5, "Bea Bee", "B", "bea@x.io", "", "", none, none⟩

/-! ## Auxiliary facts: strings, comparator, sort -/

theorem includes_iff (s q : String) : includes s q = true ↔ q.data <:+: s.data := by
  simp [includes]

theorem includes_empty (s : String) : includes s "" = true := by
  simp [includes]

theorem matchesSearch_empty (user : User) : matchesSearch "" user = true := by
  simp [matchesSearch, includes_empty]

theorem matchesFilters_nil (user : User) : matchesFilters [] user = true := by
  simp [matchesFilters]

theorem arraySort_perm {α : Type} (compareFn : α → α → Int) (arr : List α) :
    (arraySort compareFn arr).Perm arr :=
  List.perm_insertionSort _ arr

theorem mem_arraySort {α : Type} (compareFn : α → α → Int) (arr : List α) (x : α) :
    x ∈ arraySort compareFn arr ↔ x ∈ arr :=
  (arraySort_perm compareFn arr).mem_iff

theorem filter_orderedInsert {α : Type} (r : α → α → Prop) [DecidableRel r] (p : α → Bool)
    (hp : ∀ a b, p a = true → p b = true → r a b) (a : α) (l : List α) :
    (l.orderedInsert r a).filter p = if p a then a :: l.filter p else l.filter p := by
  induction l with
  | nil => simp [List.filter_cons]
  | cons b t ih =>
    by_cases hab : r a b
    · simp [List.orderedInsert, hab, List.filter_cons]
    · have hnot : ¬ (p a = true ∧ p b = true) := fun h => hab (hp a b h.1 h.2)
      simp only [List.orderedInsert, hab, if_false, List.filter_cons, ih]
      by_cases ha : p a = true <;> by_cases hb : p b = true <;> simp_all

theorem filter_insertionSort {α : Type} (r : α → α → Prop) [DecidableRel r] (p : α → Bool)
    (hp : ∀ a b, p a = true → p b = true → r a b) (l : List α) :
    (l.insertionSort r).filter p = l.filter p := by
  induction l with
  | nil => rfl
  | cons a t ih =>
    simp only [List.insertionSort, filter_orderedInsert r p hp, ih, List.filter_cons]

theorem JSValue.lt_irrefl (x : JSValue) : x.lt x = false := by
  cases x <;> simp [JSValue.lt]

theorem JSValue.lt_asymm {x y : JSValue} (h : x.lt y = true) : y.lt x = false := by
  cases x <;> cases y <;> simp_all [JSValue.lt]
  · omega
  · exact le_of_lt h

theorem utf16Units_inj_append (c d : Char) (r1 r2 : List Nat)
    (h : utf16Units c ++ r1 = utf16Units d ++ r2) : c = d ∧ r1 = r2 := by
  have hc := c.valid
  have hd := d.valid
  have hcn : c.toNat = c.val.toNat := rfl
  have hdn : d.toNat = d.val.toNat := rfl
  simp only [UInt32.isValidChar, Nat.isValidChar] at hc hd
  rw [← hcn] at hc
  rw [← hdn] at hd
  have key : c.toNat = d.toNat ∧ r1 = r2 := by
    unfold utf16Units at h
    split_ifs at h with h1 h2 h2
    · simp only [List.singleton_append, List.cons.injEq] at h
      exact h
    · simp only [List.singleton_append, List.cons_append, List.nil_append, List.cons.injEq] at h
      omega
    · simp only [List.singleton_append, List.cons_append, List.nil_append, List.cons.injEq] at h
      omega
    · simp only [List.cons_append, List.nil_append, List.cons.injEq] at h
      refine ⟨?_, h.2.2⟩
      omega
  exact ⟨by rw [← Char.ofNat_toNat c, ← Char.ofNat_toNat d, key.1], key.2⟩

theorem flatMap_utf16Units_inj (a b : List Char)
    (h : a.flatMap utf16Units = b.flatMap utf16Units) : a = b := by
  induction a generalizing b with
  | nil =>
    cases b with
    | nil => rfl
    | cons d t =>
      exfalso
      simp only [List.flatMap_nil, List.flatMap_cons] at h
      cases hu : utf16Units d with
      | nil => unfold utf16Units at hu; split_ifs at hu
      | cons x r => rw [hu] at h; cases h
  | cons c s ih =>
    cases b with
    | nil =>
      exfalso
      simp only [List.flatMap_nil, List.flatMap_cons] at h
      cases hu : utf16Units c with
      | nil => unfold utf16Units at hu; split_ifs at hu
      | cons x r => rw [hu] at h; cases h
    | cons d t =>
      simp only [List.flatMap_cons] at h
      obtain ⟨h1, h2⟩ := utf16Units_inj_append c d _ _ h
      rw [h1, ih t h2]

theorem codeUnits_injective (s t : String) (h : codeUnits s = codeUnits t) : s = t :=
  String.ext (flatMap_utf16Units_inj s.data t.data h)

theorem JSValue.lt_negTrans {x y z : JSValue} (hxy : x.sameSort y) (hyz : y.sameSort z)
    (h1 : x.lt y = false) (h2 : y.lt z = false) : x.lt z = false := by
  cases x <;> cases y <;> cases z <;> simp_all [JSValue.lt, JSValue.sameSort]
  · omega
  · exact le_trans h2 h1

theorem sortValue_sameSort (sortField : String) (a b : User) :
    (sortValue sortField a).sameSort (sortValue sortField b) := by
  unfold sortValue User.prop
  split_ifs <;> simp [JSValue.sameSort]
  · cases a.company <;> cases b.company <;> simp [JSValue.sameSort]
  · cases a.address <;> cases b.address <;> simp [JSValue.sameSort]

theorem compareUsers_le_zero_asc (sortField : String) (a b : User) :
    compareUsers sortField ASC a b ≤ 0 ↔ (sortValue sortField b).lt (sortValue sortField a) = false := by
  unfold compareUsers
  by_cases h1 : (sortValue sortField a).lt (sortValue sortField b) = true
  · simp [h1, JSValue.lt_asymm h1]
  · by_cases h2 : (sortValue sortField b).lt (sortValue sortField a) = true
    · simp [h1, h2]
    · simp [h1, h2]

theorem compareUsers_le_zero_desc (sortField sortOrder : String) (h : sortOrder ≠ ASC) (a b : User) :
    compareUsers sortField sortOrder a b ≤ 0 ↔ (sortValue sortField a).lt (sortValue sortField b) = false := by
  unfold compareUsers
  by_cases h1 : (sortValue sortField a).lt (sortValue sortField b) = true
  · simp [h1, h]
  · by_cases h2 : (sortValue sortField b).lt (sortValue sortField a) = true
    · simp [h1, h2, h]
    · simp [h1, h2]

theorem compareUsers_eq_zero_of_eq (sortField sortOrder : String) (a b : User)
    (h : sortValue sortField a = sortValue sortField b) :
    compareUsers sortField sortOrder a b = 0 := by
  simp [compareUsers, h, JSValue.lt_irrefl]

theorem compareUsers_total (sortField sortOrder : String) (a b : User) :
    compareUsers sortField sortOrder a b ≤ 0 ∨ compareUsers sortField sortOrder b a ≤ 0 := by
  by_cases ho : sortOrder = ASC
  · subst ho
    rw [compareUsers_le_zero_asc, compareUsers_le_zero_asc]
    by_cases h : (sortValue sortField b).lt (sortValue sortField a) = true
    · exact Or.inr (JSValue.lt_asymm h)
    · exact Or.inl (by simpa using h)
  · rw [compareUsers_le_zero_desc _ _ ho, compareUsers_le_zero_desc _ _ ho]
    by_cases h : (sortValue sortField a).lt (sortValue sortField b) = true
    · exact Or.inr (JSValue.lt_asymm h)
    · exact Or.inl (by simpa using h)

theorem compareUsers_trans (sortField sortOrder : String) (a b c : User)
    (hab : compareUsers sortField sortOrder a b ≤ 0)
    (hbc : compareUsers sortField sortOrder b c ≤ 0) :
    compareUsers sortField sortOrder a c ≤ 0 := by
  by_cases ho : sortOrder = ASC
  · subst ho
    rw [compareUsers_le_zero_asc] at hab hbc ⊢
    exact JSValue.lt_negTrans (sortValue_sameSort _ _ _) (sortValue_sameSort _ _ _) hbc hab
  · rw [compareUsers_le_zero_desc _ _ ho] at hab hbc ⊢
    exact JSValue.lt_negTrans (sortValue_sameSort _ _ _) (sortValue_sameSort _ _ _) hab hbc

theorem arraySort_compareUsers_pairwise (sortField sortOrder : String) (users : List User) :
    (arraySort (compareUsers sortField sortOrder) users).Pairwise
      (fun a b => compareUsers sortField sortOrder a b ≤ 0) := by
  haveI : IsTotal User (fun a b => compareUsers sortField sortOrder a b ≤ 0) :=
    ⟨compareUsers_total sortField sortOrder⟩
  haveI : IsTrans User (fun a b => compareUsers sortField sortOrder a b ≤ 0) :=
    ⟨compareUsers_trans sortField sortOrder⟩
  exact List.sorted_insertionSort _ users

theorem str_lt_false_iff (s t : String) :
    (JSValue.str s).lt (JSValue.str t) = false ↔ codeUnits t ≤ codeUnits s := by
  simp [JSValue.lt]

theorem num_lt_false_iff (m n : Int) :
    (JSValue.num m).lt (JSValue.num n) = false ↔ n ≤ m := by
  simp [JSValue.lt]

theorem keyLe_of_lt_false (sortField : String) (a b : User)
    (h : (sortValue sortField b).lt (sortValue sortField a) = false) : keyLe sortField a b := by
  refine ⟨?_, ?_, ?_, ?_⟩ <;> intro hf <;> subst hf
  · simpa [sortValue, JSValue.lt] using h
  · have h' : (JSValue.str (toLowerCase b.name)).lt (JSValue.str (toLowerCase a.name)) = false := by
      simpa [sortValue] using h
    exact (str_lt_false_iff _ _).1 h'
  · have h' : (JSValue.str (toLowerCase b.email)).lt (JSValue.str (toLowerCase a.email)) = false := by
      simpa [sortValue] using h
    exact (str_lt_false_iff _ _).1 h'
  · have h' : (JSValue.str (toLowerCase b.username)).lt
        (JSValue.str (toLowerCase a.username)) = false := by
      simpa [sortValue] using h
    exact (str_lt_false_iff _ _).1 h'

theorem sortUsers_snd (self : UserService) (users : List User) (field order : Option String) :
    (self.sortUsers users field order).2 =
      arraySort (compareUsers (orElse field self.currentSort.field)
        (orElse order self.currentSort.order)) users := rfl

theorem sortUsers_none_fst (self : UserService) (users : List User) :
    (self.sortUsers users none none).1 = self := rfl

theorem applyFiltersAndSearch_fst (self : UserService) :
    self.applyFiltersAndSearch.1 = { self with filteredUsers := self.applyFiltersAndSearch.2 } := rfl

theorem applyFiltersAndSearch_snd (self : UserService) :
    self.applyFiltersAndSearch.2 =
      arraySort (compareUsers self.currentSort.field self.currentSort.order)
        (self.users.filter (fun user =>
          matchesSearch self.searchQuery user && matchesFilters self.currentFilters user)) := by
  have hs : (if self.searchQuery ≠ "" then self.users.filter (matchesSearch self.searchQuery)
      else self.users) = self.users.filter (matchesSearch self.searchQuery) := by
    by_cases h : self.searchQuery = ""
    · rw [h]
      simpa using (List.filter_eq_self.2 (fun u _ => matchesSearch_empty u)).symm
    · simp [h]
  have hf : ∀ l : List User,
      (if self.currentFilters.length > 0 then l.filter (matchesFilters self.currentFilters)
        else l) = l.filter (matchesFilters self.currentFilters) := by
    intro l
    by_cases h : self.currentFilters = []
    · rw [h]
      simpa using (List.filter_eq_self.2 (fun u _ => matchesFilters_nil u)).symm
    · have : self.currentFilters.length > 0 := List.length_pos.2 h
      simp [this]
  simp only [UserService.applyFiltersAndSearch, sortUsers_snd, orElse]
  rw [hs, hf, List.filter_filter]
  congr 1
  apply List.filter_congr
  intro u _
  exact Bool.and_comm _ _

/-- Claim C1. The view produced by `applyFiltersAndSearch` is a permutation of the
records of the working set that satisfy the search predicate and the filter
predicate: nothing is added, no matching record is dropped, multiplicities are
kept. The same list is stored in `filteredUsers`. -/
theorem applyFiltersAndSearch_perm_filter (self : UserService) :
    self.applyFiltersAndSearch.2.Perm
      (self.users.filter (fun user =>
        matchesSearch self.searchQuery user && matchesFilters self.currentFilters user)) ∧
    self.applyFiltersAndSearch.1.filteredUsers = self.applyFiltersAndSearch.2 ∧
    ∀ user : User, self.applyFiltersAndSearch.2.count user =
      if matchesSearch self.searchQuery user && matchesFilters self.currentFilters user
      then self.users.count user else 0 := by
  have hperm : self.applyFiltersAndSearch.2.Perm
      (self.users.filter (fun user =>
        matchesSearch self.searchQuery user && matchesFilters self.currentFilters user)) := by
    rw [applyFiltersAndSearch_snd]
    exact arraySort_perm _ _
  refine ⟨hperm, rfl, ?_⟩
  intro user
  rw [hperm.count_eq]
  by_cases hu : (matchesSearch self.searchQuery user && matchesFilters self.currentFilters user) = true
  · rw [if_pos hu]
    exact List.count_filter (by simpa using hu)
  · rw [if_neg hu]
    exact List.count_eq_zero.2 (fun hmem => hu (List.mem_filter.1 hmem).2)

/-- Claim C2. `sortUsers` is stable. For the sort field in force (the argument, or
`currentSort.field` when none is given) and any order, the records that share a
sort key come out exactly as they came in: for every key the sub-list of records
with that key is unchanged, and two records with equal keys keep their relative
order. For `id` the key is the number, for `name`, `email` and `username` the
lower-cased string. -/
theorem sortUsers_stable (self : UserService) (users : List User) (field order : Option String) :
    (∀ key : JSValue,
      (self.sortUsers users field order).2.filter
          (fun u => decide (sortValue (orElse field self.currentSort.field) u = key)) =
        users.filter (fun u => decide (sortValue (orElse field self.currentSort.field) u = key))) ∧
    (∀ a b : User,
      sortValue (orElse field self.currentSort.field) a =
        sortValue (orElse field self.currentSort.field) b →
      List.Sublist [a, b] users → List.Sublist [a, b] (self.sortUsers users field order).2) ∧
    (∀ a b : User,
      (sortValue "id" a = sortValue "id" b ↔ a.id = b.id) ∧
      (sortValue "name" a = sortValue "name" b ↔ toLowerCase a.name = toLowerCase b.name) ∧
      (sortValue "email" a = sortValue "email" b ↔ toLowerCase a.email = toLowerCase b.email) ∧
      (sortValue "username" a = sortValue "username" b ↔
        toLowerCase a.username = toLowerCase b.username)) := by
  refine ⟨?_, ?_, ?_⟩
  · intro key
    rw [sortUsers_snd]
    apply filter_insertionSort
    intro a b ha hb
    have hab : sortValue (orElse field self.currentSort.field) a =
        sortValue (orElse field self.currentSort.field) b := by
      rw [of_decide_eq_true ha, of_decide_eq_true hb]
    exact le_of_eq (compareUsers_eq_zero_of_eq _ _ a b hab)
  · intro a b hab hsub
    rw [sortUsers_snd]
    exact List.pair_sublist_insertionSort
      (le_of_eq (compareUsers_eq_zero_of_eq _ _ a b hab)) hsub
  · intro a b
    simp [sortValue]

/-- Stability on concrete lists: `alice3` and `alice2` have the same key for the
field `name` and keep their order when the list is sorted by name, descending;
so do `éric a` and `Éric a`, whose names differ by the case of a letter outside
ASCII, in both directions. -/
theorem sortUsers_stable_witness :
    sortValue (orElse (some "name") UserService.new.currentSort.field) alice3 =
      sortValue (orElse (some "name") UserService.new.currentSort.field) alice2 ∧
    List.Sublist [alice3, alice2] [alice3, zed1, alice2] ∧
    List.Sublist [alice3, alice2]
      (UserService.new.sortUsers [alice3, zed1, alice2] (some "name") (some "desc")).2 ∧
    toLowerCase "Éric a" = "éric a" ∧
    sortValue "name" ericLower = sortValue "name" ericUpper ∧
    (UserService.new.sortUsers [ericLower, ericUpper] (some "name") (some "asc")).2 =
      [ericLower, ericUpper] ∧
    (UserService.new.sortUsers [ericLower, ericUpper] (some "name") (some "desc")).2 =
      [ericLower, ericUpper] ∧
    (UserService.new.sortUsers [ericUpper, ericLower] (some "name") (some "asc")).2 =
      [ericUpper, ericLower] :=
  ⟨by decide, by decide,
    (sortUsers_stable UserService.new [alice3, zed1, alice2] (some "name") (some "desc")).2.1
      alice3 alice2 (by decide) (by decide),
    by decide, by decide, by decide, by decide, by decide⟩

/-- Claim C3. The output of `sortUsers` is ordered by the sort field in force: in
ascending order every record's key is at most the key of every later record (so
of the next one), in descending order at least; the key is the numeric `id`, or
the lower-cased `name`, `email` or `username`, so that `alice` and `Alice` rank
equal. -/
theorem sortUsers_ordered (self : UserService) (users : List User) (field order : Option String) :
    (orElse order self.currentSort.order = ASC →
      (self.sortUsers users field order).2.Pairwise
          (keyLe (orElse field self.currentSort.field)) ∧
        (self.sortUsers users field order).2.Chain'
          (keyLe (orElse field self.currentSort.field))) ∧
    (orElse order self.currentSort.order = DESC →
      (self.sortUsers users field order).2.Pairwise
          (fun a b => keyLe (orElse field self.currentSort.field) b a) ∧
        (self.sortUsers users field order).2.Chain'
          (fun a b => keyLe (orElse field self.currentSort.field) b a)) ∧
    (∀ (sortOrder : String) (a b : User), a.name = "alice" → b.name = "Alice" →
      compareUsers "name" sortOrder a b = 0 ∧ compareUsers "name" sortOrder b a = 0) := by
  have hsorted := arraySort_compareUsers_pairwise (orElse field self.currentSort.field)
    (orElse order self.currentSort.order) users
  refine ⟨?_, ?_, ?_⟩
  · intro ho
    have hp : (self.sortUsers users field order).2.Pairwise
        (keyLe (orElse field self.currentSort.field)) := by
      rw [sortUsers_snd]
      refine hsorted.imp ?_
      intro a b hab
      rw [ho, compareUsers_le_zero_asc] at hab
      exact keyLe_of_lt_false _ a b hab
    exact ⟨hp, List.Pairwise.chain' hp⟩
  · intro ho
    have hne : orElse order self.currentSort.order ≠ ASC := by
      rw [ho]; decide
    have hp : (self.sortUsers users field order).2.Pairwise
        (fun a b => keyLe (orElse field self.currentSort.field) b a) := by
      rw [sortUsers_snd]
      refine hsorted.imp ?_
      intro a b hab
      rw [compareUsers_le_zero_desc _ _ hne] at hab
      exact keyLe_of_lt_false _ b a hab
    exact ⟨hp, List.Pairwise.chain' hp⟩
  · intro sortOrder a b ha hb
    have hlow : toLowerCase "Alice" = toLowerCase "alice" := by decide
    constructor
    · apply compareUsers_eq_zero_of_eq
      simp [sortValue, ha, hb, hlow]
    · apply compareUsers_eq_zero_of_eq
      simp [sortValue, ha, hb, hlow]

/-- Ordering on concrete lists: sorting three records by `id` in ascending order
(the default sort) yields the ids 1, 2, 3; by name, `éa` comes before `Éz` (the
keys are `éa` and `éz`), and the name U+1F600, whose first code unit is D83D,
comes before the name U+FFFD. -/
theorem sortUsers_ordered_witness :
    orElse none UserService.new.currentSort.order = ASC ∧
    (UserService.new.sortUsers [alice3, zed1, alice2] none none).2 = [zed1, alice2, alice3] ∧
    (UserService.new.sortUsers [alice3, zed1, alice2] none none).2.Pairwise (keyLe "id") ∧
    toLowerCase "Éz" = "éz" ∧
    (UserService.new.sortUsers [nameEz, nameEa] (some "name") (some "asc")).2 =
      [nameEa, nameEz] ∧
    (UserService.new.sortUsers [nameEz, nameEa] (some "name") (some "desc")).2 =
      [nameEz, nameEa] ∧
    codeUnits nameFace.name = [0xD83D, 0xDE00] ∧ codeUnits nameReplacement.name = [0xFFFD] ∧
    (UserService.new.sortUsers [nameReplacement, nameFace] (some "name") (some "asc")).2 =
      [nameFace, nameReplacement] ∧
    (UserService.new.sortUsers [nameReplacement, nameFace] (some "name") (some "asc")).2.Pairwise
      (keyLe "name") :=
  ⟨by decide, by decide,
    ((sortUsers_ordered UserService.new [alice3, zed1, alice2] none none).1 (by decide)).1,
    by decide, by decide, by decide, by decide, by decide, by decide,
    ((sortUsers_ordered UserService.new [nameReplacement, nameFace] (some "name")
      (some "asc")).1 (by decide)).1⟩

theorem splitOn_space_ne_nil (l : List Char) : l.splitOn ' ' ≠ [] := by
  simpa [List.splitOn] using List.splitOnP_ne_nil (fun c => c == ' ') l

theorem splitOn_space_head (l : List Char) :
    (l.splitOn ' ').head? = some (l.takeWhile (fun c => c != ' ')) := by
  induction l with
  | nil => rfl
  | cons c t ih =>
    by_cases hc : c = ' '
    · subst hc
      simp [List.splitOn, List.splitOnP_cons]
    · have hne := splitOn_space_ne_nil t
      simp only [List.splitOn] at ih hne ⊢
      rw [List.splitOnP_cons]
      cases hsp : List.splitOnP (fun x => x == ' ') t with
      | nil => exact absurd hsp hne
      | cons p ps =>
        rw [hsp] at ih
        simp at ih
        simp [hc, List.modifyHead, ih]

theorem splitOn_space_tail (l : List Char) :
    [' '].intercalate ((l.splitOn ' ').drop 1) = (l.dropWhile (fun c => c != ' ')).drop 1 := by
  induction l with
  | nil => rfl
  | cons c t ih =>
    by_cases hc : c = ' '
    · subst hc
      have := List.intercalate_splitOn t ' '
      simpa [List.splitOn, List.splitOnP_cons] using this
    · have hne := splitOn_space_ne_nil t
      simp only [List.splitOn] at ih hne ⊢
      rw [List.splitOnP_cons]
      cases hsp : List.splitOnP (fun x => x == ' ') t with
      | nil => exact absurd hsp hne
      | cons p ps =>
        rw [hsp] at ih
        simp at ih
        simp [hc, List.modifyHead, ih]

theorem firstName_eq (name : String) : orEmpty (splitSpace name).head? = firstNameOf name := by
  simp [splitSpace, orEmpty, firstNameOf, List.head?_map, splitOn_space_head]

theorem lastName_eq (name : String) : joinSpace ((splitSpace name).drop 1) = lastNameOf name := by
  simp only [splitSpace, joinSpace, lastNameOf]
  rw [← List.map_drop, List.map_map]
  have : (String.data ∘ String.mk) = id := rfl
  rw [this, List.map_id, splitOn_space_tail]

theorem mem_applyFiltersAndSearch (self : UserService) (u : User) :
    u ∈ self.applyFiltersAndSearch.2 ↔
      u ∈ self.users ∧ matchesSearch self.searchQuery u = true ∧
        matchesFilters self.currentFilters u = true := by
  rw [applyFiltersAndSearch_snd, mem_arraySort, List.mem_filter, Bool.and_eq_true]

theorem matchesSearch_iff (q : String) (u : User) :
    matchesSearch q u = true ↔
      q.data <:+: (toLowerCase u.name).data ∨ q.data <:+: (toLowerCase u.username).data ∨
      q.data <:+: (toLowerCase u.email).data ∨ q.data <:+: (toLowerCase u.companyName).data := by
  simp [matchesSearch, includes]

theorem matchesFilters_iff (filters : List (String × String)) (u : User) :
    matchesFilters filters u = true ↔
      ∀ key value, (key, value) ∈ filters → trim value ≠ "" →
        (key = "firstName" →
          (trim (toLowerCase value)).data <:+: (toLowerCase (firstNameOf u.name)).data) ∧
        (key = "lastName" →
          (trim (toLowerCase value)).data <:+: (toLowerCase (lastNameOf u.name)).data) ∧
        (key = "email" → (trim (toLowerCase value)).data <:+: (toLowerCase u.email).data) ∧
        (key = "department" →
          (trim (toLowerCase value)).data <:+: (toLowerCase u.companyName).data) := by
  unfold matchesFilters
  simp only [firstName_eq, lastName_eq, List.all_eq_true]
  constructor
  · intro h key value hmem hne
    have := h (key, value) hmem
    simp only [hne, if_false] at this
    refine ⟨?_, ?_, ?_, ?_⟩ <;> intro hk <;> subst hk <;> simpa [includes] using this
  · rintro h ⟨key, value⟩ hmem
    by_cases hb : trim value = ""
    · simp [hb]
    · obtain ⟨h1, h2, h3, h4⟩ := h key value hmem hb
      simp only [hb, if_false]
      split_ifs with k1 k2 k3 k4
      · simpa [includes] using h1 k1
      · simpa [includes] using h2 k2
      · simpa [includes] using h3 k3
      · simpa [includes] using h4 k4
      · rfl

theorem matchesFilters_of_blank (filters : List (String × String)) (u : User)
    (h : ∀ e ∈ filters, trim e.2 = "") : matchesFilters filters u = true := by
  rw [matchesFilters_iff]
  intro key value hmem hne
  exact absurd (h (key, value) hmem) hne

theorem trimChar_codes (c : Char) (h : isTrimChar c = true) :
    c.toNat ∈ [9, 10, 11, 12, 13, 32, 160, 5760, 8192, 8193, 8194, 8195, 8196, 8197, 8198,
      8199, 8200, 8201, 8202, 8232, 8233, 8239, 8287, 12288, 65279] := by
  simp only [isTrimChar, Bool.or_eq_true, beq_iff_eq, Bool.and_eq_true, decide_eq_true_eq] at h
  simp only [List.mem_cons, List.mem_singleton, List.not_mem_nil, or_false]
  omega

theorem trimCodes_fixed :
    ∀ n ∈ [9, 10, 11, 12, 13, 32, 160, 5760, 8192, 8193, 8194, 8195, 8196, 8197, 8198,
      8199, 8200, 8201, 8202, 8232, 8233, 8239, 8287, 12288, 65279],
      n ≠ 0x3A3 ∧ n ≠ 0x130 ∧ lookupRun lowerRuns n = n := by
  decide

theorem lowerChar_of_isTrimChar (before after : List Char) (c : Char)
    (h : isTrimChar c = true) : lowerChar before c after = [c] := by
  obtain ⟨h1, h2, h3⟩ := trimCodes_fixed c.toNat (trimChar_codes c h)
  unfold lowerChar
  rw [if_neg h1, if_neg h2, h3, Char.ofNat_toNat]

theorem lowerFrom_of_blank (before l : List Char) (h : ∀ c ∈ l, isTrimChar c = true) :
    lowerFrom before l = l := by
  induction l generalizing before with
  | nil => rfl
  | cons c t ih =>
    rw [lowerFrom, lowerChar_of_isTrimChar before t c (h c (List.mem_cons_self c t)),
      ih (c :: before) (fun x hx => h x (List.mem_cons_of_mem c hx))]
    rfl

theorem toLowerCase_of_blank (s : String) (h : ∀ c ∈ s.data, isTrimChar c = true) :
    toLowerCase s = s := by
  unfold toLowerCase
  rw [lowerFrom_of_blank [] s.data h]

theorem trim_toLowerCase_of_blank (query : String) (h : ∀ c ∈ query.data, isTrimChar c = true) :
    trim (toLowerCase query) = "" := by
  rw [toLowerCase_of_blank query h]
  have hdrop : query.data.dropWhile isTrimChar = [] := by
    rw [List.dropWhile_eq_nil_iff]
    exact h
  simp [trim, hdrop, List.rdropWhile]

/-- Claim C4. With no filter criterion set (every stored criterion blank), after
`applySearch(query)` a record is in the filtered view exactly when it is in the
working set and the lower-cased, trimmed query occurs in its lower-cased name,
username, email or company name (`''` when the company is missing). A query of
white space only selects every record, and the query `doe` selects a record
named `John Doe` with username `jdoe` whatever its other fields are. The match
ignores letter case on both sides: the query `DOE` selects a record named
`John Doe` and the query `émile` a record named `Émile Zola`. -/
theorem applySearch_view (self : UserService) (query : String)
    (hno : ∀ e ∈ self.currentFilters, trim e.2 = "") :
    (∀ u : User, u ∈ (self.applySearch query).filteredUsers ↔
      u ∈ self.users ∧
        ((trim (toLowerCase query)).data <:+: (toLowerCase u.name).data ∨
         (trim (toLowerCase query)).data <:+: (toLowerCase u.username).data ∨
         (trim (toLowerCase query)).data <:+: (toLowerCase u.email).data ∨
         (trim (toLowerCase query)).data <:+:
           (toLowerCase ((u.company.map Company.name).getD "")).data)) ∧
    ((∀ c ∈ query.data, isTrimChar c = true) →
      ∀ u : User, u ∈ (self.applySearch query).filteredUsers ↔ u ∈ self.users) ∧
    (query = "doe" → ∀ u : User, u ∈ self.users → u.name = "John Doe" → u.username = "jdoe" →
      u ∈ (self.applySearch query).filteredUsers) ∧
    (query = "DOE" → ∀ u : User, u ∈ self.users → u.name = "John Doe" →
      u ∈ (self.applySearch query).filteredUsers) ∧
    (query = "émile" → ∀ u : User, u ∈ self.users → u.name = "Émile Zola" →
      u ∈ (self.applySearch query).filteredUsers) := by
  have hmem : ∀ u : User, u ∈ (self.applySearch query).filteredUsers ↔
      u ∈ self.users ∧ matchesSearch (trim (toLowerCase query)) u = true := by
    intro u
    unfold UserService.applySearch
    rw [applyFiltersAndSearch_fst]
    simp only [mem_applyFiltersAndSearch, matchesFilters_of_blank _ u hno, and_true]
  refine ⟨?_, ?_, ?_, ?_, ?_⟩
  · intro u
    rw [hmem, matchesSearch_iff]
    rfl
  · intro hblank u
    rw [hmem, trim_toLowerCase_of_blank query hblank, matchesSearch_empty]
    simp
  · intro hq u hu hname huser
    rw [hmem, matchesSearch_iff, hq, hname]
    exact ⟨hu, Or.inl (by decide)⟩
  · intro hq u hu hname
    rw [hmem, matchesSearch_iff, hq, hname]
    exact ⟨hu, Or.inl (by decide)⟩
  · intro hq u hu hname
    rw [hmem, matchesSearch_iff, hq, hname]
    exact ⟨hu, Or.inl (by decide)⟩

/-- The search scenario on a concrete store: no criteria, query `doe`; the
record named `John Doe` is selected and `Ann Lee` is not. The queries `DOE` and
` Doe ` select the same record, the query `sales` selects `Ann Lee` by her
company `Sales`, and on a store that also holds `Émile Zola` the queries `émile`
and `ÉMILE Z` select that record. -/
theorem applySearch_view_witness :
    (∀ e ∈ sampleStore.currentFilters, trim e.2 = "") ∧
    johnDoe ∈ (sampleStore.applySearch "doe").filteredUsers ∧
    (sampleStore.applySearch "doe").filteredUsers = [johnDoe] ∧
    (sampleStore.applySearch "DOE").filteredUsers = [johnDoe] ∧
    (sampleStore.applySearch " Doe ").filteredUsers = [johnDoe] ∧
    (sampleStore.applySearch "sales").filteredUsers = [annLee] ∧
    toLowerCase "Émile Zola" = "émile zola" ∧
    (({ sampleStore with users := [johnDoe, annLee, emileZola] } : UserService).applySearch
      "émile").filteredUsers = [emileZola] ∧
    (({ sampleStore with users := [johnDoe, annLee, emileZola] } : UserService).applySearch
      "ÉMILE Z").filteredUsers = [emileZola] :=
  ⟨by decide,
    (applySearch_view sampleStore "doe" (by decide)).2.2.1 rfl johnDoe (by decide) rfl rfl,
    by decide, by decide, by decide, by decide, by decide, by decide, by decide⟩

theorem firstNameOf_append (a b : List Char) (ha : ' ' ∉ a) :
    firstNameOf (String.mk (a ++ ' ' :: b)) = String.mk a ∧
      lastNameOf (String.mk (a ++ ' ' :: b)) = String.mk b := by
  have hall : ∀ c ∈ a, (c != ' ') = true := by
    intro c hc
    have : c ≠ ' ' := fun h => ha (h ▸ hc)
    simpa using this
  constructor
  · simp only [firstNameOf]
    rw [List.takeWhile_append_of_pos hall]
    simp
  · simp only [lastNameOf]
    rw [List.dropWhile_append_of_pos hall]
    simp

theorem firstNameOf_noSpace (a : List Char) (ha : ' ' ∉ a) :
    firstNameOf (String.mk a) = String.mk a ∧ lastNameOf (String.mk a) = "" := by
  have hall : ∀ c ∈ a, (c != ' ') = true := by
    intro c hc
    have : c ≠ ' ' := fun h => ha (h ▸ hc)
    simpa using this
  constructor
  · simp only [firstNameOf]
    rw [List.takeWhile_eq_self_iff.2 hall]
  · simp only [lastNameOf]
    rw [List.dropWhile_eq_nil_iff.2 hall]
    rfl

/-- Claim C5. With an empty search query, after `applyFilters(criteria)` a record
is in the filtered view exactly when it is in the working set and, for every
non-blank criterion keyed `firstName`, `lastName`, `email` or `department`, the
lower-cased trimmed criterion occurs in the record's lower-cased first name, last
name, email or company name. The first name is what precedes the first space of
the display name and the last name is all that follows it. Criteria that are all
blank select every record. -/
theorem applyFilters_view (self : UserService) (criteria : List (String × String))
    (hq : self.searchQuery = "") :
    (∀ u : User, u ∈ (self.applyFilters criteria).filteredUsers ↔
      u ∈ self.users ∧
        ∀ key value, (key, value) ∈ criteria → trim value ≠ "" →
          (key = "firstName" →
            (trim (toLowerCase value)).data <:+: (toLowerCase (firstNameOf u.name)).data) ∧
          (key = "lastName" →
            (trim (toLowerCase value)).data <:+: (toLowerCase (lastNameOf u.name)).data) ∧
          (key = "email" → (trim (toLowerCase value)).data <:+: (toLowerCase u.email).data) ∧
          (key = "department" →
            (trim (toLowerCase value)).data <:+:
              (toLowerCase ((u.company.map Company.name).getD "")).data)) ∧
    ((∀ e ∈ criteria, trim e.2 = "") →
      ∀ u : User, u ∈ (self.applyFilters criteria).filteredUsers ↔ u ∈ self.users) ∧
    (∀ a b : List Char, ' ' ∉ a →
      firstNameOf (String.mk (a ++ ' ' :: b)) = String.mk a ∧
      lastNameOf (String.mk (a ++ ' ' :: b)) = String.mk b ∧
      firstNameOf (String.mk a) = String.mk a ∧ lastNameOf (String.mk a) = "") := by
  have hmem : ∀ u : User, u ∈ (self.applyFilters criteria).filteredUsers ↔
      u ∈ self.users ∧ matchesFilters criteria u = true := by
    intro u
    unfold UserService.applyFilters
    rw [applyFiltersAndSearch_fst]
    simp only [mem_applyFiltersAndSearch, hq, matchesSearch_empty, true_and]
  refine ⟨?_, ?_, ?_⟩
  · intro u
    rw [hmem, matchesFilters_iff]
    rfl
  · intro hblank u
    rw [hmem, matchesFilters_of_blank criteria u hblank]
    simp
  · intro a b ha
    exact ⟨(firstNameOf_append a b ha).1, (firstNameOf_append a b ha).2,
      (firstNameOf_noSpace a ha).1, (firstNameOf_noSpace a ha).2⟩

/-- The filter view on a concrete store: blank criteria keep every record, and
the criterion `firstName = "jo"` keeps `John Doe` only, as does `firstName = "JO"`.
On a store that also holds `Émile Zola` of the company `Éditions`, the criteria
`firstName = "émile"`, `lastName = "ZOLA"` and `department = "édit"` each keep that
record only. -/
theorem applyFilters_view_witness :
    sampleStore.searchQuery = "" ∧
    (∀ e ∈ [("firstName", " "), ("lastName", "")], trim e.2 = "") ∧
    (annLee ∈ (sampleStore.applyFilters [("firstName", " "), ("lastName", "")]).filteredUsers ↔
      annLee ∈ sampleStore.users) ∧
    (sampleStore.applyFilters [("firstName", "jo"), ("lastName", "")]).filteredUsers =
      [johnDoe] ∧
    (sampleStore.applyFilters [("firstName", " JO "), ("lastName", "")]).filteredUsers =
      [johnDoe] ∧
    (({ sampleStore with users := [johnDoe, annLee, emileZola] } : UserService).applyFilters
      [("firstName", "émile")]).filteredUsers = [emileZola] ∧
    (({ sampleStore with users := [johnDoe, annLee, emileZola] } : UserService).applyFilters
      [("lastName", "ZOLA")]).filteredUsers = [emileZola] ∧
    (({ sampleStore with users := [johnDoe, annLee, emileZola] } : UserService).applyFilters
      [("department", "édit")]).filteredUsers = [emileZola] :=
  ⟨rfl, by decide,
    (applyFilters_view sampleStore [("firstName", " "), ("lastName", "")] rfl).2.1
      (by decide) annLee,
    by decide, by decide, by decide, by decide, by decide⟩

/-- Claim C6. Search and filters commute and combine with AND: applying the search
then the criteria leaves the store in the same state (so the same
`filteredUsers`) as applying the criteria then the search, and a record is in
that view exactly when it is both in the view of the search alone and in the
view of the criteria alone. -/
theorem applySearch_applyFilters_comm (self : UserService) (query : String)
    (criteria : List (String × String)) :
    (self.applySearch query).applyFilters criteria =
      (self.applyFilters criteria).applySearch query ∧
    ((self.applySearch query).applyFilters criteria).filteredUsers =
      ((self.applyFilters criteria).applySearch query).filteredUsers ∧
    ∀ u : User, u ∈ ((self.applySearch query).applyFilters criteria).filteredUsers ↔
      u ∈ (self.clearFilters.applySearch query).filteredUsers ∧
        u ∈ (self.clearFilters.applyFilters criteria).filteredUsers := by
  have hcomm : (self.applySearch query).applyFilters criteria =
      (self.applyFilters criteria).applySearch query := by
    simp only [UserService.applySearch, UserService.applyFilters, applyFiltersAndSearch_fst,
      applyFiltersAndSearch_snd]
  refine ⟨hcomm, by rw [hcomm], ?_⟩
  intro u
  simp only [UserService.applySearch, UserService.applyFilters, UserService.clearFilters,
    applyFiltersAndSearch_fst, mem_applyFiltersAndSearch, matchesSearch_empty,
    matchesFilters_nil]
  tauto

/-! ## Pager -/

theorem ceilDiv_spec (a b : Int) (hb : 0 < b) :
    (ceilDiv a b - 1) * b < a ∧ a ≤ ceilDiv a b * b := by
  unfold ceilDiv
  have h1 := Int.ediv_mul_le (-a) (ne_of_gt hb)
  have h2 := Int.lt_ediv_add_one_mul_self (-a) hb
  constructor
  · nlinarith
  · nlinarith

theorem ceilDiv_eq_ceil (a b : Int) (hb : 0 < b) : ceilDiv a b = ⌈(a : ℚ) / (b : ℚ)⌉ := by
  obtain ⟨h1, h2⟩ := ceilDiv_spec a b hb
  have hbq : (0 : ℚ) < (b : ℚ) := by exact_mod_cast hb
  symm
  rw [Int.ceil_eq_iff]
  constructor
  · rw [lt_div_iff₀ hbq]
    have : (((ceilDiv a b - 1) * b : Int) : ℚ) < (a : ℚ) := by exact_mod_cast h1
    push_cast at this
    linarith
  · rw [div_le_iff₀ hbq]
    exact_mod_cast h2

theorem ceilDiv_nonneg (a b : Int) (ha : 0 ≤ a) (hb : 0 < b) : 0 ≤ ceilDiv a b := by
  obtain ⟨h1, _⟩ := ceilDiv_spec a b hb
  by_contra hneg
  have : ceilDiv a b - 1 ≤ -2 := by omega
  nlinarith

theorem slice_getElem_opt {α : Type} (arr : List α) (start stop : Int) (j : Nat) :
    (slice arr start stop)[j]? =
      if sliceIndex arr.length start + j < sliceIndex arr.length stop then
        arr[sliceIndex arr.length start + j]?
      else none := by
  unfold slice
  rw [List.getElem?_drop, List.getElem?_take]

theorem slice_length {α : Type} (arr : List α) (start stop : Int) :
    (slice arr start stop).length =
      sliceIndex arr.length stop - sliceIndex arr.length start := by
  unfold slice
  have : sliceIndex arr.length stop ≤ arr.length := by
    unfold sliceIndex
    split_ifs <;> omega
  rw [List.length_drop, List.length_take]
  omega

theorem sliceIndex_of_nonneg (len : Nat) (i : Int) (h : 0 ≤ i) :
    sliceIndex len i = min i.toNat len := by
  unfold sliceIndex
  rw [if_neg (not_lt.2 h)]

theorem sliceIndex_of_neg (len : Nat) (i : Int) (h : i < 0) :
    sliceIndex len i = (len + i).toNat := by
  unfold sliceIndex
  rw [if_pos h]

theorem slice_of_nonneg {α : Type} (arr : List α) (start stop : Int) (h1 : 0 ≤ start)
    (h2 : 0 ≤ stop) : slice arr start stop = (arr.take stop.toNat).drop start.toNat := by
  apply List.ext_getElem?
  intro j
  rw [slice_getElem_opt, List.getElem?_drop, List.getElem?_take,
    sliceIndex_of_nonneg _ _ h1, sliceIndex_of_nonneg _ _ h2]
  by_cases hlen : start.toNat + j < arr.length
  · have e1 : min start.toNat arr.length = start.toNat := by omega
    rw [e1]
    by_cases hj : start.toNat + j < stop.toNat
    · rw [if_pos (by omega), if_pos hj]
    · rw [if_neg (by omega), if_neg hj]
  · have n1 : arr[min start.toNat arr.length + j]? = none :=
      List.getElem?_eq_none (by omega)
    have n2 : arr[start.toNat + j]? = none := List.getElem?_eq_none (by omega)
    rw [n1, n2]
    simp

theorem getCurrentPageData_getElem_opt {α : Type} (self : PaginationService α)
    (hs : 1 ≤ self.pageSize) (hp : 0 ≤ self.currentPage) (j : Nat) :
    self.getCurrentPageData[j]? =
      if (j : Int) < self.pageSize then
        itemAt self.data ((self.currentPage - 1) * self.pageSize + j)
      else none := by
  unfold PaginationService.getCurrentPageData
  simp only
  rcases Int.lt_or_le self.currentPage 1 with h0 | h1
  · have hcp : self.currentPage = 0 := by omega
    have hstart : (self.currentPage - 1) * self.pageSize = -self.pageSize := by
      rw [hcp]; ring
    rw [hstart, slice_getElem_opt]
    have hstop : sliceIndex self.data.length (-self.pageSize + self.pageSize) = 0 := by
      rw [sliceIndex_of_nonneg _ _ (by omega)]
      simp
    have hlt : ¬ (sliceIndex self.data.length (-self.pageSize) + j < 0) := by omega
    rw [hstop, if_neg hlt]
    unfold itemAt
    split_ifs <;> first | rfl | omega
  · have hstart : 0 ≤ (self.currentPage - 1) * self.pageSize :=
      mul_nonneg (by omega) (by omega)
    generalize (self.currentPage - 1) * self.pageSize = start at hstart
    rw [slice_of_nonneg _ _ _ hstart (by omega), List.getElem?_drop, List.getElem?_take]
    unfold itemAt
    have e : (start + (j : Int)).toNat = start.toNat + j := by omega
    have hneg : ¬ (start + (j : Int) < 0) := by omega
    rw [if_neg hneg, e]
    by_cases hj : (j : Int) < self.pageSize
    · have hlt : start.toNat + j < (start + self.pageSize).toNat := by omega
      rw [if_pos hj, if_pos hlt]
    · have hlt : ¬ (start.toNat + j < (start + self.pageSize).toNat) := by omega
      rw [if_neg hj, if_neg hlt]

theorem getCurrentPageData_length_le {α : Type} (self : PaginationService α)
    (hs : 1 ≤ self.pageSize) : (self.getCurrentPageData.length : Int) ≤ self.pageSize := by
  unfold PaginationService.getCurrentPageData
  simp only
  generalize (self.currentPage - 1) * self.pageSize = start
  rw [slice_length]
  unfold sliceIndex
  split_ifs <;> omega

theorem getCurrentPageData_eq_drop_take {α : Type} (self : PaginationService α)
    (hs : 1 ≤ self.pageSize) (hp : 1 ≤ self.currentPage) :
    self.getCurrentPageData =
      (self.data.drop ((self.currentPage - 1) * self.pageSize).toNat).take
        self.pageSize.toNat := by
  unfold PaginationService.getCurrentPageData
  simp only
  have hstart : 0 ≤ (self.currentPage - 1) * self.pageSize :=
    mul_nonneg (by omega) (by omega)
  generalize (self.currentPage - 1) * self.pageSize = start at hstart
  rw [slice_of_nonneg _ _ _ hstart (by omega), List.drop_take]
  congr 1
  omega

theorem getCurrentPageData_beyond {α : Type} (self : PaginationService α)
    (hs : 1 ≤ self.pageSize) (hn : self.totalItems = (self.data.length : Int))
    (hp : self.currentPage > self.getTotalPages) : self.getCurrentPageData = [] := by
  have hspec := (ceilDiv_spec self.totalItems self.pageSize (by omega)).2
  have hmul : self.getTotalPages * self.pageSize ≤ (self.currentPage - 1) * self.pageSize :=
    mul_le_mul_of_nonneg_right (by omega) (by omega)
  have hlen : (self.data.length : Int) ≤ (self.currentPage - 1) * self.pageSize := by
    unfold PaginationService.getTotalPages at hmul
    omega
  apply List.eq_nil_of_length_eq_zero
  unfold PaginationService.getCurrentPageData
  simp only
  generalize (self.currentPage - 1) * self.pageSize = start at hlen
  rw [slice_length]
  unfold sliceIndex
  split_ifs <;> omega

/-- Claim C7, amended. For every data sequence, page size `s ≥ 1` and current page
`p ≥ 0` (so for every 1-based page), `getCurrentPageData` returns exactly the
items at the 0-based indices `(p-1)*s`, ..., `p*s - 1` that exist, in order; for
`p ≥ 1` this is `data.drop ((p-1)*s)` cut to `s` items. For every integer `p` it
returns at most `s` items, and it returns the empty list when `p` is beyond the
last page. -/
theorem getCurrentPageData_slice {α : Type} (self : PaginationService α)
    (hs : 1 ≤ self.pageSize) :
    (0 ≤ self.currentPage → ∀ j : Nat,
      self.getCurrentPageData[j]? =
        if (j : Int) < self.pageSize then
          itemAt self.data ((self.currentPage - 1) * self.pageSize + j)
        else none) ∧
    (1 ≤ self.currentPage →
      self.getCurrentPageData =
        (self.data.drop ((self.currentPage - 1) * self.pageSize).toNat).take
          self.pageSize.toNat) ∧
    (self.getCurrentPageData.length : Int) ≤ self.pageSize ∧
    (self.totalItems = (self.data.length : Int) → self.currentPage > self.getTotalPages →
      self.getCurrentPageData = []) :=
  ⟨fun hp j => getCurrentPageData_getElem_opt self hs hp j,
    fun hp => getCurrentPageData_eq_drop_take self hs hp,
    getCurrentPageData_length_le self hs,
    fun hn hp => getCurrentPageData_beyond self hs hn hp⟩

/-- Page 3 of 25 items at page size 10 holds the items 20 to 24, and page 4 is
empty. -/
theorem getCurrentPageData_slice_witness :
    (1 : Int) ≤ ((PaginationService.new.updateData (List.range 25)).goToPage 3).pageSize ∧
    (1 : Int) ≤ ((PaginationService.new.updateData (List.range 25)).goToPage 3).currentPage ∧
    ((PaginationService.new.updateData (List.range 25)).goToPage 3).getCurrentPageData =
      [20, 21, 22, 23, 24] ∧
    ((PaginationService.new.updateData (List.range 25)).goToPage 3).getCurrentPageData =
      (((PaginationService.new.updateData (List.range 25)).goToPage 3).data.drop
        ((((PaginationService.new.updateData (List.range 25)).goToPage 3).currentPage - 1) *
          ((PaginationService.new.updateData (List.range 25)).goToPage 3).pageSize).toNat).take
        ((PaginationService.new.updateData (List.range 25)).goToPage 3).pageSize.toNat :=
  ⟨by decide, by decide, by decide,
    (getCurrentPageData_slice ((PaginationService.new.updateData (List.range 25)).goToPage 3)
      (by decide)).2.1 (by decide)⟩

/-- Claim C7 as stated fails. The pager `stalePager` has page size 10 and current
page -2; none of the indices `(p-1)*s + j = -30 + j`, `j < 10`, exists in its 25
items, yet `getCurrentPageData` returns the five items `0, ..., 4`. -/
theorem getCurrentPageData_negative_page :
    stalePager.pageSize = 10 ∧ stalePager.currentPage = -2 ∧
    stalePager.data = List.range 25 ∧
    stalePager.getCurrentPageData = [0, 1, 2, 3, 4] ∧
    (∀ j : Nat, (j : Int) < stalePager.pageSize →
      itemAt stalePager.data ((stalePager.currentPage - 1) * stalePager.pageSize + j) = none) ∧
    ¬ (∀ self : PaginationService Nat, 1 ≤ self.pageSize → ∀ j : Nat,
        self.getCurrentPageData[j]? =
          if (j : Int) < self.pageSize then
            itemAt self.data ((self.currentPage - 1) * self.pageSize + j)
          else none) := by
  have hps : stalePager.pageSize = 10 := by decide
  have hcp : stalePager.currentPage = -2 := by decide
  have hpage : stalePager.getCurrentPageData = [0, 1, 2, 3, 4] := by decide
  have hnone : ∀ j : Nat, (j : Int) < stalePager.pageSize →
      itemAt stalePager.data ((stalePager.currentPage - 1) * stalePager.pageSize + j) = none := by
    intro j hj
    rw [hps] at hj
    rw [hps, hcp]
    unfold itemAt
    rw [if_pos (by omega)]
  refine ⟨hps, hcp, by decide, hpage, hnone, ?_⟩
  intro hall
  have h0 := hall stalePager (by rw [hps]; decide) 0
  rw [if_pos (by rw [hps]; decide), hnone 0 (by rw [hps]; decide), hpage] at h0
  exact absurd h0 (by decide)

theorem updateData_fields {α : Type} (self : PaginationService α) (newData : List α) :
    (self.updateData newData).data = newData ∧
    (self.updateData newData).totalItems = (newData.length : Int) ∧
    (self.updateData newData).pageSize = self.pageSize ∧
    (self.updateData newData).maxVisiblePages = self.maxVisiblePages := by
  unfold PaginationService.updateData
  simp only
  split_ifs <;> exact ⟨rfl, rfl, rfl, rfl⟩

theorem updateData_getTotalPages {α : Type} (self : PaginationService α) (newData : List α) :
    (self.updateData newData).getTotalPages = ceilDiv (newData.length : Int) self.pageSize := by
  obtain ⟨_, h2, h3, _⟩ := updateData_fields self newData
  unfold PaginationService.getTotalPages
  rw [h2, h3]

theorem goToPage_fields {α : Type} (self : PaginationService α) (page : Int) :
    (self.goToPage page).data = self.data ∧
    (self.goToPage page).totalItems = self.totalItems ∧
    (self.goToPage page).pageSize = self.pageSize ∧
    (self.goToPage page).maxVisiblePages = self.maxVisiblePages := by
  unfold PaginationService.goToPage
  simp only
  split_ifs <;> exact ⟨rfl, rfl, rfl, rfl⟩

theorem goToPage_currentPage {α : Type} (self : PaginationService α) (page : Int) :
    (self.goToPage page).currentPage =
      if page < 1 then 1 else if page > self.getTotalPages then self.getTotalPages else page := by
  unfold PaginationService.goToPage
  simp only
  split_ifs <;> rfl

theorem goToPage_of_mem {α : Type} (self : PaginationService α) (page : Int)
    (h1 : 1 ≤ page) (h2 : page ≤ self.getTotalPages) :
    (self.goToPage page).currentPage = page := by
  rw [goToPage_currentPage, if_neg (not_lt.2 h1), if_neg (not_lt.2 h2)]

theorem range_flatMap_take_drop {α : Type} (l : List α) (s n : Nat) :
    (List.range n).flatMap (fun i => (l.take (i * s + s)).drop (i * s)) = l.take (n * s) := by
  induction n with
  | zero => simp
  | succ n ih =>
    rw [List.range_succ, List.flatMap_append, ih]
    simp only [List.flatMap_cons, List.flatMap_nil, List.append_nil]
    have h : l.take (n * s) = (l.take (n * s + s)).take (n * s) := by
      rw [List.take_take]
      congr 1
      omega
    rw [h, List.take_append_drop]
    congr 1
    ring

theorem page_eq_take_drop {α : Type} (self : PaginationService α) (s i : Nat)
    (hs : self.pageSize = (s : Int)) (hpos : 1 ≤ s)
    (hi : ((i : Int) + 1) ≤ self.getTotalPages) :
    (self.goToPage ((i : Int) + 1)).getCurrentPageData =
      (self.data.take (i * s + s)).drop (i * s) := by
  have hcp := goToPage_of_mem self ((i : Int) + 1) (by omega) hi
  obtain ⟨hd, _, hp, _⟩ := goToPage_fields self ((i : Int) + 1)
  unfold PaginationService.getCurrentPageData
  simp only
  rw [hcp, hd, hp, hs]
  have e1 : ((i : Int) + 1 - 1) * (s : Int) = ((i * s : Nat) : Int) := by
    push_cast; ring
  rw [e1, slice_of_nonneg _ _ _ (by omega) (by omega)]
  congr 2

theorem pages_flatMap_initial {α : Type} (self : PaginationService α) (s : Nat)
    (hs : self.pageSize = (s : Int)) (hpos : 1 ≤ s) (n : Nat)
    (hn : (n : Int) ≤ self.getTotalPages) :
    (List.range n).flatMap (fun i => (self.goToPage ((i : Int) + 1)).getCurrentPageData) =
      self.data.take (n * s) := by
  induction n with
  | zero => simp
  | succ n ih =>
    have hn1 : ((n : Int) + 1) ≤ self.getTotalPages := by
      have : ((n + 1 : Nat) : Int) = (n : Int) + 1 := by push_cast; ring
      omega
    rw [List.range_succ, List.flatMap_append, ih (by omega)]
    simp only [List.flatMap_cons, List.flatMap_nil, List.append_nil]
    rw [page_eq_take_drop self s n hs hpos hn1]
    have h : self.data.take (n * s) = (self.data.take (n * s + s)).take (n * s) := by
      rw [List.take_take]
      congr 1
      omega
    rw [h, List.take_append_drop]
    congr 1
    ring

/-- Claim C8. For every data sequence and page size `s ≥ 1`, once the data is
handed to the pager, the contents of pages 1, 2, ..., `getTotalPages()`
concatenated in that order are the data sequence itself; hence the page lengths
add up to `totalItems`, and the item at index `i` is on page `i / s + 1` at
offset `i % s`. -/
theorem pages_concat {α : Type} (self : PaginationService α) (newData : List α)
    (hs : 1 ≤ self.pageSize) :
    (List.range (self.updateData newData).getTotalPages.toNat).flatMap
        (fun i : Nat =>
          ((self.updateData newData).goToPage ((i : Int) + 1)).getCurrentPageData) =
      newData ∧
    (((List.range (self.updateData newData).getTotalPages.toNat).map
        (fun i : Nat => ((self.updateData newData).goToPage
          ((i : Int) + 1)).getCurrentPageData.length)).sum : Int) =
      (self.updateData newData).totalItems ∧
    (∀ i : Nat, i < newData.length →
      ((self.updateData newData).goToPage
          (((i / self.pageSize.toNat : Nat) : Int) + 1)).getCurrentPageData[i %
            self.pageSize.toNat]? = newData[i]?) := by
  obtain ⟨hd, ht, hp, _⟩ := updateData_fields self newData
  have hsz : (self.updateData newData).pageSize = (self.pageSize.toNat : Int) := by
    rw [hp]; omega
  have hpos : 1 ≤ self.pageSize.toNat := by omega
  have htp := updateData_getTotalPages self newData
  have hspec := ceilDiv_spec (newData.length : Int) self.pageSize (by omega)
  have hnonneg : 0 ≤ (self.updateData newData).getTotalPages := by
    rw [htp]
    exact ceilDiv_nonneg _ _ (by omega) (by omega)
  have hcover : newData.length ≤ (self.updateData newData).getTotalPages.toNat *
      self.pageSize.toNat := by
    have h2 := hspec.2
    rw [← htp] at h2
    have e : (((self.updateData newData).getTotalPages.toNat * self.pageSize.toNat : Nat) : Int)
        = (self.updateData newData).getTotalPages * self.pageSize := by
      push_cast
      rw [Int.toNat_of_nonneg hnonneg, Int.toNat_of_nonneg (by omega)]
    omega
  have hconcat : (List.range (self.updateData newData).getTotalPages.toNat).flatMap
        (fun i => ((self.updateData newData).goToPage ((i : Int) + 1)).getCurrentPageData) =
      newData := by
    rw [pages_flatMap_initial (self.updateData newData) self.pageSize.toNat hsz hpos _ (by omega),
      hd]
    exact List.take_of_length_le hcover
  refine ⟨hconcat, ?_, ?_⟩
  · have hlen := congrArg List.length hconcat
    rw [List.length_flatMap] at hlen
    rw [ht, ← hlen]
    rfl
  · intro i hi
    have hdiv : i / self.pageSize.toNat < (self.updateData newData).getTotalPages.toNat := by
      apply Nat.div_lt_of_lt_mul
      rw [Nat.mul_comm]
      omega
    have hmod : i % self.pageSize.toNat < self.pageSize.toNat := Nat.mod_lt _ (by omega)
    rw [page_eq_take_drop (self.updateData newData) self.pageSize.toNat _ hsz hpos (by omega),
      hd, List.getElem?_drop, List.getElem?_take]
    have hidx : i / self.pageSize.toNat * self.pageSize.toNat + i % self.pageSize.toNat = i :=
      Nat.div_add_mod' i self.pageSize.toNat
    rw [hidx, if_pos (by omega)]

/-- Twelve items at page size 10 fall on two pages, `0..9` and `10, 11`, whose
concatenation is the data. -/
theorem pages_concat_witness :
    (1 : Int) ≤ (PaginationService.new : PaginationService Nat).pageSize ∧
    ((PaginationService.new : PaginationService Nat).updateData
      (List.range 12)).getTotalPages = 2 ∧
    (List.range ((PaginationService.new : PaginationService Nat).updateData
        (List.range 12)).getTotalPages.toNat).flatMap
        (fun i => (((PaginationService.new : PaginationService Nat).updateData
          (List.range 12)).goToPage ((i : Int) + 1)).getCurrentPageData) =
      List.range 12 :=
  ⟨by decide, by decide,
    (pages_concat (PaginationService.new : PaginationService Nat) (List.range 12)
      (by decide)).1⟩

/-- Claim C9. The call `updateData(newData)` sets `currentPage` to 1 when the
previous `currentPage` exceeds the new `totalPages` and that `totalPages` is
positive; in every other case `currentPage` is unchanged. `pageSize` is never
changed, the new data and its length are stored, and for a positive page size
the new `totalPages` is the ceiling of `newData.length / pageSize`. -/
theorem updateData_currentPage {α : Type} (self : PaginationService α) (newData : List α) :
    (self.updateData newData).currentPage =
      (if self.currentPage > (self.updateData newData).getTotalPages ∧
          (self.updateData newData).getTotalPages > 0
        then 1 else self.currentPage) ∧
    (self.updateData newData).pageSize = self.pageSize ∧
    (self.updateData newData).data = newData ∧
    (self.updateData newData).totalItems = (newData.length : Int) ∧
    (0 < self.pageSize →
      (self.updateData newData).getTotalPages =
        ⌈((newData.length : Int) : ℚ) / (self.pageSize : ℚ)⌉) := by
  obtain ⟨hd, ht, hp, _⟩ := updateData_fields self newData
  have htp := updateData_getTotalPages self newData
  refine ⟨?_, hp, hd, ht, ?_⟩
  · rw [htp]
    unfold PaginationService.updateData PaginationService.getTotalPages
    simp only
    split_ifs <;> rfl
  · intro hs
    rw [htp]
    exact ceilDiv_eq_ceil (newData.length : Int) self.pageSize hs

/-- The reset law on the scenario of the specification: 25 items, page size 10,
current page 3; new data of 5 items gives one page, the ceiling of 5/10, and
current page 1. -/
theorem updateData_currentPage_witness :
    (0 : Int) < ((PaginationService.new.updateData (List.range 25)).goToPage 3).pageSize ∧
    ((PaginationService.new.updateData (List.range 25)).goToPage 3).currentPage = 3 ∧
    (((PaginationService.new.updateData (List.range 25)).goToPage 3).updateData
      (List.range 5)).currentPage = 1 ∧
    (((PaginationService.new.updateData (List.range 25)).goToPage 3).updateData
      (List.range 5)).getTotalPages = 1 ∧
    (((PaginationService.new.updateData (List.range 25)).goToPage 3).updateData
      (List.range 5)).getTotalPages =
      ⌈(((List.range 5).length : Int) : ℚ) /
        (((PaginationService.new.updateData (List.range 25)).goToPage 3).pageSize : ℚ)⌉ :=
  ⟨by decide, by decide, by decide, by decide,
    (updateData_currentPage ((PaginationService.new.updateData (List.range 25)).goToPage 3)
      (List.range 5)).2.2.2.2 (by decide)⟩

theorem goToPage_clamp {α : Type} (self : PaginationService α) (page : Int)
    (h : 1 ≤ self.getTotalPages) :
    (self.goToPage page).currentPage = max 1 (min page self.getTotalPages) := by
  rw [goToPage_currentPage]
  split_ifs <;> omega

/-- Claim C10, failing input. On a pager without data (`totalPages` is 0),
`goToPage(1)` and `nextPage()` leave `currentPage` at 0, not at 1. When data
arrives afterwards the current page stays 0 and the page shown is empty. -/
theorem goToPage_empty_data :
    (PaginationService.new : PaginationService Nat).getTotalPages = 0 ∧
    ((PaginationService.new : PaginationService Nat).goToPage 1).currentPage = 0 ∧
    ((PaginationService.new : PaginationService Nat).nextPage).currentPage = 0 ∧
    (((PaginationService.new : PaginationService Nat).goToPage 1).updateData
      (List.range 5)).currentPage = 0 ∧
    (((PaginationService.new : PaginationService Nat).goToPage 1).updateData
      (List.range 5)).getCurrentPageData = [] := by
  refine ⟨by decide, by decide, by decide, by decide, by decide⟩

/-! ## Pager: change of page size -/

theorem floorDiv_eq_floor (a b : Int) (hb : 0 < b) : floorDiv a b = ⌊(a : ℚ) / (b : ℚ)⌋ := by
  have h1 := Int.ediv_mul_le a (ne_of_gt hb)
  have h2 := Int.lt_ediv_add_one_mul_self a hb
  have hbq : (0 : ℚ) < (b : ℚ) := by exact_mod_cast hb
  unfold floorDiv
  symm
  rw [Int.floor_eq_iff]
  constructor
  · rw [le_div_iff₀ hbq]
    exact_mod_cast h1
  · rw [div_lt_iff₀ hbq]
    exact_mod_cast h2

/-- Claim C11. For every pager state, in particular one with `currentPage ≥ 1`,
and a positive `newSize`, `changePageSize(newSize)` sets `pageSize` to `newSize` and `currentPage` to
`floor(((oldPage - 1) * oldSize) / newSize) + 1`; the item that was first on the
old page lies on the new current page:
`(newPage - 1) * newSize ≤ (oldPage - 1) * oldSize < newPage * newSize`. The data
and its length are untouched. -/
theorem changePageSize_spec {α : Type} (self : PaginationService α) (newSize : Int)
    (hn : 0 < newSize) :
    (self.changePageSize newSize).pageSize = newSize ∧
    (self.changePageSize newSize).currentPage =
      ⌊(((self.currentPage - 1) * self.pageSize : Int) : ℚ) / (newSize : ℚ)⌋ + 1 ∧
    ((self.changePageSize newSize).currentPage - 1) * newSize ≤
      (self.currentPage - 1) * self.pageSize ∧
    (self.currentPage - 1) * self.pageSize < (self.changePageSize newSize).currentPage * newSize ∧
    (self.changePageSize newSize).data = self.data ∧
    (self.changePageSize newSize).totalItems = self.totalItems := by
  have hcp : (self.changePageSize newSize).currentPage =
      floorDiv ((self.currentPage - 1) * self.pageSize) newSize + 1 := rfl
  have h1 := Int.ediv_mul_le ((self.currentPage - 1) * self.pageSize) (ne_of_gt hn)
  have h2 := Int.lt_ediv_add_one_mul_self ((self.currentPage - 1) * self.pageSize) hn
  refine ⟨rfl, ?_, ?_, ?_, rfl, rfl⟩
  · rw [hcp, floorDiv_eq_floor _ _ hn]
  · rw [hcp]
    unfold floorDiv
    simpa using h1
  · rw [hcp]
    unfold floorDiv
    exact h2

/-- Page 3 at page size 10 starts at item 20; at page size 25 that item is on
page 1. -/
theorem changePageSize_spec_witness :
    (1 : Int) ≤ ((PaginationService.new.updateData (List.range 25)).goToPage 3).currentPage ∧
    (0 : Int) < 25 ∧
    (((PaginationService.new.updateData (List.range 25)).goToPage 3).changePageSize
      25).currentPage = 1 ∧
    ((((PaginationService.new.updateData (List.range 25)).goToPage 3).changePageSize
      25).currentPage - 1) * 25 ≤
      (((PaginationService.new.updateData (List.range 25)).goToPage 3).currentPage - 1) *
        ((PaginationService.new.updateData (List.range 25)).goToPage 3).pageSize :=
  ⟨by decide, by decide, by decide,
    (changePageSize_spec ((PaginationService.new.updateData (List.range 25)).goToPage 3) 25
      (by decide)).2.2.1⟩

/-! ## Validator -/

theorem trim_of_blank (value : String) (h : ∀ c ∈ value.data, isTrimChar c = true) :
    trim value = "" := by
  have hdrop : value.data.dropWhile isTrimChar = [] := by
    rw [List.dropWhile_eq_nil_iff]
    exact h
  simp [trim, hdrop, List.rdropWhile]

/-- Claim C15. For a value that is empty or made of white space only,
`validateField` returns exactly the violation `This field is required.` for each
of `firstName`, `lastName`, `username` and `email`, whatever the existing
records, and no violation for `phone`, `website` and `department`. -/
theorem validateField_blank (value : String) (existingUsers : List User)
    (hblank : ∀ c ∈ value.data, isTrimChar c = true) :
    validateField "firstName" value existingUsers = ["This field is required."] ∧
    validateField "lastName" value existingUsers = ["This field is required."] ∧
    validateField "username" value existingUsers = ["This field is required."] ∧
    validateField "email" value existingUsers = ["This field is required."] ∧
    validateField "phone" value existingUsers = [] ∧
    validateField "website" value existingUsers = [] ∧
    validateField "department" value existingUsers = [] := by
  have ht := trim_of_blank value hblank
  refine ⟨?_, ?_, ?_, ?_, ?_, ?_, ?_⟩ <;>
    simp [validateField, validateName, validateUsername, validateEmail, ht, REQUIRED_FIELD]

/-- A value of blanks and a tab is required for `username` and fine for `phone`. -/
theorem validateField_blank_witness :
    (∀ c ∈ "  \t".data, isTrimChar c = true) ∧
    validateField "username" "  \t" [johnDoe] = ["This field is required."] ∧
    validateField "phone" "  \t" [johnDoe] = [] :=
  ⟨by decide, (validateField_blank "  \t" [johnDoe] (by decide)).2.2.1,
    (validateField_blank "  \t" [johnDoe] (by decide)).2.2.2.2.1⟩

theorem validateForm_foldl (users : List User) (entries : List (String × String))
    (acc : ValidationResult) :
    entries.foldl
      (fun acc entry =>
        let fieldErrors := validateField entry.1 entry.2 users
        if fieldErrors.length > 0 then
          { isValid := false, errors := acc.errors ++ [(entry.1, fieldErrors)] }
        else acc) acc =
      { isValid := acc.isValid && entries.all (fun e => (validateField e.1 e.2 users).isEmpty),
        errors := acc.errors ++ entries.filterMap (fun e =>
          if (validateField e.1 e.2 users).isEmpty then none
          else some (e.1, validateField e.1 e.2 users)) } := by
  induction entries generalizing acc with
  | nil => simp
  | cons e rest ih =>
    rw [List.foldl_cons, ih]
    cases hv : validateField e.1 e.2 users with
    | nil => simp [hv]
    | cons x xs => simp [hv]

theorem validateForm_eq (formData : FormData) (existingUsers : List User)
    (excludeUserId : Option Int) :
    validateForm formData existingUsers excludeUserId =
      { isValid := formData.entries.all (fun e =>
          (validateField e.1 e.2 (usersForDuplicateCheck existingUsers excludeUserId)).isEmpty),
        errors := formData.entries.filterMap (fun e =>
          if (validateField e.1 e.2
              (usersForDuplicateCheck existingUsers excludeUserId)).isEmpty then none
          else some (e.1, validateField e.1 e.2
              (usersForDuplicateCheck existingUsers excludeUserId))) } := by
  unfold validateForm
  simp only
  rw [validateForm_foldl]
  simp

theorem validateForm_isValid_iff (formData : FormData) (existingUsers : List User)
    (excludeUserId : Option Int) :
    (validateForm formData existingUsers excludeUserId).isValid = true ↔
      (validateForm formData existingUsers excludeUserId).errors = [] := by
  rw [validateForm_eq]
  simp only [List.all_eq_true, List.filterMap_eq_nil_iff]
  constructor
  · intro h e he
    simp [h e he]
  · intro h e he
    have := h e he
    by_contra hne
    simp [hne] at this

theorem mem_validateForm_errors (formData : FormData) (existingUsers : List User)
    (excludeUserId : Option Int) (name : String) (errs : List String) :
    (name, errs) ∈ (validateForm formData existingUsers excludeUserId).errors ↔
      ∃ value, (name, value) ∈ formData.entries ∧ errs ≠ [] ∧
        validateField name value (usersForDuplicateCheck existingUsers excludeUserId) = errs := by
  rw [validateForm_eq]
  simp only [List.mem_filterMap]
  constructor
  · rintro ⟨⟨k, v⟩, hmem, hsome⟩
    by_cases hv : (validateField k v (usersForDuplicateCheck existingUsers excludeUserId)).isEmpty
    · simp [hv] at hsome
    · simp only [hv] at hsome
      simp at hsome
      obtain ⟨hk, he⟩ := hsome
      subst hk
      refine ⟨v, hmem, ?_, he⟩
      intro hnil
      rw [← he] at hnil
      simp [hnil] at hv
  · rintro ⟨value, hmem, hne, hval⟩
    refine ⟨(name, value), hmem, ?_⟩
    simp [hval, hne]

theorem usersForDuplicateCheck_some (existingUsers : List User) (e : Int) :
    usersForDuplicateCheck existingUsers (some e) =
      if e = 0 then existingUsers else existingUsers.filter (fun u => decide (u.id ≠ e)) := by
  by_cases he : e = 0
  · simp [usersForDuplicateCheck, truthyId, he]
  · simp [usersForDuplicateCheck, truthyId, he]

/-- The composition of `validateForm`. For every form and list of existing
records, `validateForm` returns `isValid = true` exactly when its `errors` mapping
is empty; the mapping holds, in the order of the fields of the form, exactly the
fields whose `validateField` result against the records kept for the duplicate
checks is not empty, each with that full list. The records kept are all of them
when no `excludeUserId` or the `excludeUserId` 0 is given, and those with another
id otherwise. -/
theorem validateForm_spec (formData : FormData) (existingUsers : List User)
    (excludeUserId : Option Int) :
    ((validateForm formData existingUsers excludeUserId).isValid = true ↔
      (validateForm formData existingUsers excludeUserId).errors = []) ∧
    (validateForm formData existingUsers excludeUserId).errors =
      formData.entries.filterMap (fun e =>
        if (validateField e.1 e.2
            (usersForDuplicateCheck existingUsers excludeUserId)).isEmpty then none
        else some (e.1, validateField e.1 e.2
            (usersForDuplicateCheck existingUsers excludeUserId))) ∧
    (∀ (name : String) (errs : List String),
      (name, errs) ∈ (validateForm formData existingUsers excludeUserId).errors ↔
        ∃ value, (name, value) ∈ formData.entries ∧ errs ≠ [] ∧
          validateField name value (usersForDuplicateCheck existingUsers excludeUserId) = errs) ∧
    usersForDuplicateCheck existingUsers none = existingUsers ∧
    (∀ e : Int, usersForDuplicateCheck existingUsers (some e) =
      if e = 0 then existingUsers else existingUsers.filter (fun u => decide (u.id ≠ e))) := by
  refine ⟨validateForm_isValid_iff formData existingUsers excludeUserId, ?_,
    mem_validateForm_errors formData existingUsers excludeUserId, ?_,
    usersForDuplicateCheck_some existingUsers⟩
  · rw [validateForm_eq]
  · simp [usersForDuplicateCheck, truthyId]

/-- Claim C16, failing input. The record being edited has id 0 and `excludeUserId`
is 0. Against the existing records minus the excluded one (none is left) the
`validateField` result of every field of the form is empty, so the `errors`
mapping the claim describes is empty; `validateForm` returns a mapping with the
fields `username` and `email` and `isValid = false`, computed against the list
that still holds the edited record. With id 7 and `excludeUserId` 7 the mapping
is the one the claim describes. -/
theorem validateForm_errors_exclude_zero :
    [bobZero].filter (fun u => decide (u.id ≠ 0)) = [] ∧
    (∀ e ∈ bobEditForm.entries,
      validateField e.1 e.2 ([bobZero].filter (fun u => decide (u.id ≠ 0))) = []) ∧
    (validateForm bobEditForm [bobZero] (some 0)).errors =
      [("username", ["Username already exists."]), ("email", ["Email already exists."])] ∧
    (validateForm bobEditForm [bobZero] (some 0)).isValid = false ∧
    (validateForm bobEditForm [bobZero] (some 0)).errors ≠
      bobEditForm.entries.filterMap (fun e =>
        if (validateField e.1 e.2
            ([bobZero].filter (fun u => decide (u.id ≠ 0)))).isEmpty then none
        else some (e.1, validateField e.1 e.2
            ([bobZero].filter (fun u => decide (u.id ≠ 0))))) ∧
    (validateForm bobEditForm [bobSeven] (some 7)).errors =
      bobEditForm.entries.filterMap (fun e =>
        if (validateField e.1 e.2
            ([bobSeven].filter (fun u => decide (u.id ≠ 7)))).isEmpty then none
        else some (e.1, validateField e.1 e.2
            ([bobSeven].filter (fun u => decide (u.id ≠ 7))))) ∧
    ¬ (∀ (formData : FormData) (existingUsers : List User) (e : Int) (name : String)
        (errs : List String),
        (name, errs) ∈ (validateForm formData existingUsers (some e)).errors ↔
          ∃ value, (name, value) ∈ formData.entries ∧ errs ≠ [] ∧
            validateField name value
              (existingUsers.filter (fun u => decide (u.id ≠ e))) = errs) := by
  have herr : (validateForm bobEditForm [bobZero] (some 0)).errors =
      [("username", ["Username already exists."]), ("email", ["Email already exists."])] := by
    decide
  have hfield : validateField "username" bobEditForm.username
      ([bobZero].filter (fun u => decide (u.id ≠ 0))) = [] := by decide
  refine ⟨by decide, by decide, herr, by decide, by decide, by decide, ?_⟩
  intro hall
  have hmem : ("username", ["Username already exists."]) ∈
      (validateForm bobEditForm [bobZero] (some 0)).errors := by
    rw [herr]
    exact List.mem_cons_self _ _
  obtain ⟨value, hval, _, hv⟩ := (hall bobEditForm [bobZero] 0 "username"
    ["Username already exists."]).1 hmem
  have hvalue : value = bobEditForm.username := by
    simp only [FormData.entries, List.mem_cons, Prod.mk.injEq, List.mem_singleton,
      List.not_mem_nil, or_false] at hval
    rcases hval with h | h | h | h | h | h | h
    all_goals first | exact h.2 | (exact absurd h.1 (by decide))
  rw [hvalue, hfield] at hv
  cases hv

theorem mem_usersForDuplicateCheck (existingUsers : List User) (excludeUserId : Option Int)
    (u : User) (hu : u ∈ existingUsers) (hid : ∀ e, excludeUserId = some e → u.id ≠ e) :
    u ∈ usersForDuplicateCheck existingUsers excludeUserId := by
  unfold usersForDuplicateCheck
  rw [List.mem_filter]
  refine ⟨hu, ?_⟩
  split_ifs with h
  · cases excludeUserId with
    | none => simp
    | some e =>
      have := hid e rfl
      simpa using this
  · rfl

theorem duplicate_mem_validateUsername (value : String) (users : List User) (u : User)
    (hne : trim value ≠ "") (hu : u ∈ users)
    (hcol : toLowerCase u.username = toLowerCase (trim value)) :
    DUPLICATE_USERNAME ∈ validateUsername value users := by
  have hany : users.any
      (fun user => toLowerCase user.username == toLowerCase (trim value)) = true := by
    rw [List.any_eq_true]
    exact ⟨u, hu, by simpa using hcol⟩
  unfold validateUsername
  simp only [hne, if_false, hany, if_true]
  simp

theorem mem_entries_username (formData : FormData) :
    ("username", formData.username) ∈ formData.entries := by
  simp [FormData.entries]

/-- Claim C12, amended. Whenever the trimmed candidate username is not empty and
equals, ignoring letter case, the username of an existing record whose id
differs from `excludeUserId` (or of any existing record when no `excludeUserId`
is given), `validateForm` reports `Username already exists.` among the
violations of the field `username`. -/
theorem validateForm_duplicate_username (formData : FormData) (existingUsers : List User)
    (excludeUserId : Option Int) (u : User)
    (hne : trim formData.username ≠ "") (hu : u ∈ existingUsers)
    (hid : ∀ e, excludeUserId = some e → u.id ≠ e)
    (hcol : toLowerCase u.username = toLowerCase (trim formData.username)) :
    (validateForm formData existingUsers excludeUserId).isValid = false ∧
    ∃ errs, ("username", errs) ∈ (validateForm formData existingUsers excludeUserId).errors ∧
      "Username already exists." ∈ errs := by
  have hmem := mem_usersForDuplicateCheck existingUsers excludeUserId u hu hid
  have hdup := duplicate_mem_validateUsername formData.username _ u hne hmem hcol
  have hfield : validateField "username" formData.username
      (usersForDuplicateCheck existingUsers excludeUserId) =
      validateUsername formData.username (usersForDuplicateCheck existingUsers excludeUserId) := by
    simp [validateField]
  have hin : ("username", validateUsername formData.username
      (usersForDuplicateCheck existingUsers excludeUserId)) ∈
      (validateForm formData existingUsers excludeUserId).errors := by
    rw [mem_validateForm_errors]
    exact ⟨formData.username, mem_entries_username formData, List.ne_nil_of_mem hdup, hfield⟩
  refine ⟨?_, _, hin, hdup⟩
  have hiff := validateForm_isValid_iff formData existingUsers excludeUserId
  cases hv : (validateForm formData existingUsers excludeUserId).isValid with
  | false => rfl
  | true =>
    have hnil := hiff.1 hv
    rw [hnil] at hin
    exact absurd hin (List.not_mem_nil _)

/-- The candidate `Bob` against the existing username `bob`: the violation is
reported when no id is excluded, and not when the id 7 of that record is
excluded. The candidate `ÉRIC` collides with the existing username `éric` in
the same way. -/
theorem validateForm_duplicate_username_witness :
    trim bobForm.username ≠ "" ∧ bobSeven ∈ [bobSeven] ∧
    toLowerCase bobSeven.username = toLowerCase (trim bobForm.username) ∧
    (validateForm bobForm [bobSeven] none).errors =
      [("username", ["Username already exists."])] ∧
    (validateForm bobForm [bobSeven] (some 7)).errors = [] ∧
    toLowerCase "ÉRIC" = "éric" ∧
    toLowerCase ericLower.username = toLowerCase (trim ericForm.username) ∧
    (validateForm ericForm [ericLower] none).errors =
      [("username", ["Username already exists."])] ∧
    (validateForm ericForm [ericLower] (some 1)).errors = [] ∧
    ∃ errs, ("username", errs) ∈ (validateForm bobForm [bobSeven] none).errors ∧
      "Username already exists." ∈ errs :=
  ⟨by decide, by decide, by decide, by decide, by decide, by decide, by decide, by decide,
    by decide,
    (validateForm_duplicate_username bobForm [bobSeven] none bobSeven (by decide) (by decide)
      (by intro e h; cases h) (by decide)).2⟩

/-- Claim C12 as stated fails. The existing record `namelessUser` has the empty
username and the candidate username of `blankUsernameForm` is blank, so the
trimmed candidate equals that username; `validateForm` reports only
`This field is required.` for `username`. -/
theorem validateForm_blank_username :
    namelessUser ∈ [namelessUser] ∧
    toLowerCase namelessUser.username = toLowerCase (trim blankUsernameForm.username) ∧
    (validateForm blankUsernameForm [namelessUser] none).errors =
      [("username", ["This field is required."])] ∧
    ¬ (∀ (formData : FormData) (existingUsers : List User) (excludeUserId : Option Int)
        (u : User), u ∈ existingUsers → (∀ e, excludeUserId = some e → u.id ≠ e) →
        toLowerCase u.username = toLowerCase (trim formData.username) →
        ∃ errs, ("username", errs) ∈ (validateForm formData existingUsers excludeUserId).errors ∧
          "Username already exists." ∈ errs) := by
  have herr : (validateForm blankUsernameForm [namelessUser] none).errors =
      [("username", ["This field is required."])] := by decide
  refine ⟨by decide, by decide, herr, ?_⟩
  intro hall
  obtain ⟨errs, hmem, hdup⟩ := hall blankUsernameForm [namelessUser] none namelessUser
    (by decide) (by intro e h; cases h) (by decide)
  rw [herr] at hmem
  simp only [List.mem_singleton, Prod.mk.injEq, true_and] at hmem
  rw [hmem] at hdup
  exact absurd hdup (by decide)

/-- Claim C13, failing input. The record being edited has id 0 and
`excludeUserId` is 0: `validateForm` and `validateUserData` keep that record for
the duplicate checks and report a duplicate username and a duplicate email
against it. With id 7 and `excludeUserId` 7 the same form is valid. -/
theorem validateForm_exclude_zero :
    (validateForm bobEditForm [bobZero] (some 0)).errors =
      [("username", ["Username already exists."]), ("email", ["Email already exists."])] ∧
    (validateForm bobEditForm [bobZero] (some 0)).isValid = false ∧
    (({ UserService.new with originalUsers := [bobZero] } : UserService).validateUserData
      bobEditForm (some 0)).errors =
      [("username", ["Username already exists."]), ("email", ["Email already exists."])] ∧
    (validateForm bobEditForm [bobSeven] (some 7)).errors = [] ∧
    (({ UserService.new with originalUsers := [bobSeven] } : UserService).validateUserData
      bobEditForm (some 7)).isValid = true := by
  refine ⟨by decide, by decide, by decide, by decide, by decide⟩

/-! ## Regular expressions -/

theorem RegExp.nullable_iff (r : RegExp) : r.nullable = true ↔ RegExp.Matches r [] := by
  induction r with
  | never => exact ⟨fun h => (by cases h), fun h => (by cases h)⟩
  | eps => exact ⟨fun _ => .eps, fun _ => rfl⟩
  | cls p => exact ⟨fun h => (by cases h), fun h => (by cases h)⟩
  | seq r s ihr ihs =>
    simp only [RegExp.nullable, Bool.and_eq_true]
    constructor
    · rintro ⟨h1, h2⟩
      exact RegExp.Matches.seq r s [] [] (ihr.1 h1) (ihs.1 h2)
    · intro h
      generalize hl : ([] : List Char) = l at h
      cases h with
      | seq _ _ x y hx hy =>
        have hxy := List.append_eq_nil.1 hl.symm
        rw [hxy.1] at hx
        rw [hxy.2] at hy
        exact ⟨ihr.2 hx, ihs.2 hy⟩
  | alt r s ihr ihs =>
    simp only [RegExp.nullable, Bool.or_eq_true]
    constructor
    · rintro (h | h)
      · exact .altLeft r s [] (ihr.1 h)
      · exact .altRight r s [] (ihs.1 h)
    · intro h
      cases h with
      | altLeft _ _ _ hx => exact Or.inl (ihr.2 hx)
      | altRight _ _ _ hx => exact Or.inr (ihs.2 hx)
  | star r _ => exact ⟨fun _ => .starNil r, fun _ => rfl⟩

theorem RegExp.star_cons_inv (r : RegExp) (c : Char) (s : List Char)
    (h : RegExp.Matches (.star r) (c :: s)) :
    ∃ x y, s = x ++ y ∧ RegExp.Matches r (c :: x) ∧ RegExp.Matches (.star r) y := by
  generalize hq : RegExp.star r = q at h
  generalize hl : c :: s = l at h
  induction h generalizing s with
  | eps => cases hq
  | cls => cases hq
  | seq => cases hq
  | altLeft => cases hq
  | altRight => cases hq
  | starNil => cases hl
  | starCons r' x y hx hy _ ihy =>
    cases hq
    cases x with
    | nil => exact ihy s rfl hl
    | cons d x' =>
      rw [List.cons_append] at hl
      cases hl
      exact ⟨x', y, rfl, hx, hy⟩

theorem RegExp.deriv_iff (r : RegExp) (c : Char) (s : List Char) :
    RegExp.Matches (r.deriv c) s ↔ RegExp.Matches r (c :: s) := by
  induction r generalizing s with
  | never => exact ⟨fun h => (by cases h), fun h => (by cases h)⟩
  | eps => exact ⟨fun h => (by cases h), fun h => (by cases h)⟩
  | cls p =>
    simp only [RegExp.deriv]
    by_cases hp : p c = true
    · rw [if_pos hp]
      constructor
      · intro h
        cases h
        exact .cls p c hp
      · intro h
        cases h
        exact .eps
    · rw [if_neg hp]
      constructor
      · intro h
        cases h
      · intro h
        cases h with
        | cls _ _ h' => exact absurd h' hp
  | seq r t ihr iht =>
    have hfwd : ∀ x y, RegExp.Matches (r.deriv c) x → RegExp.Matches t y →
        RegExp.Matches (.seq r t) (c :: (x ++ y)) := by
      intro x y hx hy
      have := RegExp.Matches.seq r t (c :: x) y ((ihr x).1 hx) hy
      simpa using this
    have hbwd : RegExp.Matches (.seq r t) (c :: s) →
        (∃ x y, s = x ++ y ∧ RegExp.Matches (r.deriv c) x ∧ RegExp.Matches t y) ∨
        (RegExp.Matches r [] ∧ RegExp.Matches (t.deriv c) s) := by
      intro h
      generalize hl : c :: s = l at h
      cases h with
      | seq _ _ x y hx hy =>
        cases x with
        | nil =>
          rw [List.nil_append] at hl
          subst hl
          exact Or.inr ⟨hx, (iht s).2 hy⟩
        | cons d x' =>
          rw [List.cons_append] at hl
          cases hl
          exact Or.inl ⟨x', y, rfl, (ihr x').2 hx, hy⟩
    simp only [RegExp.deriv]
    by_cases hn : r.nullable = true
    · rw [if_pos hn]
      constructor
      · intro h
        cases h with
        | altLeft _ _ _ h1 =>
          cases h1 with
          | seq _ _ x y hx hy => exact hfwd x y hx hy
        | altRight _ _ _ h2 =>
          have := RegExp.Matches.seq r t [] (c :: s) ((RegExp.nullable_iff r).1 hn) ((iht s).1 h2)
          simpa using this
      · intro h
        rcases hbwd h with ⟨x, y, hs, hx, hy⟩ | ⟨_, h2⟩
        · rw [hs]
          exact .altLeft _ _ _ (.seq _ _ x y hx hy)
        · exact .altRight _ _ _ h2
    · rw [if_neg hn]
      constructor
      · intro h
        cases h with
        | seq _ _ x y hx hy => exact hfwd x y hx hy
      · intro h
        rcases hbwd h with ⟨x, y, hs, hx, hy⟩ | ⟨h1, _⟩
        · rw [hs]
          exact .seq _ _ x y hx hy
        · exact absurd ((RegExp.nullable_iff r).2 h1) hn
  | alt r t ihr iht =>
    simp only [RegExp.deriv]
    constructor
    · intro h
      cases h with
      | altLeft _ _ _ h1 => exact .altLeft _ _ _ ((ihr s).1 h1)
      | altRight _ _ _ h2 => exact .altRight _ _ _ ((iht s).1 h2)
    · intro h
      cases h with
      | altLeft _ _ _ h1 => exact .altLeft _ _ _ ((ihr s).2 h1)
      | altRight _ _ _ h2 => exact .altRight _ _ _ ((iht s).2 h2)
  | star r ihr =>
    simp only [RegExp.deriv]
    constructor
    · intro h
      cases h with
      | seq _ _ x y hx hy =>
        have := RegExp.Matches.starCons r (c :: x) y ((ihr x).1 hx) hy
        simpa using this
    · intro h
      obtain ⟨x, y, hs, hx, hy⟩ := RegExp.star_cons_inv r c s h
      rw [hs]
      exact .seq _ _ x y ((ihr x).2 hx) hy

theorem RegExp.foldl_deriv_iff (s : List Char) : ∀ r : RegExp,
    (s.foldl (fun q c => q.deriv c) r).nullable = true ↔ RegExp.Matches r s := by
  induction s with
  | nil => intro r; exact RegExp.nullable_iff r
  | cons c t ih =>
    intro r
    rw [List.foldl_cons, ih (r.deriv c), RegExp.deriv_iff]

theorem RegExp.test_iff (r : RegExp) (s : String) :
    r.test s = true ↔ RegExp.Matches r s.data :=
  RegExp.foldl_deriv_iff s.data r

theorem RegExp.matches_seq (r t : RegExp) (s : List Char) :
    RegExp.Matches (.seq r t) s ↔
      ∃ x y, s = x ++ y ∧ RegExp.Matches r x ∧ RegExp.Matches t y := by
  constructor
  · intro h
    cases h with
    | seq _ _ x y hx hy => exact ⟨x, y, rfl, hx, hy⟩
  · rintro ⟨x, y, hs, hx, hy⟩
    rw [hs]
    exact .seq r t x y hx hy

theorem RegExp.matches_cls (p : Char → Bool) (s : List Char) :
    RegExp.Matches (.cls p) s ↔ ∃ c, s = [c] ∧ p c = true := by
  constructor
  · intro h
    cases h with
    | cls _ c hc => exact ⟨c, rfl, hc⟩
  · rintro ⟨c, hs, hc⟩
    rw [hs]
    exact .cls p c hc

theorem RegExp.matches_chr (c : Char) (s : List Char) :
    RegExp.Matches (RegExp.chr c) s ↔ s = [c] := by
  unfold RegExp.chr
  rw [RegExp.matches_cls]
  constructor
  · rintro ⟨d, hs, hd⟩
    rw [hs, beq_iff_eq.1 hd]
  · intro hs
    exact ⟨c, hs, by simp⟩

theorem RegExp.matches_star_cls (p : Char → Bool) (s : List Char) :
    RegExp.Matches (.star (.cls p)) s ↔ ∀ x ∈ s, p x = true := by
  constructor
  · intro h
    generalize hq : RegExp.star (RegExp.cls p) = q at h
    induction h with
    | eps => cases hq
    | cls => cases hq
    | seq => cases hq
    | altLeft => cases hq
    | altRight => cases hq
    | starNil => intro x hx; cases hx
    | starCons r x y hx _ _ ihy =>
      cases hq
      obtain ⟨c, hxc, hc⟩ := (RegExp.matches_cls p x).1 hx
      intro z hz
      rw [hxc] at hz
      rcases List.mem_append.1 hz with h1 | h2
      · rw [List.mem_singleton.1 h1]
        exact hc
      · exact ihy rfl z h2
  · intro h
    induction s with
    | nil => exact .starNil _
    | cons c t ih =>
      have := RegExp.Matches.starCons (.cls p) [c] t (.cls p c (h c (List.mem_cons_self c t)))
        (ih (fun x hx => h x (List.mem_cons_of_mem c hx)))
      simpa using this

theorem RegExp.matches_plus_cls (p : Char → Bool) (s : List Char) :
    RegExp.Matches (RegExp.plus (.cls p)) s ↔ s ≠ [] ∧ ∀ x ∈ s, p x = true := by
  unfold RegExp.plus
  rw [RegExp.matches_seq]
  constructor
  · rintro ⟨x, y, hs, hx, hy⟩
    obtain ⟨c, hxc, hc⟩ := (RegExp.matches_cls p x).1 hx
    rw [hs, hxc]
    refine ⟨by simp, ?_⟩
    intro z hz
    rcases List.mem_append.1 hz with h1 | h2
    · rw [List.mem_singleton.1 h1]
      exact hc
    · exact (RegExp.matches_star_cls p y).1 hy z h2
  · rintro ⟨hne, hall⟩
    cases s with
    | nil => exact absurd rfl hne
    | cons c t =>
      exact ⟨[c], t, rfl, .cls p c (hall c (List.mem_cons_self c t)),
        (RegExp.matches_star_cls p t).2 (fun x hx => hall x (List.mem_cons_of_mem c hx))⟩

theorem isEmailChar_iff (x : Char) :
    isEmailChar x = true ↔ isTrimChar x = false ∧ x ≠ '@' := by
  unfold isEmailChar
  cases isTrimChar x <;> simp

theorem emailPattern_iff (s : List Char) :
    RegExp.Matches EMAIL_PATTERN s ↔ emailShape s := by
  unfold EMAIL_PATTERN emailShape
  simp only [RegExp.matches_seq, RegExp.matches_plus_cls, RegExp.matches_chr, isEmailChar_iff]
  constructor
  · rintro ⟨a, r1, hs, ⟨ha, hap⟩, at', r2, h1, hat, b, r3, h2, ⟨hb, hbp⟩, dot, c, h3, hdot,
      hc, hcp⟩
    refine ⟨a, b, c, ha, hb, hc, hap, hbp, hcp, ?_⟩
    rw [hs, h1, hat, h2, h3, hdot]
    simp
  · rintro ⟨a, b, c, ha, hb, hc, hap, hbp, hcp, hs⟩
    exact ⟨a, '@' :: (b ++ '.' :: c), hs, ⟨ha, hap⟩, ['@'], b ++ '.' :: c, rfl, rfl, b,
      '.' :: c, rfl, ⟨hb, hbp⟩, ['.'], c, rfl, rfl, hc, hcp⟩

theorem emailPattern_test_iff (s : String) :
    EMAIL_PATTERN.test s = true ↔ emailShape s.data := by
  rw [RegExp.test_iff, emailPattern_iff]

theorem invalidEmail_mem_validateEmail (value : String) (existingUsers : List User)
    (hne : trim value ≠ "") :
    INVALID_EMAIL ∈ validateEmail value existingUsers ↔
      EMAIL_PATTERN.test (trim value) = false := by
  have h1 : INVALID_EMAIL ≠
      formatMessage "MESSAGES.VALIDATION.MAX_LENGTH" [("max", MAX_EMAIL_LENGTH)] := by decide
  have h2 : INVALID_EMAIL ≠ DUPLICATE_EMAIL := by decide
  unfold validateEmail
  simp only [hne, if_false]
  cases ht : EMAIL_PATTERN.test (trim value)
  · simp only [Bool.not_false, if_true]
    split_ifs <;> simp
  · simp only [Bool.not_true, Bool.false_eq_true, if_false]
    split_ifs <;> simp [h1, h2]

theorem mem_trim (value : String) (x : Char) (h : x ∈ (trim value).data) : x ∈ value.data := by
  unfold trim at h
  have h1 : x ∈ value.data.dropWhile isTrimChar :=
    ( List.rdropWhile_prefix isTrimChar _).subset h
  exact (List.dropWhile_suffix isTrimChar).subset h1

theorem trim_eq_self (value : String) (l c : List Char) (x : Char)
    (hd : value.data = x :: l ++ c) (hc : c ≠ [])
    (hfirst : isTrimChar x = false) (hlast : ∀ y ∈ c, isTrimChar y = false) :
    trim value = value := by
  have h1 : (x :: l ++ c).dropWhile isTrimChar = x :: l ++ c := by
    simp [List.dropWhile, hfirst]
  have h2 : (x :: l ++ c).rdropWhile isTrimChar = x :: l ++ c := by
    rw [List.rdropWhile_eq_self_iff]
    intro hl
    rw [List.getLast_append_of_ne_nil hc]
    simp [hlast _ (List.getLast_mem hc)]
  unfold trim
  rw [hd, h1, h2, ← hd]

theorem trim_of_emailShape (value : String) (h : emailShape value.data) : trim value = value := by
  obtain ⟨a, b, c, ha, _, hc, hap, _, hcp, hs⟩ := h
  cases a with
  | nil => exact absurd rfl ha
  | cons x a' =>
    refine trim_eq_self value (a' ++ '@' :: b ++ ['.']) c x ?_ hc
      (hap x (List.mem_cons_self x a')).1 (fun y hy => (hcp y hy).1)
    rw [hs]
    simp

theorem not_emailShape_of_no_at (s : List Char) (h : '@' ∉ s) : ¬ emailShape s := by
  rintro ⟨a, b, c, _, _, _, _, _, _, hs⟩
  apply h
  rw [hs]
  simp

/-- Claim C14, amended. For a non-blank value whose trimmed form is not of the
shape `local@domain.tld`, in particular for every non-blank value without `@`
such as `not-an-email`, `validateEmail` reports
`Please enter a valid email address.`; it does not report it when the trimmed
form is of that shape, in particular for a value made of three non-empty parts
free of white space and `@` joined as local part, `@`, domain, `.`, top-level
part, such as `a@b.co`. -/
theorem validateEmail_invalid (value : String) (existingUsers : List User) :
    (trim value ≠ "" → ¬ emailShape (trim value).data →
      "Please enter a valid email address." ∈ validateEmail value existingUsers) ∧
    (trim value ≠ "" → '@' ∉ value.data →
      "Please enter a valid email address." ∈ validateEmail value existingUsers) ∧
    (emailShape (trim value).data →
      "Please enter a valid email address." ∉ validateEmail value existingUsers) ∧
    (emailShape value.data →
      "Please enter a valid email address." ∉ validateEmail value existingUsers) ∧
    "Please enter a valid email address." ∈ validateEmail "not-an-email" existingUsers ∧
    "Please enter a valid email address." ∉ validateEmail "a@b.co" existingUsers := by
  have hbad : ∀ v : String, trim v ≠ "" → ¬ emailShape (trim v).data →
      INVALID_EMAIL ∈ validateEmail v existingUsers := by
    intro v hne hshape
    rw [invalidEmail_mem_validateEmail v existingUsers hne]
    cases ht : EMAIL_PATTERN.test (trim v) with
    | false => rfl
    | true => exact absurd ((emailPattern_test_iff _).1 ht) hshape
  have hgood : ∀ v : String, emailShape (trim v).data →
      INVALID_EMAIL ∉ validateEmail v existingUsers := by
    intro v hshape
    have hne : trim v ≠ "" := by
      intro h0
      rw [h0] at hshape
      obtain ⟨a, b, c, _, _, _, _, _, _, hs⟩ := hshape
      have : ("" : String).data = [] := rfl
      rw [this] at hs
      simp at hs
    rw [invalidEmail_mem_validateEmail v existingUsers hne, (emailPattern_test_iff _).2 hshape]
    simp
  have hnoat : ∀ v : String, trim v ≠ "" → '@' ∉ v.data →
      INVALID_EMAIL ∈ validateEmail v existingUsers := by
    intro v hne hat
    exact hbad v hne (not_emailShape_of_no_at _ (fun h => hat (mem_trim v _ h)))
  have hself : ∀ v : String, emailShape v.data →
      INVALID_EMAIL ∉ validateEmail v existingUsers := by
    intro v hshape
    apply hgood v
    rw [trim_of_emailShape v hshape]
    exact hshape
  refine ⟨hbad value, hnoat value, hgood value, hself value, ?_, ?_⟩
  · exact hnoat "not-an-email" (by decide) (by decide)
  · apply hself "a@b.co"
    exact ⟨['a'], ['b'], ['c', 'o'], by decide, by decide, by decide, by decide, by decide,
      by decide, rfl⟩

/-- The two values of the specification against one existing record: the first
is reported invalid, the second is not. -/
theorem validateEmail_invalid_witness :
    trim "not-an-email" ≠ "" ∧ '@' ∉ "not-an-email".data ∧
    validateEmail "not-an-email" [johnDoe] = ["Please enter a valid email address."] ∧
    "Please enter a valid email address." ∈ validateEmail "not-an-email" [johnDoe] ∧
    validateEmail "a@b.co" [johnDoe] = [] :=
  ⟨by decide, by decide, by decide,
    (validateEmail_invalid "not-an-email" [johnDoe]).2.1 (by decide) (by decide), by decide⟩

/-- Claim C14 as stated fails. The value of a blank followed by `a@b.co` is not
blank and is not of the shape `local@domain.tld` (its local part would start with
white space), yet `validateEmail`, which tests the trimmed value, reports no
violation for it. -/
theorem validateEmail_padded :
    trim " a@b.co" ≠ "" ∧ ¬ emailShape " a@b.co".data ∧
    validateEmail " a@b.co" [] = [] ∧
    ¬ (∀ (value : String) (existingUsers : List User), trim value ≠ "" →
        ¬ emailShape value.data →
        "Please enter a valid email address." ∈ validateEmail value existingUsers) := by
  have hshape : ¬ emailShape " a@b.co".data := by
    rintro ⟨a, b, c, ha, _, _, hap, _, _, hs⟩
    cases a with
    | nil => exact absurd rfl ha
    | cons x a' =>
      have hx : x = ' ' := by
        have h0 := congrArg List.head? hs
        simp at h0
        exact h0.symm
      have := (hap x (List.mem_cons_self x a')).1
      rw [hx] at this
      exact absurd this (by decide)
  have hval : validateEmail " a@b.co" [] = [] := by decide
  refine ⟨by decide, hshape, hval, ?_⟩
  intro hall
  have := hall " a@b.co" [] (by decide) hshape
  rw [hval] at this
  exact absurd this (List.not_mem_nil _)

/-! ## Transport -/

theorem attemptOutcome_of_fails {α : Type} (settled : FetchResult α)
    (h : failsWithoutAbort settled) :
    ∃ e, attemptOutcome settled = .error e ∧ e.name ≠ "AbortError" := by
  rcases h with ⟨e, hs, hn⟩ | ⟨r, hs, hr⟩
  · exact ⟨e, by rw [hs]; rfl, hn⟩
  · have hname : (JSError.new ("HTTP " ++ toString r.status ++ ": " ++ r.statusText)).name ≠
        "AbortError" := by
      show "Error" ≠ "AbortError"
      decide
    refine ⟨JSError.new ("HTTP " ++ toString r.status ++ ": " ++ r.statusText), ?_, hname⟩
    rw [hs]
    simp [attemptOutcome, hr]

theorem attemptOutcome_of_succeeds {α : Type} (settled : FetchResult α) (body : α)
    (h : succeedsWith settled body) : attemptOutcome settled = .ok body := by
  obtain ⟨r, hs, hr, hj⟩ := h
  rw [hs]
  simp [attemptOutcome, hr, hj]

theorem attemptOutcome_of_aborts {α : Type} (settled : FetchResult α)
    (h : abortsWith settled) :
    ∃ e, attemptOutcome settled = .error e ∧ e.name = "AbortError" := by
  obtain ⟨e, hs, hn⟩ := h
  exact ⟨e, by rw [hs]; rfl, hn⟩

theorem requestLoop_ok {α : Type} (self : ApiService) (fetch : Nat → FetchResult α)
    (r a : Nat) (le : Option JSError) (body : α) (h : attemptOutcome (fetch a) = .ok body) :
    (requestLoop self fetch (r + 1) a le).result = .ok body ∧
      (requestLoop self fetch (r + 1) a le).events = [.clearTimeout, .fetch a] := by
  simp [requestLoop, h]

theorem requestLoop_abort {α : Type} (self : ApiService) (fetch : Nat → FetchResult α)
    (r a : Nat) (le : Option JSError) (e : JSError) (h : attemptOutcome (fetch a) = .error e)
    (hn : e.name = "AbortError") :
    (requestLoop self fetch (r + 1) a le).result = .error (JSError.new TIMEOUT_ERROR) ∧
      (requestLoop self fetch (r + 1) a le).events = [.clearTimeout, .fetch a] := by
  simp [requestLoop, h, hn]

theorem requestLoop_retry {α : Type} (self : ApiService) (fetch : Nat → FetchResult α)
    (r a : Nat) (le : Option JSError) (e : JSError) (h : attemptOutcome (fetch a) = .error e)
    (hn : e.name ≠ "AbortError") (ha : a ≠ self.retryAttempts) :
    (requestLoop self fetch (r + 1) a le).result =
        (requestLoop self fetch r (a + 1) (some e)).result ∧
      (requestLoop self fetch (r + 1) a le).events =
        [.clearTimeout, .fetch a, .delay (self.retryDelay * a)] ++
          (requestLoop self fetch r (a + 1) (some e)).events := by
  simp [requestLoop, h, hn, ha]

theorem requestLoop_last {α : Type} (self : ApiService) (fetch : Nat → FetchResult α)
    (r a : Nat) (le : Option JSError) (e : JSError) (h : attemptOutcome (fetch a) = .error e)
    (hn : e.name ≠ "AbortError") (ha : a = self.retryAttempts) :
    (requestLoop self fetch (r + 1) a le).result = .error (classifyLastError (some e)) ∧
      (requestLoop self fetch (r + 1) a le).events = [.clearTimeout, .fetch a] := by
  unfold requestLoop
  rw [h]
  simp only [hn, if_false, if_pos ha, and_self]

theorem fetchAttempts_step (a d : Nat) (rest : List Event) :
    fetchAttempts ([.clearTimeout, .fetch a, .delay d] ++ rest) = a :: fetchAttempts rest := rfl

theorem delays_step (a d : Nat) (rest : List Event) :
    delays ([.clearTimeout, .fetch a, .delay d] ++ rest) = d :: delays rest := rfl

theorem requestLoop_failures {α : Type} (self : ApiService) (fetch : Nat → FetchResult α)
    (r : Nat) : ∀ (k a : Nat) (le : Option JSError),
    (∀ i, a ≤ i → i < a + k → failsWithoutAbort (fetch i)) → a + k ≤ self.retryAttempts →
    ∃ le', (requestLoop self fetch (k + (r + 1)) a le).result =
        (requestLoop self fetch (r + 1) (a + k) le').result ∧
      fetchAttempts (requestLoop self fetch (k + (r + 1)) a le).events =
        List.range' a k ++ fetchAttempts (requestLoop self fetch (r + 1) (a + k) le').events ∧
      delays (requestLoop self fetch (k + (r + 1)) a le).events =
        (List.range' a k).map (fun i => self.retryDelay * i) ++
          delays (requestLoop self fetch (r + 1) (a + k) le').events := by
  intro k
  induction k with
  | zero =>
    intro a le _ _
    exact ⟨le, by simp, by simp, by simp⟩
  | succ k ih =>
    intro a le hfail hle
    obtain ⟨e, he, hn⟩ := attemptOutcome_of_fails (fetch a) (hfail a (le_refl a) (by omega))
    have ha : a ≠ self.retryAttempts := by omega
    have hstep := requestLoop_retry self fetch (k + (r + 1)) a le e he hn ha
    obtain ⟨le', h1, h2, h3⟩ := ih (a + 1) (some e)
      (fun i hi1 hi2 => hfail i (by omega) (by omega)) (by omega)
    have hrem : k + 1 + (r + 1) = k + (r + 1) + 1 := by omega
    have hnext : a + 1 + k = a + (k + 1) := by omega
    rw [hrem, hstep.1, hstep.2]
    rw [hnext] at h1 h2 h3
    refine ⟨le', h1, ?_, ?_⟩
    · rw [fetchAttempts_step, h2, List.range'_succ, List.cons_append]
    · rw [delays_step, h3, List.range'_succ, List.map_cons, List.cons_append]

theorem request_result {α : Type} (self : ApiService) (fetch : Nat → FetchResult α) :
    (self.request fetch).result = (requestLoop self fetch self.retryAttempts 1 none).result ∧
    fetchAttempts (self.request fetch).events =
      fetchAttempts (requestLoop self fetch self.retryAttempts 1 none).events ∧
    delays (self.request fetch).events =
      delays (requestLoop self fetch self.retryAttempts 1 none).events :=
  ⟨rfl, rfl, rfl⟩

/-- Claim C17. For a retry limit `n = retryAttempts` and `k < n`: if the first `k`
calls of `fetch` fail without an abort (they reject with an error other than an
`AbortError`, or resolve with a status outside 200-299) and call `k + 1`
succeeds, `request` returns the parsed body of call `k + 1` and throws nothing;
it has called `fetch` exactly `k + 1` times, for the attempts 1 to `k + 1`, and
has waited `retryDelay * 1`, ..., `retryDelay * k` in between. -/
theorem request_retry_success {α : Type} (self : ApiService) (fetch : Nat → FetchResult α)
    (k : Nat) (body : α) (hk : k < self.retryAttempts)
    (hfail : ∀ i, 1 ≤ i → i ≤ k → failsWithoutAbort (fetch i))
    (hok : succeedsWith (fetch (k + 1)) body) :
    (self.request fetch).result = .ok body ∧
    fetchAttempts (self.request fetch).events = List.range' 1 (k + 1) ∧
    (fetchAttempts (self.request fetch).events).length = k + 1 ∧
    delays (self.request fetch).events = (List.range' 1 k).map (fun i => self.retryDelay * i) := by
  obtain ⟨r, hr⟩ : ∃ r, self.retryAttempts = k + (r + 1) := ⟨self.retryAttempts - k - 1, by omega⟩
  obtain ⟨hres, hfa, hde⟩ := request_result self fetch
  obtain ⟨le', h1, h2, h3⟩ := requestLoop_failures self fetch r k 1 none
    (fun i hi1 hi2 => hfail i hi1 (by omega)) (by omega)
  obtain ⟨hokr, hoke⟩ := requestLoop_ok self fetch r (1 + k) le' body
    (by rw [Nat.add_comm 1 k]; exact attemptOutcome_of_succeeds _ body hok)
  have hfetch : fetchAttempts (self.request fetch).events = List.range' 1 (k + 1) := by
    rw [hfa, hr, h2, hoke, List.range'_concat]
    simp [fetchAttempts]
  refine ⟨?_, hfetch, ?_, ?_⟩
  · rw [hres, hr, h1, hokr]
  · rw [hfetch, List.length_range']
  · rw [hde, hr, h3, hoke]
    simp [delays]

/-- The scenario of the specification: `retryAttempts` is 3, the handler fails
twice and then succeeds; the third response is returned after the delays 1000
and 2000. -/
theorem request_retry_success_witness :
    2 < ApiService.new.retryAttempts ∧
    (∀ i, 1 ≤ i → i ≤ 2 → failsWithoutAbort (failTwiceThenSucceed i)) ∧
    succeedsWith (failTwiceThenSucceed (2 + 1)) 42 ∧
    (ApiService.new.request failTwiceThenSucceed).result = .ok 42 ∧
    fetchAttempts (ApiService.new.request failTwiceThenSucceed).events = [1, 2, 3] ∧
    delays (ApiService.new.request failTwiceThenSucceed).events = [1000, 2000] := by
  have hfail : ∀ i, 1 ≤ i → i ≤ 2 → failsWithoutAbort (failTwiceThenSucceed i) := by
    intro i _ hi
    exact Or.inl ⟨{ name := "TypeError", message := "Failed to fetch" },
      by simp [failTwiceThenSucceed, hi], by decide⟩
  have hok : succeedsWith (failTwiceThenSucceed (2 + 1)) 42 :=
    ⟨{ status := 200, statusText := "OK", json := .ok 42 }, rfl, rfl, rfl⟩
  exact ⟨by decide, hfail, hok,
    (request_retry_success ApiService.new failTwiceThenSucceed 2 42 (by decide) hfail hok).1,
    by decide, by decide⟩

/-- Claim C19. If the first `k` calls of `fetch` fail without an abort and call
`k + 1`, still within the retry limit, fails with an `AbortError`, `request`
throws the error `Request timed out. Please try again.` at once: `fetch` has been
called for the attempts 1 to `k + 1` only and the delays waited are those after
the first `k` failures, none after the abort. -/
theorem request_abort {α : Type} (self : ApiService) (fetch : Nat → FetchResult α)
    (k : Nat) (hk : k < self.retryAttempts)
    (hfail : ∀ i, 1 ≤ i → i ≤ k → failsWithoutAbort (fetch i))
    (habort : abortsWith (fetch (k + 1))) :
    (self.request fetch).result = .error (JSError.new "Request timed out. Please try again.") ∧
    fetchAttempts (self.request fetch).events = List.range' 1 (k + 1) ∧
    delays (self.request fetch).events = (List.range' 1 k).map (fun i => self.retryDelay * i) := by
  obtain ⟨r, hr⟩ : ∃ r, self.retryAttempts = k + (r + 1) := ⟨self.retryAttempts - k - 1, by omega⟩
  obtain ⟨hres, hfa, hde⟩ := request_result self fetch
  obtain ⟨le', h1, h2, h3⟩ := requestLoop_failures self fetch r k 1 none
    (fun i hi1 hi2 => hfail i hi1 (by omega)) (by omega)
  obtain ⟨e, he, hn⟩ := attemptOutcome_of_aborts _ habort
  obtain ⟨habr, habe⟩ := requestLoop_abort self fetch r (1 + k) le' e
    (by rw [Nat.add_comm 1 k]; exact he) hn
  refine ⟨?_, ?_, ?_⟩
  · rw [hres, hr, h1, habr]
    rfl
  · rw [hfa, hr, h2, habe, List.range'_concat]
    simp [fetchAttempts]
  · rw [hde, hr, h3, habe]
    simp [delays]

/-- An abort on the second of three attempts: the request fails with the timeout
error after two calls of `fetch` and the single delay 1000. -/
theorem request_abort_witness :
    1 < ApiService.new.retryAttempts ∧
    (∀ i, 1 ≤ i → i ≤ 1 → failsWithoutAbort (abortOnSecond i)) ∧
    abortsWith (abortOnSecond (1 + 1)) ∧
    (ApiService.new.request abortOnSecond).result =
      .error (JSError.new "Request timed out. Please try again.") ∧
    fetchAttempts (ApiService.new.request abortOnSecond).events = [1, 2] ∧
    delays (ApiService.new.request abortOnSecond).events = [1000] := by
  have hfail : ∀ i, 1 ≤ i → i ≤ 1 → failsWithoutAbort (abortOnSecond i) := by
    intro i _ hi
    exact Or.inr ⟨{ status := 503, statusText := "Service Unavailable", json := .ok 0 },
      by simp [abortOnSecond, hi], by decide⟩
  have habort : abortsWith (abortOnSecond (1 + 1)) :=
    ⟨{ name := "AbortError", message := "The user aborted a request." }, rfl, rfl⟩
  exact ⟨by decide, hfail, habort,
    (request_abort ApiService.new abortOnSecond 1 (by decide) hfail habort).1,
    by decide, by decide⟩

/-- Claim C18, failing input. All three attempts resolve with status 405, so the
last failure has the message `HTTP 405: Method Not Allowed`, which mentions neither
`Failed to fetch` nor `NetworkError` and whose status is outside 500-599; since the
message contains the character `5`, `request` throws the Server error. With
status 404 it throws the Unknown error. -/
theorem request_405_server_error :
    attemptOutcome (always405 3) = .error (JSError.new "HTTP 405: Method Not Allowed") ∧
    (ApiService.new.request always405).result =
      .error (JSError.new "Server error occurred. Please try again later.") ∧
    fetchAttempts (ApiService.new.request always405).events = [1, 2, 3] ∧
    classifyLastError (some (JSError.new "HTTP 405: Method Not Allowed")) =
      JSError.new "Server error occurred. Please try again later." ∧
    (ApiService.new.request always404).result =
      .error (JSError.new "An unknown error occurred. Please try again.") := by
  refine ⟨by rfl, by rfl, by decide, by decide, by rfl⟩

theorem timerArmedAtFetch_requestLoop {α : Type} (self : ApiService)
    (fetch : Nat → FetchResult α) : ∀ (remaining attempt : Nat) (le : Option JSError)
    (armed : Bool), ∀ b ∈ timerArmedAtFetch armed (requestLoop self fetch remaining attempt
      le).events, b = false := by
  intro remaining
  induction remaining with
  | zero =>
    intro attempt le armed b hb
    simp [requestLoop, timerArmedAtFetch] at hb
  | succ n ih =>
    intro attempt le armed b hb
    cases hout : attemptOutcome (fetch attempt) with
    | ok body =>
      rw [(requestLoop_ok self fetch n attempt le body hout).2] at hb
      simpa [timerArmedAtFetch] using hb
    | error e =>
      by_cases hn : e.name = "AbortError"
      · rw [(requestLoop_abort self fetch n attempt le e hout hn).2] at hb
        simpa [timerArmedAtFetch] using hb
      · by_cases ha : attempt = self.retryAttempts
        · rw [(requestLoop_last self fetch n attempt le e hout hn ha).2] at hb
          simpa [timerArmedAtFetch] using hb
        · rw [(requestLoop_retry self fetch n attempt le e hout hn ha).2] at hb
          simp only [List.cons_append, List.nil_append, timerArmedAtFetch,
            List.mem_cons] at hb
          rcases hb with hb | hb
          · exact hb
          · exact ih _ _ _ b hb

/-- Claim C20, failing input. In every run of `request` the abort timer is
disarmed at each call of `fetch`: `clearTimeout(timeoutId)` is the first statement
of every attempt, so the timer armed at the start is cleared before the first
`fetch` and never armed again. On the default service with a handler that fails
twice, the events are `setTimeout`, then `clearTimeout` and `fetch` for each of
the three attempts, and the timer is armed at none of the three calls. -/
theorem request_timer_disarmed :
    (∀ (self : ApiService) (fetch : Nat → FetchResult Nat),
      ∀ b ∈ timerArmedAtFetch false (self.request fetch).events, b = false) ∧
    (ApiService.new.request failTwiceThenSucceed).events =
      [.setTimeout 10000, .clearTimeout, .fetch 1, .delay 1000, .clearTimeout, .fetch 2,
        .delay 2000, .clearTimeout, .fetch 3] ∧
    timerArmedAtFetch false (ApiService.new.request failTwiceThenSucceed).events =
      [false, false, false] := by
  refine ⟨?_, by decide, by decide⟩
  intro self fetch b hb
  exact timerArmedAtFetch_requestLoop self fetch self.retryAttempts 1 none true b
    (by simpa [ApiService.request, timerArmedAtFetch] using hb)

/-! ## Record store -/

theorem applyFiltersAndSearch_users (self : UserService) :
    self.applyFiltersAndSearch.1.users = self.users ∧
    self.applyFiltersAndSearch.1.originalUsers = self.originalUsers ∧
    self.applyFiltersAndSearch.1.currentSort = self.currentSort ∧
    self.applyFiltersAndSearch.1.currentFilters = self.currentFilters ∧
    self.applyFiltersAndSearch.1.searchQuery = self.searchQuery :=
  ⟨rfl, rfl, rfl, rfl, rfl⟩

theorem createUser_of_error (self : UserService) (api : ApiService)
    (fetch : Nat → FetchResult Json) (now : Int) (userData : FormData) (e : JSError)
    (h : (api.request fetch).result = .error e) :
    self.createUser api fetch now userData = (self, .error (JSError.new CREATE_ERROR)) := by
  simp [UserService.createUser, ApiService.createUser, h]

theorem updateUser_of_error (self : UserService) (api : ApiService)
    (fetch : Nat → FetchResult Json) (id : Int) (userData : FormData) (e : JSError)
    (h : (api.request fetch).result = .error e) :
    self.updateUser api fetch id userData = (self, .error (JSError.new UPDATE_ERROR)) := by
  simp [UserService.updateUser, ApiService.updateUser, h]

theorem deleteUser_of_error (self : UserService) (api : ApiService)
    (fetch : Nat → FetchResult Json) (id : Int) (e : JSError)
    (h : (api.request fetch).result = .error e) :
    self.deleteUser api fetch id = (self, .error (JSError.new DELETE_ERROR)) := by
  simp [UserService.deleteUser, ApiService.deleteUser, h]

theorem createUser_of_ok (self : UserService) (api : ApiService)
    (fetch : Nat → FetchResult Json) (now : Int) (userData : FormData)
    (responseId : Option Int) (h : (api.request fetch).result = .ok (.object responseId)) :
    self.createUser api fetch now userData =
      (({ self with
          users := self.users ++
            [(formatUserDataForAPI userData).withId (idOrNow responseId now)],
          originalUsers := self.originalUsers ++
            [(formatUserDataForAPI userData).withId (idOrNow responseId now)]
        }).applyFiltersAndSearch.1,
        .ok ((formatUserDataForAPI userData).withId (idOrNow responseId now))) := by
  simp [UserService.createUser, ApiService.createUser, h]

theorem createUser_of_null (self : UserService) (api : ApiService)
    (fetch : Nat → FetchResult Json) (now : Int) (userData : FormData)
    (h : (api.request fetch).result = .ok .null) :
    self.createUser api fetch now userData = (self, .error (JSError.new CREATE_ERROR)) := by
  simp [UserService.createUser, ApiService.createUser, h]

theorem updateUser_of_ok (self : UserService) (api : ApiService)
    (fetch : Nat → FetchResult Json) (id : Int) (userData : FormData) (body : Json)
    (h : (api.request fetch).result = .ok body) :
    self.updateUser api fetch id userData =
      (({ self with
          users := replaceById self.users id ((formatUserDataForAPI userData).withId id),
          originalUsers :=
            replaceById self.originalUsers id ((formatUserDataForAPI userData).withId id)
        }).applyFiltersAndSearch.1,
        .ok ((formatUserDataForAPI userData).withId id)) := by
  simp [UserService.updateUser, ApiService.updateUser, h]

theorem deleteUser_of_ok (self : UserService) (api : ApiService)
    (fetch : Nat → FetchResult Json) (id : Int) (body : Json)
    (h : (api.request fetch).result = .ok body) :
    self.deleteUser api fetch id =
      (({ self with
          users := self.users.filter (fun user => user.id != id),
          originalUsers := self.originalUsers.filter (fun user => user.id != id)
        }).applyFiltersAndSearch.1, .ok true) := by
  simp [UserService.deleteUser, ApiService.deleteUser, h]

theorem request_result_cases {α : Type} (api : ApiService) (fetch : Nat → FetchResult α) :
    (∃ body, (api.request fetch).result = .ok body) ∨
      (∃ e, (api.request fetch).result = .error e) := by
  cases h : (api.request fetch).result with
  | ok body => exact Or.inl ⟨body, rfl⟩
  | error e => exact Or.inr ⟨e, rfl⟩

theorem json_cases (body : Json) : body = .null ∨ ∃ responseId, body = .object responseId := by
  cases body with
  | null => exact Or.inl rfl
  | object responseId => exact Or.inr ⟨responseId, rfl⟩

/-- Claim C21, failing input. From `sampleStore` (ids 1 and 2) a first creation
answered with id 11 gives the pairwise distinct ids 1, 2, 11 in `users` and
`originalUsers`; a second creation, answered with id 11 again, completes and
leaves the ids 1, 2, 11, 11 in both sets. -/
theorem createUser_duplicate_id :
    ((sampleStore.createUser ApiService.new (respondWith (some 11)) 1700000000000
      newUserForm).1.users.map User.id) = [1, 2, 11] ∧
    ((sampleStore.createUser ApiService.new (respondWith (some 11)) 1700000000000
      newUserForm).1.users.map User.id).Nodup ∧
    ((sampleStore.createUser ApiService.new (respondWith (some 11)) 1700000000000
      newUserForm).1.originalUsers.map User.id).Nodup ∧
    (((sampleStore.createUser ApiService.new (respondWith (some 11)) 1700000000000
      newUserForm).1.createUser ApiService.new (respondWith (some 11)) 1700000000001
      bobForm).2.toOption.map User.id) = some 11 ∧
    twiceCreatedStore.users.map User.id = [1, 2, 11, 11] ∧
    ¬ (twiceCreatedStore.users.map User.id).Nodup ∧
    ¬ (twiceCreatedStore.originalUsers.map User.id).Nodup := by
  refine ⟨by decide, by decide, by decide, by decide, by decide, by decide, by decide⟩

theorem replaceById_length (arr : List User) (id : Int) (x : User) :
    (replaceById arr id x).length = arr.length := by
  unfold replaceById
  simp only
  split_ifs <;> simp

theorem findIdx_id_spec (arr : List User) (id : Int)
    (h : arr.findIdx (fun user => user.id == id) < arr.length) :
    ∃ u, arr[arr.findIdx (fun user => user.id == id)]? = some u ∧ u.id = id := by
  have hget := List.findIdx_getElem (w := h)
  refine ⟨arr[arr.findIdx (fun user => user.id == id)], ?_, by simpa using hget⟩
  exact List.getElem?_eq_getElem h

theorem replaceById_map_id (arr : List User) (id : Int) (x : User) (hx : x.id = id) :
    (replaceById arr id x).map User.id = arr.map User.id := by
  unfold replaceById
  simp only
  split_ifs with h
  · obtain ⟨u, hu, hid⟩ := findIdx_id_spec arr id h
    apply List.ext_getElem?
    intro n
    rw [List.getElem?_map, List.getElem?_map, List.getElem?_set]
    by_cases hn : arr.findIdx (fun user => user.id == id) = n
    · subst hn
      simp [h, hu, hx, hid]
    · simp [hn]
  · rfl

theorem replaceById_of_not_mem (arr : List User) (id : Int) (x : User)
    (h : ∀ u ∈ arr, u.id ≠ id) : replaceById arr id x = arr := by
  unfold replaceById
  simp only
  have hnot : ¬ arr.findIdx (fun user => user.id == id) < arr.length := by
    intro hlt
    obtain ⟨u, hu, hid⟩ := findIdx_id_spec arr id hlt
    exact h u (List.getElem?_mem hu) hid
  rw [if_neg hnot]

theorem replaceById_getElem_of_ne (arr : List User) (id : Int) (x : User) (i : Nat) (u : User)
    (hu : arr[i]? = some u) (hne : u.id ≠ id) : (replaceById arr id x)[i]? = some u := by
  unfold replaceById
  simp only
  split_ifs with h
  · obtain ⟨v, hv, hid⟩ := findIdx_id_spec arr id h
    rw [List.getElem?_set]
    by_cases hn : arr.findIdx (fun user => user.id == id) = i
    · rw [hn] at hv
      rw [hv] at hu
      cases hu
      exact absurd hid hne
    · simp [hn, hu]
  · exact hu

theorem replaceById_getElem_of_ne_idx (arr : List User) (id : Int) (x : User) (i : Nat)
    (hi : i ≠ arr.findIdx (fun user => user.id == id)) :
    (replaceById arr id x)[i]? = arr[i]? := by
  unfold replaceById
  simp only
  split_ifs with h
  · rw [List.getElem?_set]
    simp [Ne.symm hi]
  · rfl

theorem replaceById_first (arr : List User) (id : Int) (x : User)
    (h : ∃ u ∈ arr, u.id = id) :
    arr.findIdx (fun user => user.id == id) < arr.length ∧
    (replaceById arr id x)[arr.findIdx (fun user => user.id == id)]? = some x ∧
    (∀ j u, j < arr.findIdx (fun user => user.id == id) → arr[j]? = some u → u.id ≠ id) := by
  obtain ⟨u, hu, hid⟩ := h
  have hlt : arr.findIdx (fun user => user.id == id) < arr.length :=
    List.findIdx_lt_length_of_exists ⟨u, hu, by simpa using hid⟩
  refine ⟨hlt, ?_, ?_⟩
  · unfold replaceById
    simp only
    rw [if_pos hlt, List.getElem?_set]
    simp [hlt]
  · intro j v hj hv hvid
    have hjl : j < arr.length := lt_trans hj hlt
    have := List.not_of_lt_findIdx hj
    have hv' : arr[j] = v := by
      have := List.getElem?_eq_getElem hjl
      rw [this] at hv
      exact Option.some.inj hv
    rw [hv'] at this
    simp [hvid] at this

theorem replaceById_getElem_of_nodup (arr : List User) (id : Int) (x : User)
    (hnd : (arr.map User.id).Nodup) (i : Nat) (u : User) (hu : arr[i]? = some u)
    (hid : u.id = id) : (replaceById arr id x)[i]? = some x := by
  obtain ⟨hlt, hget, _⟩ := replaceById_first arr id x ⟨u, List.getElem?_mem hu, hid⟩
  obtain ⟨v, hv, hvid⟩ := findIdx_id_spec arr id hlt
  have hi : i < arr.length := by
    by_contra hcon
    rw [List.getElem?_eq_none (by omega)] at hu
    cases hu
  have h1 : (arr.map User.id)[i]? = some id := by
    rw [List.getElem?_map, hu]
    simp [hid]
  have h2 : (arr.map User.id)[arr.findIdx (fun user => user.id == id)]? = some id := by
    rw [List.getElem?_map, hv]
    simp [hvid]
  have heq : i = arr.findIdx (fun user => user.id == id) := by
    have hi' : i < (arr.map User.id).length := by simpa using hi
    have hk' : arr.findIdx (fun user => user.id == id) < (arr.map User.id).length := by
      simpa using hlt
    have e1 := List.getElem?_eq_getElem hi'
    have e2 := List.getElem?_eq_getElem hk'
    rw [e1] at h1
    rw [e2] at h2
    exact (List.Nodup.getElem_inj_iff hnd).1 ((Option.some.inj h1).trans (Option.some.inj h2).symm)
  rw [heq]
  exact hget

theorem filter_ne_map_id_nodup (arr : List User) (id : Int) (h : (arr.map User.id).Nodup) :
    ((arr.filter (fun user => user.id != id)).map User.id).Nodup :=
  h.sublist ((List.filter_sublist arr).map User.id)

theorem createUser_users_eq (self : UserService) (api : ApiService)
    (fetch : Nat → FetchResult Json) (now : Int) (userData : FormData)
    (h : self.users = self.originalUsers) :
    (self.createUser api fetch now userData).1.users =
      (self.createUser api fetch now userData).1.originalUsers := by
  rcases request_result_cases api fetch with ⟨body, hb⟩ | ⟨e, he⟩
  · rcases json_cases body with hnull | ⟨responseId, hobj⟩
    · rw [createUser_of_null self api fetch now userData (by rw [hb, hnull])]
      exact h
    · rw [createUser_of_ok self api fetch now userData responseId (by rw [hb, hobj])]
      simp [applyFiltersAndSearch_fst, h]
  · rw [createUser_of_error self api fetch now userData e he]
    exact h

theorem updateUser_users_eq (self : UserService) (api : ApiService)
    (fetch : Nat → FetchResult Json) (id : Int) (userData : FormData)
    (h : self.users = self.originalUsers) :
    (self.updateUser api fetch id userData).1.users =
      (self.updateUser api fetch id userData).1.originalUsers := by
  rcases request_result_cases api fetch with ⟨body, hb⟩ | ⟨e, he⟩
  · rw [updateUser_of_ok self api fetch id userData body hb]
    simp [applyFiltersAndSearch_fst, h]
  · rw [updateUser_of_error self api fetch id userData e he]
    exact h

theorem deleteUser_users_eq (self : UserService) (api : ApiService)
    (fetch : Nat → FetchResult Json) (id : Int) (h : self.users = self.originalUsers) :
    (self.deleteUser api fetch id).1.users = (self.deleteUser api fetch id).1.originalUsers := by
  rcases request_result_cases api fetch with ⟨body, hb⟩ | ⟨e, he⟩
  · rw [deleteUser_of_ok self api fetch id body hb]
    simp [applyFiltersAndSearch_fst, h]
  · rw [deleteUser_of_error self api fetch id e he]
    exact h

theorem loadUsers_users_eq (self : UserService) (api : ApiService)
    (fetch : Nat → FetchResult (List User)) (users : List User)
    (h : (self.loadUsers api fetch).2 = .ok users) :
    (self.loadUsers api fetch).1.users = users ∧
      (self.loadUsers api fetch).1.originalUsers = users := by
  unfold UserService.loadUsers at h ⊢
  cases hg : api.getUsers fetch with
  | ok us =>
    rw [hg] at h
    simp only at h ⊢
    cases h
    exact ⟨rfl, rfl⟩
  | error e =>
    rw [hg] at h
    simp at h

/-- Claim C22. In every state reached from a successful `loadUsers` by any
sequence of `createUser`, `updateUser`, `deleteUser`, `applySearch`,
`applyFilters`, `clearFilters`, `toggleSortOrder` and `reset` calls, `users` and
`originalUsers` hold the same records in the same order, hence the same ids. -/
theorem reachable_users_eq_originalUsers (s : UserService) (h : UserService.Reachable s) :
    s.users = s.originalUsers ∧ s.users.map User.id = s.originalUsers.map User.id := by
  have hmain : s.users = s.originalUsers := by
    induction h with
    | loadUsers s api fetch users h =>
      obtain ⟨h1, h2⟩ := loadUsers_users_eq s api fetch users h
      rw [h1, h2]
    | createUser s api fetch now userData _ ih => exact createUser_users_eq s api fetch now userData ih
    | updateUser s api fetch id userData _ ih => exact updateUser_users_eq s api fetch id userData ih
    | deleteUser s api fetch id _ ih => exact deleteUser_users_eq s api fetch id ih
    | applySearch s query _ ih => exact ih
    | applyFilters s filters _ ih => exact ih
    | clearFilters s _ ih => exact ih
    | toggleSortOrder s _ ih => exact ih
    | reset s _ ih => rfl
  exact ⟨hmain, by rw [hmain]⟩

/-- A reachable state: load of the two sample records, a creation and a deletion;
both sets hold the same records. -/
theorem reachable_users_eq_originalUsers_witness :
    UserService.Reachable
      ((((UserService.new.loadUsers ApiService.new
        (respondUsers [johnDoe, annLee])).1.createUser ApiService.new
        (respondWith (some 11)) 1700000000000 newUserForm).1.deleteUser ApiService.new
        (respondWith none) 1).1) ∧
    ((((UserService.new.loadUsers ApiService.new
        (respondUsers [johnDoe, annLee])).1.createUser ApiService.new
        (respondWith (some 11)) 1700000000000 newUserForm).1.deleteUser ApiService.new
        (respondWith none) 1).1).users.map User.id = [2, 11] ∧
    ((((UserService.new.loadUsers ApiService.new
        (respondUsers [johnDoe, annLee])).1.createUser ApiService.new
        (respondWith (some 11)) 1700000000000 newUserForm).1.deleteUser ApiService.new
        (respondWith none) 1).1).users =
    ((((UserService.new.loadUsers ApiService.new
        (respondUsers [johnDoe, annLee])).1.createUser ApiService.new
        (respondWith (some 11)) 1700000000000 newUserForm).1.deleteUser ApiService.new
        (respondWith none) 1).1).originalUsers :=
  have hr := UserService.Reachable.deleteUser _ ApiService.new (respondWith none) 1
    (UserService.Reachable.createUser _ ApiService.new (respondWith (some 11)) 1700000000000
      newUserForm
      (UserService.Reachable.loadUsers UserService.new ApiService.new
        (respondUsers [johnDoe, annLee]) [johnDoe, annLee] rfl))
  ⟨hr, by decide, (reachable_users_eq_originalUsers _ hr).1⟩

/-- Claim C23. Whenever the transport call inside `createUser`, `updateUser` or
`deleteUser` fails, the operation throws an error (the create, update or delete
error) and the store state, that is `users`, `originalUsers`, `filteredUsers`,
`currentFilters`, `searchQuery` and `currentSort`, is exactly as before the call;
a mutator that changes the state has seen its network call succeed. -/
theorem mutators_atomic (self : UserService) (api : ApiService)
    (fetch : Nat → FetchResult Json) (now id : Int) (userData : FormData) :
    (∀ e, (api.request fetch).result = .error e →
      self.createUser api fetch now userData = (self, .error (JSError.new CREATE_ERROR)) ∧
      self.updateUser api fetch id userData = (self, .error (JSError.new UPDATE_ERROR)) ∧
      self.deleteUser api fetch id = (self, .error (JSError.new DELETE_ERROR))) ∧
    ((self.createUser api fetch now userData).1 ≠ self →
      ∃ body, (api.request fetch).result = .ok body) ∧
    ((self.updateUser api fetch id userData).1 ≠ self →
      ∃ body, (api.request fetch).result = .ok body) ∧
    ((self.deleteUser api fetch id).1 ≠ self →
      ∃ body, (api.request fetch).result = .ok body) := by
  refine ⟨?_, ?_, ?_, ?_⟩
  · intro e he
    exact ⟨createUser_of_error self api fetch now userData e he,
      updateUser_of_error self api fetch id userData e he,
      deleteUser_of_error self api fetch id e he⟩
  · intro hne
    rcases request_result_cases api fetch with hok | ⟨e, he⟩
    · exact hok
    · rw [createUser_of_error self api fetch now userData e he] at hne
      exact absurd rfl hne
  · intro hne
    rcases request_result_cases api fetch with hok | ⟨e, he⟩
    · exact hok
    · rw [updateUser_of_error self api fetch id userData e he] at hne
      exact absurd rfl hne
  · intro hne
    rcases request_result_cases api fetch with hok | ⟨e, he⟩
    · exact hok
    · rw [deleteUser_of_error self api fetch id e he] at hne
      exact absurd rfl hne

/-- A creation while the network is down: the request fails after three attempts,
`createUser` throws the create error and the store is unchanged. -/
theorem mutators_atomic_witness :
    (ApiService.new.request alwaysOffline).result = .error (JSError.new NETWORK_ERROR) ∧
    sampleStore.createUser ApiService.new alwaysOffline 1700000000000 newUserForm =
      (sampleStore, .error (JSError.new "Failed to create user. Please try again.")) :=
  ⟨rfl, ((mutators_atomic sampleStore ApiService.new alwaysOffline 1700000000000 1
    newUserForm).1 (JSError.new NETWORK_ERROR) rfl).1⟩

/-- Claim C24, amended. After a successful `createUser(candidate)`, `users` and
`originalUsers` are each the previous list with one record appended at the end;
that record is the value returned; it is the formatted candidate carrying the id
of the server response when the response has a non-zero one, and the value of
`Date.now()` when the response has no id or the id 0; `filteredUsers` is the view
derived from the new working set under the unchanged search, filters and sort. -/
theorem createUser_success (self : UserService) (api : ApiService)
    (fetch : Nat → FetchResult Json) (now : Int) (userData : FormData)
    (responseId : Option Int) (h : (api.request fetch).result = .ok (.object responseId)) :
    (self.createUser api fetch now userData).2 =
      .ok ((formatUserDataForAPI userData).withId (idOrNow responseId now)) ∧
    (self.createUser api fetch now userData).1.users =
      self.users ++ [(formatUserDataForAPI userData).withId (idOrNow responseId now)] ∧
    (self.createUser api fetch now userData).1.originalUsers =
      self.originalUsers ++ [(formatUserDataForAPI userData).withId (idOrNow responseId now)] ∧
    (∀ n : Int, responseId = some n → n ≠ 0 → idOrNow responseId now = n) ∧
    (responseId = none ∨ responseId = some 0 → idOrNow responseId now = now) ∧
    (self.createUser api fetch now userData).1.filteredUsers =
      (({ self with
          users := self.users ++
            [(formatUserDataForAPI userData).withId (idOrNow responseId now)] } :
        UserService).applyFiltersAndSearch).2 ∧
    (self.createUser api fetch now userData).1.currentSort = self.currentSort ∧
    (self.createUser api fetch now userData).1.currentFilters = self.currentFilters ∧
    (self.createUser api fetch now userData).1.searchQuery = self.searchQuery := by
  rw [createUser_of_ok self api fetch now userData responseId h]
  refine ⟨rfl, rfl, rfl, ?_, ?_, rfl, rfl, rfl, rfl⟩
  · intro n hn hne
    rw [hn]
    simp [idOrNow, hne]
  · rintro (hn | hn) <;> rw [hn] <;> simp [idOrNow]

/-- A creation answered with the id 11: the stored and returned record carries
the id 11 and is appended to both sets. -/
theorem createUser_success_witness :
    (ApiService.new.request (respondWith (some 11))).result = .ok (.object (some 11)) ∧
    (sampleStore.createUser ApiService.new (respondWith (some 11)) 1700000000000
      newUserForm).1.users.map User.id = [1, 2, 11] ∧
    (sampleStore.createUser ApiService.new (respondWith (some 11)) 1700000000000
      newUserForm).1.users =
      sampleStore.users ++ [(formatUserDataForAPI newUserForm).withId
        (idOrNow (some 11) 1700000000000)] :=
  ⟨rfl, by decide,
    (createUser_success sampleStore ApiService.new (respondWith (some 11)) 1700000000000
      newUserForm (some 11) rfl).2.1⟩

/-- Claim C24 as stated fails. The server answers the creation with the id 0; the
record stored and returned carries the value of `Date.now()`, not the id of the
response. -/
theorem createUser_response_id_zero :
    (ApiService.new.request (respondWith (some 0))).result = .ok (.object (some 0)) ∧
    (sampleStore.createUser ApiService.new (respondWith (some 0)) 1700000000000
      newUserForm).2.toOption.map User.id = some 1700000000000 ∧
    (sampleStore.createUser ApiService.new (respondWith (some 0)) 1700000000000
      newUserForm).1.users.map User.id = [1, 2, 1700000000000] ∧
    ¬ (∀ (self : UserService) (api : ApiService) (fetch : Nat → FetchResult Json) (now : Int)
        (userData : FormData) (n : Int), (api.request fetch).result = .ok (.object (some n)) →
        (self.createUser api fetch now userData).2.toOption.map User.id = some n) := by
  refine ⟨rfl, by decide, by decide, ?_⟩
  intro hall
  have := hall sampleStore ApiService.new (respondWith (some 0)) 1700000000000 newUserForm 0 rfl
  exact absurd this (by decide)

/-- Claim C25, amended. After a successful `updateUser(id, candidate)` the record
returned is the formatted candidate carrying that id; in `users` and in
`originalUsers` the lengths are unchanged, every entry with another id is
unchanged at its position, and the first entry with that id is the formatted
candidate while every entry at another position is unchanged; when the ids of a
set are pairwise distinct, every entry of it with that id is the formatted
candidate; when no entry has that id the set is left as it was. -/
theorem updateUser_success (self : UserService) (api : ApiService)
    (fetch : Nat → FetchResult Json) (id : Int) (userData : FormData) (body : Json)
    (h : (api.request fetch).result = .ok body) :
    (self.updateUser api fetch id userData).2 =
      .ok ((formatUserDataForAPI userData).withId id) ∧
    ((formatUserDataForAPI userData).withId id).id = id ∧
    (self.updateUser api fetch id userData).1.users.length = self.users.length ∧
    (self.updateUser api fetch id userData).1.originalUsers.length =
      self.originalUsers.length ∧
    (∀ (i : Nat) (u : User), u.id ≠ id →
      (self.users[i]? = some u → (self.updateUser api fetch id userData).1.users[i]? = some u) ∧
      (self.originalUsers[i]? = some u →
        (self.updateUser api fetch id userData).1.originalUsers[i]? = some u)) ∧
    ((self.users.map User.id).Nodup → ∀ (i : Nat) (u : User), self.users[i]? = some u → u.id = id →
      (self.updateUser api fetch id userData).1.users[i]? =
        some ((formatUserDataForAPI userData).withId id)) ∧
    ((self.originalUsers.map User.id).Nodup → ∀ (i : Nat) (u : User),
      self.originalUsers[i]? = some u →
      u.id = id →
      (self.updateUser api fetch id userData).1.originalUsers[i]? =
        some ((formatUserDataForAPI userData).withId id)) ∧
    ((∃ u ∈ self.users, u.id = id) →
      (self.updateUser api fetch id userData).1.users[self.users.findIdx
        (fun user => user.id == id)]? = some ((formatUserDataForAPI userData).withId id)) ∧
    ((∀ u ∈ self.users, u.id ≠ id) →
      (self.updateUser api fetch id userData).1.users = self.users) ∧
    ((∀ u ∈ self.originalUsers, u.id ≠ id) →
      (self.updateUser api fetch id userData).1.originalUsers = self.originalUsers) ∧
    (self.updateUser api fetch id userData).1.filteredUsers =
      (({ self with
          users := replaceById self.users id ((formatUserDataForAPI userData).withId id) } :
        UserService).applyFiltersAndSearch).2 ∧
    ((∃ u ∈ self.originalUsers, u.id = id) →
      (self.updateUser api fetch id userData).1.originalUsers[self.originalUsers.findIdx
        (fun user => user.id == id)]? = some ((formatUserDataForAPI userData).withId id)) ∧
    ((∃ u ∈ self.users, u.id = id) →
      ∀ (j : Nat) (u : User), j < self.users.findIdx (fun user => user.id == id) →
        self.users[j]? = some u → u.id ≠ id) ∧
    ((∃ u ∈ self.originalUsers, u.id = id) →
      ∀ (j : Nat) (u : User), j < self.originalUsers.findIdx (fun user => user.id == id) →
        self.originalUsers[j]? = some u → u.id ≠ id) ∧
    (∀ i : Nat, i ≠ self.users.findIdx (fun user => user.id == id) →
      (self.updateUser api fetch id userData).1.users[i]? = self.users[i]?) ∧
    (∀ i : Nat, i ≠ self.originalUsers.findIdx (fun user => user.id == id) →
      (self.updateUser api fetch id userData).1.originalUsers[i]? =
        self.originalUsers[i]?) := by
  rw [updateUser_of_ok self api fetch id userData body h]
  refine ⟨rfl, rfl, replaceById_length _ _ _, replaceById_length _ _ _, ?_, ?_, ?_, ?_, ?_, ?_,
    rfl, fun hex => (replaceById_first _ _ _ hex).2.1,
    fun hex => (replaceById_first _ id ((formatUserDataForAPI userData).withId id) hex).2.2,
    fun hex => (replaceById_first _ id ((formatUserDataForAPI userData).withId id) hex).2.2,
    fun i hi => replaceById_getElem_of_ne_idx _ _ _ i hi,
    fun i hi => replaceById_getElem_of_ne_idx _ _ _ i hi⟩
  · intro i u hne
    exact ⟨fun hu => replaceById_getElem_of_ne _ _ _ i u hu hne,
      fun hu => replaceById_getElem_of_ne _ _ _ i u hu hne⟩
  · intro hnd i u hu hid
    exact replaceById_getElem_of_nodup _ _ _ hnd i u hu hid
  · intro hnd i u hu hid
    exact replaceById_getElem_of_nodup _ _ _ hnd i u hu hid
  · intro hex
    exact (replaceById_first _ _ _ hex).2.1
  · intro hno
    exact replaceById_of_not_mem _ _ _ hno
  · intro hno
    exact replaceById_of_not_mem _ _ _ hno

/-- An update of the record with id 2 in `sampleStore`: the entry at index 1 is
the formatted candidate, the entry at index 0 is untouched. -/
theorem updateUser_success_witness :
    (ApiService.new.request (respondWith none)).result = .ok (.object none) ∧
    (sampleStore.users.map User.id).Nodup ∧
    sampleStore.users[1]? = some annLee ∧ annLee.id = 2 ∧
    (sampleStore.updateUser ApiService.new (respondWith none) 2 bobEditForm).1.users[1]? =
      some ((formatUserDataForAPI bobEditForm).withId 2) ∧
    (sampleStore.updateUser ApiService.new (respondWith none) 2 bobEditForm).1.users.map
      User.name = ["John Doe", "Bob Zero"] ∧
    (sampleStore.updateUser ApiService.new (respondWith none) 2
      bobEditForm).1.originalUsers.map User.name = ["John Doe", "Bob Zero"] ∧
    (sampleStore.updateUser ApiService.new (respondWith none) 9 bobEditForm).1.users =
      sampleStore.users :=
  ⟨rfl, by decide, by decide, by decide,
    (updateUser_success sampleStore ApiService.new (respondWith none) 2 bobEditForm
      (.object none) rfl).2.2.2.2.2.1 (by decide) 1 annLee (by decide) (by decide),
    by decide, by decide, by decide⟩

/-- Claim C25 as stated fails. In `twiceCreatedStore` two records carry the id 11,
in `users` and in `originalUsers`; a successful `updateUser(11, candidate)`
overwrites the first of them only in each set, the second keeps its old
content. -/
theorem updateUser_duplicate_id :
    twiceCreatedStore.users.map User.id = [1, 2, 11, 11] ∧
    twiceCreatedStore.originalUsers.map User.id = [1, 2, 11, 11] ∧
    twiceCreatedStore.users.map User.name = ["John Doe", "Ann Lee", "New User", "Bob Seven"] ∧
    (ApiService.new.request (respondWith none)).result = .ok (.object none) ∧
    (twiceCreatedStore.updateUser ApiService.new (respondWith none) 11
      bobEditForm).1.users.map User.id = [1, 2, 11, 11] ∧
    (twiceCreatedStore.updateUser ApiService.new (respondWith none) 11
      bobEditForm).1.users.map User.name = ["John Doe", "Ann Lee", "Bob Zero", "Bob Seven"] ∧
    (twiceCreatedStore.updateUser ApiService.new (respondWith none) 11
      bobEditForm).1.originalUsers.map User.name =
        ["John Doe", "Ann Lee", "Bob Zero", "Bob Seven"] ∧
    (formatUserDataForAPI bobEditForm).name = "Bob Zero" ∧
    ¬ (∀ u ∈ (twiceCreatedStore.updateUser ApiService.new (respondWith none) 11
        bobEditForm).1.users, u.id = 11 → u = (formatUserDataForAPI bobEditForm).withId 11) ∧
    ¬ (∀ u ∈ (twiceCreatedStore.updateUser ApiService.new (respondWith none) 11
        bobEditForm).1.originalUsers,
        u.id = 11 → u = (formatUserDataForAPI bobEditForm).withId 11) := by
  refine ⟨by decide, by decide, by decide, rfl, by decide, by decide, by decide, by decide,
    by decide, by decide⟩

/-- Claim C26. After a successful `deleteUser(id)` no record with that id remains
in `users`, `originalUsers` or `filteredUsers`; both sets are the previous lists
without the records of that id, so every record with another id is still there,
in the same relative order. -/
theorem deleteUser_success (self : UserService) (api : ApiService)
    (fetch : Nat → FetchResult Json) (id : Int) (body : Json)
    (h : (api.request fetch).result = .ok body) :
    (self.deleteUser api fetch id).2 = .ok true ∧
    (∀ u ∈ (self.deleteUser api fetch id).1.users, u.id ≠ id) ∧
    (∀ u ∈ (self.deleteUser api fetch id).1.originalUsers, u.id ≠ id) ∧
    (∀ u ∈ (self.deleteUser api fetch id).1.filteredUsers, u.id ≠ id) ∧
    (self.deleteUser api fetch id).1.users = self.users.filter (fun u => decide (u.id ≠ id)) ∧
    (self.deleteUser api fetch id).1.originalUsers =
      self.originalUsers.filter (fun u => decide (u.id ≠ id)) ∧
    (∀ u, u.id ≠ id → ((self.deleteUser api fetch id).1.users.count u = self.users.count u ∧
      (self.deleteUser api fetch id).1.originalUsers.count u = self.originalUsers.count u)) ∧
    List.Sublist (self.deleteUser api fetch id).1.users self.users ∧
    List.Sublist (self.deleteUser api fetch id).1.originalUsers self.originalUsers := by
  have hf : (fun user : User => user.id != id) = (fun u => decide (u.id ≠ id)) := by
    funext u
    by_cases hu : u.id = id <;> simp [hu]
  have hres : (self.deleteUser api fetch id).2 = .ok true := by
    rw [deleteUser_of_ok self api fetch id body h]
  have husers : (self.deleteUser api fetch id).1.users =
      self.users.filter (fun u => decide (u.id ≠ id)) := by
    rw [deleteUser_of_ok self api fetch id body h, ← hf]
    rfl
  have horig : (self.deleteUser api fetch id).1.originalUsers =
      self.originalUsers.filter (fun u => decide (u.id ≠ id)) := by
    rw [deleteUser_of_ok self api fetch id body h, ← hf]
    rfl
  have hfilt : ∀ u ∈ (self.deleteUser api fetch id).1.filteredUsers,
      u ∈ (self.deleteUser api fetch id).1.users := by
    intro u hu
    rw [deleteUser_of_ok self api fetch id body h] at hu ⊢
    exact ((mem_applyFiltersAndSearch _ u).1 hu).1
  refine ⟨hres, ?_, ?_, ?_, husers, horig, ?_, ?_, ?_⟩
  · intro u hu
    rw [husers] at hu
    simpa using (List.mem_filter.1 hu).2
  · intro u hu
    rw [horig] at hu
    simpa using (List.mem_filter.1 hu).2
  · intro u hu
    have hmem := hfilt u hu
    rw [husers] at hmem
    simpa using (List.mem_filter.1 hmem).2
  · intro u hne
    rw [husers, horig]
    exact ⟨List.count_filter (by simpa using hne), List.count_filter (by simpa using hne)⟩
  · rw [husers]
    exact List.filter_sublist _
  · rw [horig]
    exact List.filter_sublist _

/-- A deletion of the record with id 1 from `sampleStore`: the record of id 2 is
what remains in the three lists. -/
theorem deleteUser_success_witness :
    (ApiService.new.request (respondWith none)).result = .ok (.object none) ∧
    (sampleStore.deleteUser ApiService.new (respondWith none) 1).1.users = [annLee] ∧
    (sampleStore.deleteUser ApiService.new (respondWith none) 1).1.filteredUsers = [annLee] ∧
    (∀ u ∈ (sampleStore.deleteUser ApiService.new (respondWith none) 1).1.filteredUsers,
      u.id ≠ 1) :=
  ⟨rfl, by decide, by decide,
    (deleteUser_success sampleStore ApiService.new (respondWith none) 1 (.object none)
      rfl).2.2.2.1⟩

/-- Claim C27. For a form whose department is empty or white space only,
`formatUserDataForAPI` stores `Not specified` in `company.name`, and
`getDepartment` of the formatted record with any id, hence of the record that
`createUser` stores, returns `Not specified`; for a non-blank department it
returns the trimmed department. -/
theorem getDepartment_formatted (formData : FormData) (id : Int) :
    ((∀ c ∈ formData.department.data, isTrimChar c = true) →
      (formatUserDataForAPI formData).company.name = "Not specified" ∧
      getDepartment ((formatUserDataForAPI formData).withId id) = "Not specified") ∧
    (trim formData.department ≠ "" →
      getDepartment ((formatUserDataForAPI formData).withId id) = trim formData.department) ∧
    (∀ (self : UserService) (api : ApiService) (fetch : Nat → FetchResult Json) (now : Int)
      (newUser : User), (self.createUser api fetch now formData).2 = .ok newUser →
      getDepartment newUser =
        if trim formData.department = "" then "Not specified" else trim formData.department) := by
  refine ⟨?_, ?_, ?_⟩
  · intro hblank
    have ht := trim_of_blank formData.department hblank
    simp [formatUserDataForAPI, getDepartment, UserData.withId, orEmpty, ht]
  · intro hne
    simp [formatUserDataForAPI, getDepartment, UserData.withId, orEmpty, hne]
  · intro self api fetch now newUser hok
    rcases request_result_cases api fetch with ⟨body, hb⟩ | ⟨e, he⟩
    · rcases json_cases body with hnull | ⟨responseId, hobj⟩
      · rw [createUser_of_null self api fetch now formData (by rw [hb, hnull])] at hok
        cases hok
      · rw [createUser_of_ok self api fetch now formData responseId (by rw [hb, hobj])] at hok
        simp only at hok
        cases hok
        simp [formatUserDataForAPI, getDepartment, UserData.withId, orEmpty]
    · rw [createUser_of_error self api fetch now formData e he] at hok
      cases hok

/-- The form `newUserForm` has a department of two blanks: the formatted record
shows the department `Not specified`. -/
theorem getDepartment_formatted_witness :
    (∀ c ∈ newUserForm.department.data, isTrimChar c = true) ∧
    (formatUserDataForAPI newUserForm).company.name = "Not specified" ∧
    getDepartment ((formatUserDataForAPI newUserForm).withId 11) = "Not specified" :=
  ⟨by decide, ((getDepartment_formatted newUserForm 11).1 (by decide)).1, by decide⟩

theorem toggleSortOrder_fst (self : UserService) :
    self.toggleSortOrder.1 =
      { self with
        currentSort := { self.currentSort with
          order := if self.currentSort.order = ASC then DESC else ASC },
        filteredUsers := (({ self with
          currentSort := { self.currentSort with
            order := if self.currentSort.order = ASC then DESC else ASC } } :
          UserService).applyFiltersAndSearch).2 } := rfl

theorem applyFiltersAndSearch_snd_congr (s t : UserService) (hu : s.users = t.users)
    (hs : s.currentSort = t.currentSort) (hf : s.currentFilters = t.currentFilters)
    (hq : s.searchQuery = t.searchQuery) :
    s.applyFiltersAndSearch.2 = t.applyFiltersAndSearch.2 := by
  rw [applyFiltersAndSearch_snd, applyFiltersAndSearch_snd, hu, hs, hf, hq]

/-- Claim C28, amended. For a store state whose sort order is `asc` or `desc`, one
call of `toggleSortOrder` flips the order, returns the new order and changes
neither `users`, `originalUsers`, `searchQuery`, `currentFilters` nor the sort
field; two calls restore `currentSort`, and when `filteredUsers` was the view
derived from the state (as it is after every load, mutation, search, filter or
toggle) they restore `filteredUsers`, indeed the whole state. -/
theorem toggleSortOrder_twice (self : UserService)
    (horder : self.currentSort.order = ASC ∨ self.currentSort.order = DESC) :
    self.toggleSortOrder.1.toggleSortOrder.1.currentSort = self.currentSort ∧
    (self.filteredUsers = self.applyFiltersAndSearch.2 →
      self.toggleSortOrder.1.toggleSortOrder.1.filteredUsers = self.filteredUsers ∧
      self.toggleSortOrder.1.toggleSortOrder.1 = self) ∧
    (self.currentSort.order = ASC →
      self.toggleSortOrder.1.currentSort.order = DESC ∧ self.toggleSortOrder.2 = DESC) ∧
    (self.currentSort.order = DESC →
      self.toggleSortOrder.1.currentSort.order = ASC ∧ self.toggleSortOrder.2 = ASC) ∧
    self.toggleSortOrder.1.currentSort.field = self.currentSort.field ∧
    self.toggleSortOrder.1.users = self.users ∧
    self.toggleSortOrder.1.originalUsers = self.originalUsers ∧
    self.toggleSortOrder.1.searchQuery = self.searchQuery ∧
    self.toggleSortOrder.1.currentFilters = self.currentFilters ∧
    self.toggleSortOrder.1.filteredUsers = self.toggleSortOrder.1.applyFiltersAndSearch.2 := by
  have hda : DESC ≠ ASC := by decide
  have hsort : self.toggleSortOrder.1.toggleSortOrder.1.currentSort = self.currentSort := by
    rcases horder with h | h
    · simp only [toggleSortOrder_fst, h, if_true, if_neg hda]
      rw [← h]
    · simp only [toggleSortOrder_fst, h, if_true, if_neg hda]
      rw [← h]
  have hview : self.toggleSortOrder.1.toggleSortOrder.1.filteredUsers =
      self.applyFiltersAndSearch.2 := by
    have h1 : self.toggleSortOrder.1.toggleSortOrder.1.filteredUsers =
        self.toggleSortOrder.1.toggleSortOrder.1.applyFiltersAndSearch.2 := by
      rw [toggleSortOrder_fst self.toggleSortOrder.1]
      exact applyFiltersAndSearch_snd_congr _ _ rfl rfl rfl rfl
    rw [h1]
    exact applyFiltersAndSearch_snd_congr _ _ rfl hsort rfl rfl
  refine ⟨hsort, ?_, ?_, ?_, rfl, rfl, rfl, rfl, rfl, ?_⟩
  · intro hder
    have hf : self.toggleSortOrder.1.toggleSortOrder.1.filteredUsers = self.filteredUsers := by
      rw [hview, hder]
    refine ⟨hf, ?_⟩
    have hu : self.toggleSortOrder.1.toggleSortOrder.1.users = self.users := rfl
    have ho : self.toggleSortOrder.1.toggleSortOrder.1.originalUsers = self.originalUsers := rfl
    have hc : self.toggleSortOrder.1.toggleSortOrder.1.currentFilters = self.currentFilters :=
      rfl
    have hq : self.toggleSortOrder.1.toggleSortOrder.1.searchQuery = self.searchQuery := rfl
    cases hs : self.toggleSortOrder.1.toggleSortOrder.1 with
    | mk u o f c cf q =>
      rw [hs] at hu ho hc hq hf hsort
      simp only at hu ho hc hq hf hsort
      cases self with
      | mk u' o' f' c' cf' q' =>
        simp only at hu ho hc hq hf hsort
        rw [hu, ho, hf, hsort, hc, hq]
  · intro h
    simp [UserService.toggleSortOrder, h, applyFiltersAndSearch_fst]
  · intro h
    simp [UserService.toggleSortOrder, h, hda, applyFiltersAndSearch_fst]
  · rw [toggleSortOrder_fst]
    exact applyFiltersAndSearch_snd_congr _ _ rfl rfl rfl rfl

/-- Two toggles on `sampleStore`, whose stored view is first derived: the order
goes from `asc` to `desc` and back, and the state is the one before. -/
theorem toggleSortOrder_twice_witness :
    (sampleStore.applyFiltersAndSearch.1.currentSort.order = ASC ∨
      sampleStore.applyFiltersAndSearch.1.currentSort.order = DESC) ∧
    sampleStore.applyFiltersAndSearch.1.filteredUsers =
      sampleStore.applyFiltersAndSearch.1.applyFiltersAndSearch.2 ∧
    sampleStore.applyFiltersAndSearch.1.toggleSortOrder.1.filteredUsers = [annLee, johnDoe] ∧
    sampleStore.applyFiltersAndSearch.1.toggleSortOrder.1.toggleSortOrder.1 =
      sampleStore.applyFiltersAndSearch.1 :=
  ⟨by decide, by decide, by decide,
    ((toggleSortOrder_twice sampleStore.applyFiltersAndSearch.1 (by decide)).2.1
      (by decide)).2⟩

/-- Claim C28 as stated fails. In `staleStore` the sort order is `asc` and the
stored view is still the one sorted by `id`, while the sort field is `name`; two
calls of `toggleSortOrder` restore `currentSort` and leave the view sorted by
name, not the original sequence. -/
theorem toggleSortOrder_stale_view :
    staleStore.currentSort = { field := "name", order := "asc" } ∧
    staleStore.filteredUsers = [zed1, alice2, alice3] ∧
    staleStore.toggleSortOrder.1.toggleSortOrder.1.currentSort = staleStore.currentSort ∧
    staleStore.toggleSortOrder.1.toggleSortOrder.1.filteredUsers = [alice3, alice2, zed1] ∧
    staleStore.toggleSortOrder.1.toggleSortOrder.1.filteredUsers ≠ staleStore.filteredUsers := by
  refine ⟨by decide, by decide, by decide, by decide, by decide⟩

/-- Claim C29. `clearFilters` is idempotent: a second call leaves the state, so
`currentFilters`, `searchQuery` and `filteredUsers`, as the first call left it;
after the call `currentFilters` and `searchQuery` are empty and `filteredUsers`
is the whole working set in the current sort order. -/
theorem clearFilters_idempotent (self : UserService) :
    self.clearFilters.clearFilters = self.clearFilters ∧
    self.clearFilters.clearFilters.filteredUsers = self.clearFilters.filteredUsers ∧
    self.clearFilters.currentFilters = [] ∧
    self.clearFilters.searchQuery = "" ∧
    self.clearFilters.filteredUsers = (self.sortUsers self.users none none).2 ∧
    self.clearFilters.filteredUsers.Perm self.users ∧
    self.clearFilters.users = self.users ∧
    self.clearFilters.currentSort = self.currentSort := by
  have hview : self.clearFilters.filteredUsers = (self.sortUsers self.users none none).2 := by
    unfold UserService.clearFilters
    rw [applyFiltersAndSearch_fst]
    simp only [applyFiltersAndSearch_snd, matchesSearch_empty, matchesFilters_nil, Bool.and_self,
      sortUsers_snd, orElse]
    rw [List.filter_eq_self.2 (fun _ _ => rfl)]
  have hidem : self.clearFilters.clearFilters = self.clearFilters := by
    simp only [UserService.clearFilters, applyFiltersAndSearch_fst, applyFiltersAndSearch_snd]
  refine ⟨hidem, by rw [hidem], rfl, rfl, hview, ?_, rfl, rfl⟩
  rw [hview, sortUsers_snd]
  exact arraySort_perm _ _

/-! ## Pager: page range -/

theorem mem_intRange (a b n : Int) : n ∈ intRange a b ↔ a ≤ n ∧ n ≤ b := by
  unfold intRange
  simp only [List.mem_map, List.mem_range]
  constructor
  · rintro ⟨i, hi, rfl⟩
    omega
  · rintro ⟨h1, h2⟩
    exact ⟨(n - a).toNat, by omega, by omega⟩

theorem intRange_pairwise (a b : Int) : (intRange a b).Pairwise (fun x y => x < y) := by
  unfold intRange
  rw [List.pairwise_map]
  exact (List.pairwise_lt_range _).imp (fun h => by omega)

theorem intRange_length (a b : Int) : (intRange a b).length = (b - a + 1).toNat := by
  simp [intRange]

theorem getPageRange_eq {α : Type} (self : PaginationService α) (totalPages : Int) :
    self.getPageRange totalPages =
      (if windowStart self.currentPage self.maxVisiblePages totalPages > 1 then
          (if windowStart self.currentPage self.maxVisiblePages totalPages > 2 then
            [PageItem.page 1, PageItem.ellipsis] else [PageItem.page 1])
        else []) ++
      (intRange (windowStart self.currentPage self.maxVisiblePages totalPages)
        (windowEnd self.currentPage self.maxVisiblePages totalPages)).map PageItem.page ++
      (if windowEnd self.currentPage self.maxVisiblePages totalPages < totalPages then
          (if windowEnd self.currentPage self.maxVisiblePages totalPages < totalPages - 1 then
            [PageItem.ellipsis, PageItem.page totalPages] else [PageItem.page totalPages])
        else []) := by
  unfold PaginationService.getPageRange windowStart windowEnd floorDiv
  simp only
  split_ifs <;> simp

/-- Claim C30. For `totalPages ≥ 1`, `maxVisible ≥ 1` and `currentPage` in
`[1, totalPages]`, the list returned by `getPageRange` is a leading part, the
block of the page numbers `start, ..., end` in increasing order, and a trailing
part, with `end = min(totalPages, max(1, currentPage - floor(maxVisible / 2)) +
maxVisible - 1)` and `start = max(1, end - maxVisible + 1)`, where
`1 ≤ start ≤ end ≤ totalPages` and `currentPage` lies in the block. The leading part is the page 1, followed by an
ellipsis when `start > 2`, if `start > 1`, and empty otherwise; the trailing part is
`totalPages`, preceded by an ellipsis when `end < totalPages - 1`, if
`end < totalPages`, and empty otherwise. -/
theorem getPageRange_block {α : Type} (self : PaginationService α) (totalPages : Int)
    (htp : 1 ≤ totalPages) (hmv : 1 ≤ self.maxVisiblePages)
    (hcp : 1 ≤ self.currentPage ∧ self.currentPage ≤ totalPages) :
    self.getPageRange totalPages =
      (if windowStart self.currentPage self.maxVisiblePages totalPages > 1 then
          (if windowStart self.currentPage self.maxVisiblePages totalPages > 2 then
            [PageItem.page 1, PageItem.ellipsis] else [PageItem.page 1])
        else []) ++
      (intRange (windowStart self.currentPage self.maxVisiblePages totalPages)
        (windowEnd self.currentPage self.maxVisiblePages totalPages)).map PageItem.page ++
      (if windowEnd self.currentPage self.maxVisiblePages totalPages < totalPages then
          (if windowEnd self.currentPage self.maxVisiblePages totalPages < totalPages - 1 then
            [PageItem.ellipsis, PageItem.page totalPages] else [PageItem.page totalPages])
        else []) ∧
    (∀ n : Int, n ∈ intRange (windowStart self.currentPage self.maxVisiblePages totalPages)
        (windowEnd self.currentPage self.maxVisiblePages totalPages) ↔
      windowStart self.currentPage self.maxVisiblePages totalPages ≤ n ∧
        n ≤ windowEnd self.currentPage self.maxVisiblePages totalPages) ∧
    (intRange (windowStart self.currentPage self.maxVisiblePages totalPages)
      (windowEnd self.currentPage self.maxVisiblePages totalPages)).Pairwise
        (fun x y => x < y) ∧
    1 ≤ windowStart self.currentPage self.maxVisiblePages totalPages ∧
    windowStart self.currentPage self.maxVisiblePages totalPages ≤
      windowEnd self.currentPage self.maxVisiblePages totalPages ∧
    windowEnd self.currentPage self.maxVisiblePages totalPages ≤ totalPages ∧
    (windowStart self.currentPage self.maxVisiblePages totalPages ≤ self.currentPage ∧
      self.currentPage ≤ windowEnd self.currentPage self.maxVisiblePages totalPages) ∧
    windowEnd self.currentPage self.maxVisiblePages totalPages =
      min totalPages (max 1 (self.currentPage - ⌊(self.maxVisiblePages : ℚ) / 2⌋) +
        self.maxVisiblePages - 1) ∧
    windowStart self.currentPage self.maxVisiblePages totalPages =
      max 1 (windowEnd self.currentPage self.maxVisiblePages totalPages -
        self.maxVisiblePages + 1) := by
  have hfloor : self.maxVisiblePages / 2 = ⌊(self.maxVisiblePages : ℚ) / 2⌋ := by
    have := floorDiv_eq_floor self.maxVisiblePages 2 (by decide)
    simpa [floorDiv] using this
  refine ⟨getPageRange_eq self totalPages, mem_intRange _ _, intRange_pairwise _ _, ?_, ?_, ?_,
    ?_, ?_, rfl⟩
  · unfold windowStart
    exact le_max_left _ _
  · unfold windowStart windowEnd
    omega
  · unfold windowEnd
    exact min_le_left _ _
  · unfold windowStart windowEnd
    omega
  · unfold windowEnd
    rw [hfloor]

/-- The default pager (five visible pages) on page 5 of 10: the block is 3 to 7,
with the page 1 and an ellipsis before it and an ellipsis and the page 10 after. -/
theorem getPageRange_block_witness :
    (1 : Int) ≤ 10 ∧
    (1 : Int) ≤ ({ (PaginationService.new : PaginationService Nat) with
      currentPage := 5 }).maxVisiblePages ∧
    ({ (PaginationService.new : PaginationService Nat) with currentPage := 5 }).getPageRange 10 =
      [.page 1, .ellipsis, .page 3, .page 4, .page 5, .page 6, .page 7, .ellipsis, .page 10] ∧
    windowStart 5 5 10 = 3 ∧ windowEnd 5 5 10 = 7 ∧
    windowStart ({ (PaginationService.new : PaginationService Nat) with
        currentPage := 5 }).currentPage
      ({ (PaginationService.new : PaginationService Nat) with
        currentPage := 5 }).maxVisiblePages 10 ≤
      windowEnd ({ (PaginationService.new : PaginationService Nat) with
        currentPage := 5 }).currentPage
      ({ (PaginationService.new : PaginationService Nat) with
        currentPage := 5 }).maxVisiblePages 10 :=
  ⟨by decide, by decide, by decide, by decide, by decide,
    (getPageRange_block ({ (PaginationService.new : PaginationService Nat) with
      currentPage := 5 }) 10 (by decide) (by decide) (by decide)).2.2.2.2.1⟩

/-! ## Pager: navigation -/

theorem getTotalPages_pos {α : Type} (self : PaginationService α) (hs : 0 < self.pageSize)
    (ht : 0 < self.totalItems) : 1 ≤ self.getTotalPages := by
  have h := (ceilDiv_spec self.totalItems self.pageSize hs).2
  unfold PaginationService.getTotalPages
  by_contra hneg
  have : ceilDiv self.totalItems self.pageSize ≤ 0 := by omega
  nlinarith

theorem nextPage_currentPage {α : Type} (self : PaginationService α)
    (h0 : 0 ≤ self.currentPage) (h1 : self.currentPage < self.getTotalPages) :
    self.nextPage.currentPage = self.currentPage + 1 := by
  unfold PaginationService.nextPage
  exact goToPage_of_mem self _ (by omega) (by omega)

/-- Claim C31, amended. For a pager holding a non-empty data sequence, with a page
size of at least 1, `getCurrentState().hasNextPage` is true exactly when
`currentPage < totalPages`; `nextPage` from a page `p` with `0 ≤ p < totalPages`
(so from every 1-based page before the last) moves to page `p + 1`, whose items
are the `pageSize` items of the sequence from index `p * pageSize` on, the slice
that follows the one of page `p`; `nextPage` on the last page leaves
`currentPage` unchanged. -/
theorem nextPage_spec {α : Type} (self : PaginationService α) (hs : 1 ≤ self.pageSize)
    (hd : self.data ≠ []) (hn : self.totalItems = (self.data.length : Int)) :
    (self.getCurrentState.hasNextPage = true ↔ self.currentPage < self.getTotalPages) ∧
    self.getCurrentState.totalPages = self.getTotalPages ∧
    1 ≤ self.getTotalPages ∧
    (0 ≤ self.currentPage → self.currentPage < self.getTotalPages →
      self.nextPage.currentPage = self.currentPage + 1 ∧
      self.nextPage.getCurrentPageData =
        (self.data.drop (self.currentPage * self.pageSize).toNat).take self.pageSize.toNat ∧
      self.nextPage.getCurrentPageData ≠ [] ∧
      (1 ≤ self.currentPage →
        self.getCurrentPageData =
          (self.data.drop ((self.currentPage - 1) * self.pageSize).toNat).take
            self.pageSize.toNat ∧
        self.getCurrentPageData ++ self.nextPage.getCurrentPageData =
          (self.data.drop ((self.currentPage - 1) * self.pageSize).toNat).take
            (2 * self.pageSize.toNat))) ∧
    (self.currentPage = self.getTotalPages →
      self.nextPage.currentPage = self.currentPage ∧
      self.getCurrentState.hasNextPage = false) := by
  have hlen : 0 < self.data.length := List.length_pos.2 hd
  have htp : 1 ≤ self.getTotalPages := getTotalPages_pos self (by omega) (by omega)
  refine ⟨by simp [PaginationService.getCurrentState], rfl, htp, ?_, ?_⟩
  · intro h0 h1
    have hcp := nextPage_currentPage self h0 h1
    obtain ⟨hdata, _, hps, _⟩ := goToPage_fields self (self.currentPage + 1)
    have hnext : self.nextPage.getCurrentPageData =
        (self.data.drop (self.currentPage * self.pageSize).toNat).take self.pageSize.toNat := by
      have h := getCurrentPageData_eq_drop_take self.nextPage
        (by unfold PaginationService.nextPage; rw [hps]; exact hs) (by rw [hcp]; omega)
      rw [h, hcp]
      unfold PaginationService.nextPage
      rw [hdata, hps]
      simp
    have hspec := (ceilDiv_spec self.totalItems self.pageSize (by omega)).1
    have hlt : self.currentPage * self.pageSize < (self.data.length : Int) := by
      have hmul : self.currentPage * self.pageSize ≤ (self.getTotalPages - 1) * self.pageSize :=
        mul_le_mul_of_nonneg_right (by omega) (by omega)
      unfold PaginationService.getTotalPages at hmul
      omega
    have hnn : 0 ≤ self.currentPage * self.pageSize := mul_nonneg h0 (by omega)
    refine ⟨hcp, hnext, ?_, ?_⟩
    · rw [hnext]
      intro hnil
      have hl := congrArg List.length hnil
      rw [List.length_take, List.length_drop] at hl
      simp only [List.length_nil] at hl
      omega
    · intro hp1
      have hcur := getCurrentPageData_eq_drop_take self hs hp1
      refine ⟨hcur, ?_⟩
      rw [hcur, hnext]
      have e1 : (self.currentPage * self.pageSize).toNat =
          ((self.currentPage - 1) * self.pageSize).toNat + self.pageSize.toNat := by
        have hnn1 : 0 ≤ (self.currentPage - 1) * self.pageSize :=
          mul_nonneg (by omega) (by omega)
        have : self.currentPage * self.pageSize =
            (self.currentPage - 1) * self.pageSize + self.pageSize := by ring
        omega
      rw [e1, ← List.drop_drop, two_mul, List.take_add]
  · intro hlast
    constructor
    · unfold PaginationService.nextPage
      rw [goToPage_currentPage, if_neg (by omega), if_pos (by omega)]
      exact hlast.symm
    · simp [PaginationService.getCurrentState, hlast]

/-- Twelve items at page size 10: page 1 shows the items 1 to 10 and has a next
page; after `nextPage` page 2 shows the items 11 and 12 and has no next page. -/
theorem nextPage_spec_witness :
    (1 : Int) ≤ twelveItems.pageSize ∧ twelveItems.data ≠ [] ∧
    twelveItems.totalItems = (twelveItems.data.length : Int) ∧
    twelveItems.getCurrentState.currentPage = 1 ∧
    twelveItems.getCurrentPageData = [1, 2, 3, 4, 5, 6, 7, 8, 9, 10] ∧
    twelveItems.getCurrentState.hasNextPage = true ∧
    twelveItems.nextPage.getCurrentState.currentPage = 2 ∧
    twelveItems.nextPage.getCurrentPageData = [11, 12] ∧
    twelveItems.nextPage.getCurrentState.hasNextPage = false ∧
    twelveItems.nextPage.nextPage.currentPage = 2 ∧
    twelveItems.nextPage.currentPage = twelveItems.currentPage + 1 :=
  ⟨by decide, by decide, by decide, by decide, by decide, by decide, by decide, by decide,
    by decide, by decide,
    ((nextPage_spec twelveItems (by decide) (by decide) (by decide)).2.2.2.1 (by decide)
      (by decide)).1⟩

/-- Claim C31 as stated fails. The pager `stalePager` holds 25 items at page size
10 (3 pages) and its current page is -2, below the last page; `nextPage` moves it
to page 1, not to page -1. -/
theorem nextPage_negative_page :
    stalePager.data ≠ [] ∧ stalePager.pageSize = 10 ∧ stalePager.getTotalPages = 3 ∧
    stalePager.currentPage = -2 ∧ stalePager.getCurrentState.hasNextPage = true ∧
    stalePager.nextPage.currentPage = 1 ∧
    ¬ (∀ self : PaginationService Nat, 1 ≤ self.pageSize → self.data ≠ [] →
        self.totalItems = (self.data.length : Int) →
        self.currentPage < self.getTotalPages →
        self.nextPage.currentPage = self.currentPage + 1) := by
  refine ⟨by decide, by decide, by decide, by decide, by decide, by decide, ?_⟩
  intro hall
  have := hall stalePager (by decide) (by decide) (by decide) (by decide)
  exact absurd this (by decide)

/-! ## Pager: bounds of the current page -/

theorem updateData_currentPage_pos {α : Type} (self : PaginationService α) (newData : List α)
    (h : 1 ≤ self.currentPage) : 1 ≤ (self.updateData newData).currentPage := by
  unfold PaginationService.updateData
  simp only
  split_ifs
  · exact le_refl 1
  · exact h

theorem goToPage_currentPage_pos {α : Type} (self : PaginationService α) (page : Int)
    (h : 1 ≤ self.getTotalPages) : 1 ≤ (self.goToPage page).currentPage := by
  rw [goToPage_currentPage]
  split_ifs <;> omega

theorem changePageSize_currentPage_pos {α : Type} (self : PaginationService α)
    (newPageSize : Int) (hp : 1 ≤ self.currentPage) (hs : 0 ≤ self.pageSize)
    (hn : 0 < newPageSize) : 1 ≤ (self.changePageSize newPageSize).currentPage := by
  unfold PaginationService.changePageSize floorDiv
  simp only
  have h0 : 0 ≤ (self.currentPage - 1) * self.pageSize := mul_nonneg (by omega) hs
  have := Int.ediv_nonneg h0 (le_of_lt hn)
  omega

theorem changePageSize_getTotalPages {α : Type} (self : PaginationService α)
    (newPageSize : Int) :
    (self.changePageSize newPageSize).getTotalPages = ceilDiv self.totalItems newPageSize := rfl

theorem changePageSize_currentPage_le {α : Type} (self : PaginationService α)
    (newPageSize : Int) (hs : 0 < self.pageSize)
    (hc : self.currentPage ≤ self.getTotalPages) (hn : 0 < newPageSize) :
    (self.changePageSize newPageSize).currentPage ≤
      (self.changePageSize newPageSize).getTotalPages := by
  rw [changePageSize_getTotalPages]
  have hold := (ceilDiv_spec self.totalItems self.pageSize hs).1
  have hnew := (ceilDiv_spec self.totalItems newPageSize hn).2
  have hidx : (self.currentPage - 1) * self.pageSize < self.totalItems := by
    have hmul : (self.currentPage - 1) * self.pageSize ≤
        (ceilDiv self.totalItems self.pageSize - 1) * self.pageSize :=
      mul_le_mul_of_nonneg_right
        (by unfold PaginationService.getTotalPages at hc; omega) (le_of_lt hs)
    omega
  have hfloor : floorDiv ((self.currentPage - 1) * self.pageSize) newPageSize * newPageSize ≤
      (self.currentPage - 1) * self.pageSize := Int.ediv_mul_le _ (ne_of_gt hn)
  have hcp : (self.changePageSize newPageSize).currentPage =
      floorDiv ((self.currentPage - 1) * self.pageSize) newPageSize + 1 := rfl
  rw [hcp]
  by_contra hgt
  have h1 : ceilDiv self.totalItems newPageSize ≤
      floorDiv ((self.currentPage - 1) * self.pageSize) newPageSize := by omega
  have h2 : ceilDiv self.totalItems newPageSize * newPageSize ≤
      floorDiv ((self.currentPage - 1) * self.pageSize) newPageSize * newPageSize :=
    mul_le_mul_of_nonneg_right h1 (le_of_lt hn)
  omega

theorem goToPage_currentPage_le {α : Type} (self : PaginationService α) (page : Int)
    (h : 1 ≤ self.getTotalPages) :
    (self.goToPage page).currentPage ≤ (self.goToPage page).getTotalPages := by
  obtain ⟨_, ht, hp, _⟩ := goToPage_fields self page
  have htp : (self.goToPage page).getTotalPages = self.getTotalPages := by
    unfold PaginationService.getTotalPages
    rw [ht, hp]
  rw [htp, goToPage_currentPage]
  split_ifs <;> omega

/-- Claim C32, failing input. On a freshly constructed pager `nextPage()` (and
`goToPage(1)`) leaves `currentPage` at 0, and the calls `changePageSize(25)`,
`nextPage()`, `changePageSize(10)`, `updateData` of 25 items lead to `currentPage`
-2: both states are reachable and break `currentPage ≥ 1`. Starting from a page
that is at least 1, each operation keeps the page at least 1 as long as
`goToPage` is called with at least one page of data. -/
theorem reachable_currentPage_zero :
    PaginationService.Reachable (PaginationService.new : PaginationService Nat).nextPage ∧
    (PaginationService.new : PaginationService Nat).nextPage.currentPage = 0 ∧
    PaginationService.Reachable ((PaginationService.new : PaginationService Nat).goToPage 1) ∧
    ((PaginationService.new : PaginationService Nat).goToPage 1).currentPage = 0 ∧
    PaginationService.Reachable stalePager ∧ stalePager.currentPage = -2 ∧
    ¬ (∀ s : PaginationService Nat, PaginationService.Reachable s → 1 ≤ s.currentPage) ∧
    (∀ (s : PaginationService Nat), 1 ≤ s.currentPage → 0 ≤ s.pageSize →
      (∀ newData, 1 ≤ (s.updateData newData).currentPage) ∧
      (∀ page, 1 ≤ s.getTotalPages → 1 ≤ (s.goToPage page).currentPage) ∧
      (1 ≤ s.getTotalPages → 1 ≤ s.nextPage.currentPage ∧ 1 ≤ s.previousPage.currentPage) ∧
      (∀ newPageSize, 0 < newPageSize → 1 ≤ (s.changePageSize newPageSize).currentPage) ∧
      s.reset.currentPage = 1) := by
  have hnext : PaginationService.Reachable
      (PaginationService.new : PaginationService Nat).nextPage :=
    .nextPage _ .new
  have hstale : PaginationService.Reachable stalePager :=
    .updateData _ _ (.changePageSize _ 10 (by decide)
      (.nextPage _ (.changePageSize _ 25 (by decide) .new)))
  refine ⟨hnext, by decide, .goToPage _ 1 .new, by decide, hstale, by decide, ?_, ?_⟩
  · intro hall
    exact absurd (hall _ hnext) (by decide)
  · intro s hp hs
    exact ⟨fun newData => updateData_currentPage_pos s newData hp,
      fun page htp => goToPage_currentPage_pos s page htp,
      fun htp => ⟨goToPage_currentPage_pos s _ htp, goToPage_currentPage_pos s _ htp⟩,
      fun newPageSize hn => changePageSize_currentPage_pos s newPageSize hp hs hn, rfl⟩

/-- Claim C39. For a pager with a positive page size, `totalItems > 0` and
`currentPage ≤ totalPages`, the current page is at most the number of pages after
`updateData` with non-empty data, after `goToPage(n)` for every `n`, after
`nextPage`, after `previousPage` and after `changePageSize` with every positive
size. -/
theorem currentPage_le_totalPages {α : Type} (self : PaginationService α)
    (hs : 0 < self.pageSize) (ht : 0 < self.totalItems)
    (hc : self.currentPage ≤ self.getTotalPages) :
    (∀ newData : List α, newData ≠ [] →
      (self.updateData newData).currentPage ≤ (self.updateData newData).getTotalPages) ∧
    (∀ n : Int, (self.goToPage n).currentPage ≤ (self.goToPage n).getTotalPages) ∧
    self.nextPage.currentPage ≤ self.nextPage.getTotalPages ∧
    self.previousPage.currentPage ≤ self.previousPage.getTotalPages ∧
    (∀ newPageSize : Int, 0 < newPageSize →
      (self.changePageSize newPageSize).currentPage ≤
        (self.changePageSize newPageSize).getTotalPages) := by
  have htp : 1 ≤ self.getTotalPages := getTotalPages_pos self hs ht
  refine ⟨?_, fun n => goToPage_currentPage_le self n htp, goToPage_currentPage_le self _ htp,
    goToPage_currentPage_le self _ htp,
    fun newPageSize hn => changePageSize_currentPage_le self newPageSize hs hc hn⟩
  intro newData hne
  have hlen : 0 < newData.length := List.length_pos.2 hne
  obtain ⟨_, htot, hps, _⟩ := updateData_fields self newData
  have hpos : 1 ≤ (self.updateData newData).getTotalPages :=
    getTotalPages_pos _ (by rw [hps]; exact hs) (by rw [htot]; omega)
  have hcur : (self.updateData newData).currentPage =
      if self.currentPage > (self.updateData newData).getTotalPages ∧
          (self.updateData newData).getTotalPages > 0
        then 1 else self.currentPage := by
    rw [updateData_getTotalPages]
    unfold PaginationService.updateData PaginationService.getTotalPages
    simp only
    split_ifs <;> rfl
  rw [hcur]
  split_ifs with h
  · exact hpos
  · by_contra hgt
    exact h ⟨by omega, by omega⟩

/-- A pager on page 3 of 25 items at page size 10: a change to page size 25 moves
it to page 1 of 1. -/
theorem currentPage_le_totalPages_witness :
    (0 : Int) < ((PaginationService.new.updateData (List.range 25)).goToPage 3).pageSize ∧
    (0 : Int) < ((PaginationService.new.updateData (List.range 25)).goToPage 3).totalItems ∧
    ((PaginationService.new.updateData (List.range 25)).goToPage 3).currentPage ≤
      ((PaginationService.new.updateData (List.range 25)).goToPage 3).getTotalPages ∧
    (((PaginationService.new.updateData (List.range 25)).goToPage 3).changePageSize
      25).currentPage = 1 ∧
    (((PaginationService.new.updateData (List.range 25)).goToPage 3).changePageSize
      25).getTotalPages = 1 ∧
    (((PaginationService.new.updateData (List.range 25)).goToPage 3).changePageSize
      25).currentPage ≤
      (((PaginationService.new.updateData (List.range 25)).goToPage 3).changePageSize
        25).getTotalPages :=
  ⟨by decide, by decide, by decide, by decide, by decide,
    (currentPage_le_totalPages ((PaginationService.new.updateData (List.range 25)).goToPage 3)
      (by decide) (by decide) (by decide)).2.2.2.2 25 (by decide)⟩

/-! ## Pager: shape of the page range -/

theorem intRange_of_lt (a b : Int) (h : b < a) : intRange a b = [] := by
  unfold intRange
  have : (b - a + 1).toNat = 0 := by omega
  rw [this]
  rfl

theorem intRange_cons (a b : Int) (h : a ≤ b) : intRange a b = a :: intRange (a + 1) b := by
  unfold intRange
  have e1 : (b - a + 1).toNat = (b - (a + 1) + 1).toNat + 1 := by omega
  rw [e1, List.range_succ_eq_map]
  simp only [List.map_cons, List.map_map]
  congr 1
  · simp
  · apply List.map_congr_left
    intro i _
    simp only [Function.comp, Nat.succ_eq_add_one]
    push_cast
    ring

theorem intRange_snoc (a b : Int) (h : a ≤ b) : intRange a b = intRange a (b - 1) ++ [b] := by
  unfold intRange
  have e1 : (b - a + 1).toNat = (b - 1 - a + 1).toNat + 1 := by omega
  rw [e1, List.range_succ, List.map_append]
  congr 1
  simp only [List.map_cons, List.map_nil, List.cons.injEq, and_true]
  omega

theorem pageNumbers_append (l1 l2 : List PageItem) :
    pageNumbers (l1 ++ l2) = pageNumbers l1 ++ pageNumbers l2 := by
  induction l1 with
  | nil => rfl
  | cons x rest ih =>
    cases x with
    | page n => simp [pageNumbers, ih]
    | ellipsis => simp [pageNumbers, ih]

theorem pageNumbers_map_page (l : List Int) : pageNumbers (l.map PageItem.page) = l := by
  induction l with
  | nil => rfl
  | cons x rest ih => simp [pageNumbers, ih]

theorem withGaps_cons_cons (a b : Int) (rest : List Int) :
    withGaps (a :: b :: rest) =
      PageItem.page a :: ((if b - a > 1 then [PageItem.ellipsis] else []) ++
        withGaps (b :: rest)) := by
  rw [withGaps]
  split_ifs <;> rfl

theorem withGaps_append_cons (l : List Int) (x y : Int) (r : List Int) :
    withGaps (l ++ x :: y :: r) =
      withGaps (l ++ [x]) ++ ((if y - x > 1 then [PageItem.ellipsis] else []) ++
        withGaps (y :: r)) := by
  induction l with
  | nil =>
    rw [List.nil_append, List.nil_append, withGaps_cons_cons]
    rfl
  | cons a l ih =>
    cases l with
    | nil =>
      simp only [List.cons_append, List.nil_append] at ih ⊢
      rw [withGaps_cons_cons a x (y :: r), withGaps_cons_cons a x [], ih]
      simp
    | cons b l =>
      simp only [List.cons_append] at ih ⊢
      rw [withGaps_cons_cons a b (l ++ x :: y :: r), withGaps_cons_cons a b (l ++ [x]), ih]
      simp

theorem withGaps_intRange_aux (n : Nat) (a b : Int) (h : (b - a + 1).toNat = n) :
    withGaps (intRange a b) = (intRange a b).map PageItem.page := by
  induction n generalizing a with
  | zero => rw [intRange_of_lt a b (by omega)]; rfl
  | succ n ih =>
    rw [intRange_cons a b (by omega)]
    by_cases hab : a + 1 ≤ b
    · have ih1 := ih (a + 1) (by omega)
      rw [intRange_cons (a + 1) b hab] at ih1 ⊢
      rw [withGaps_cons_cons, ih1, if_neg (by omega)]
      rfl
    · rw [intRange_of_lt (a + 1) b (by omega)]
      rfl

theorem withGaps_intRange (a b : Int) :
    withGaps (intRange a b) = (intRange a b).map PageItem.page :=
  withGaps_intRange_aux _ a b rfl

theorem getPageRange_pageNumbers {α : Type} (self : PaginationService α) (totalPages : Int) :
    pageNumbers (self.getPageRange totalPages) =
      (if windowStart self.currentPage self.maxVisiblePages totalPages > 1 then [1] else []) ++
      intRange (windowStart self.currentPage self.maxVisiblePages totalPages)
        (windowEnd self.currentPage self.maxVisiblePages totalPages) ++
      (if windowEnd self.currentPage self.maxVisiblePages totalPages < totalPages then
        [totalPages] else []) := by
  rw [getPageRange_eq, pageNumbers_append, pageNumbers_append, pageNumbers_map_page]
  split_ifs <;> rfl

theorem window_bounds (currentPage maxVisible totalPages : Int) (_htp : 1 ≤ totalPages)
    (hmv : 1 ≤ maxVisible) (hcp : 1 ≤ currentPage ∧ currentPage ≤ totalPages) :
    1 ≤ windowStart currentPage maxVisible totalPages ∧
    windowStart currentPage maxVisible totalPages ≤ currentPage ∧
    currentPage ≤ windowEnd currentPage maxVisible totalPages ∧
    windowEnd currentPage maxVisible totalPages ≤ totalPages := by
  unfold windowStart windowEnd
  omega

/-- Claim C40. For `totalPages ≥ 1`, `maxVisible ≥ 1` and `currentPage` in
`[1, totalPages]`, the page numbers of the list returned by `getPageRange` are
strictly increasing, the first is 1, the last is `totalPages`, and `currentPage` is
among them; the list is these page numbers with an ellipsis between two
neighbouring ones exactly when they differ by more than 1; its first entry is
the page 1 and its last entry the page `totalPages`, so no ellipsis stands at the
start or at the end. -/
theorem getPageRange_shape {α : Type} (self : PaginationService α) (totalPages : Int)
    (htp : 1 ≤ totalPages) (hmv : 1 ≤ self.maxVisiblePages)
    (hcp : 1 ≤ self.currentPage ∧ self.currentPage ≤ totalPages) :
    (pageNumbers (self.getPageRange totalPages)).Pairwise (fun x y => x < y) ∧
    (pageNumbers (self.getPageRange totalPages)).head? = some 1 ∧
    (pageNumbers (self.getPageRange totalPages)).getLast? = some totalPages ∧
    self.currentPage ∈ pageNumbers (self.getPageRange totalPages) ∧
    self.getPageRange totalPages = withGaps (pageNumbers (self.getPageRange totalPages)) ∧
    (self.getPageRange totalPages).head? = some (PageItem.page 1) ∧
    (self.getPageRange totalPages).getLast? = some (PageItem.page totalPages) := by
  obtain ⟨hs1, hsc, hce, het⟩ := window_bounds self.currentPage self.maxVisiblePages totalPages
    htp hmv hcp
  have hnum := getPageRange_pageNumbers self totalPages
  have heq := getPageRange_eq self totalPages
  generalize windowStart self.currentPage self.maxVisiblePages totalPages = s at *
  generalize windowEnd self.currentPage self.maxVisiblePages totalPages = e at *
  have hse : s ≤ e := by omega
  have hcons := intRange_cons s e hse
  have hsnoc := intRange_snoc s e hse
  have hmem := mem_intRange s e
  have hpw := intRange_pairwise s e
  have hgaps := withGaps_intRange s e
  generalize hB : intRange s e = B at *
  have hB1 : ∀ n ∈ B, s ≤ n ∧ n ≤ e := fun n hn => (hmem n).1 hn
  refine ⟨?_, ?_, ?_, ?_, ?_, ?_, ?_⟩
  · rw [hnum]
    rw [List.pairwise_append, List.pairwise_append]
    refine ⟨⟨?_, hpw, ?_⟩, ?_, ?_⟩
    · split_ifs <;> simp
    · intro a ha b hb
      split_ifs at ha with h1
      · simp only [List.mem_singleton] at ha
        have := (hB1 b hb).1
        omega
      · simp at ha
    · split_ifs <;> simp
    · intro a ha b hb
      split_ifs at hb with h2
      · simp only [List.mem_singleton] at hb
        rcases List.mem_append.1 ha with ha | ha
        · split_ifs at ha with h1
          · simp only [List.mem_singleton] at ha
            omega
          · simp at ha
        · have := (hB1 a ha).2
          omega
      · simp at hb
  · rw [hnum, hcons]
    split_ifs with h1 h2 h2
    · rfl
    · rfl
    · simp only [List.nil_append, List.cons_append, List.head?_cons, Option.some.injEq]
      omega
    · simp only [List.nil_append, List.cons_append, List.head?_cons, Option.some.injEq]
      omega
  · rw [hnum]
    by_cases h2 : e < totalPages
    · rw [if_pos h2, List.getLast?_concat]
    · rw [if_neg h2, List.append_nil, hsnoc, ← List.append_assoc, List.getLast?_concat]
      have : e = totalPages := by omega
      rw [this]
  · rw [hnum]
    have : self.currentPage ∈ B := (hmem _).2 ⟨hsc, hce⟩
    simp [this]
  · rw [hnum, heq]
    have hfirst : withGaps ((if s > 1 then [1] else []) ++ B) =
        (if s > 1 then if s > 2 then [PageItem.page 1, PageItem.ellipsis]
          else [PageItem.page 1] else []) ++ List.map PageItem.page B := by
      by_cases h1 : s > 1
      · rw [if_pos h1, if_pos h1, hcons, List.singleton_append, withGaps_cons_cons, ← hcons,
          hgaps]
        by_cases h3 : s > 2
        · have h3b : s - 1 > 1 := by omega
          rw [if_pos h3, if_pos h3b]
          rfl
        · have h3b : ¬ s - 1 > 1 := by omega
          rw [if_neg h3, if_neg h3b]
          rfl
      · rw [if_neg h1, if_neg h1, List.nil_append, List.nil_append, hgaps]
    by_cases h2 : e < totalPages
    · rw [if_pos h2, if_pos h2]
      have hlast : withGaps ((if s > 1 then [1] else []) ++ B ++ [totalPages]) =
          withGaps ((if s > 1 then [1] else []) ++ B) ++
            ((if e < totalPages - 1 then [PageItem.ellipsis] else []) ++
              [PageItem.page totalPages]) := by
        have hassoc : (if s > 1 then [1] else []) ++ (intRange s (e - 1) ++ [e]) ++
            [totalPages] =
            ((if s > 1 then [1] else []) ++ intRange s (e - 1)) ++ e :: totalPages :: [] := by
          simp
        have hassoc2 : (if s > 1 then [1] else []) ++ (intRange s (e - 1) ++ [e]) =
            ((if s > 1 then [1] else []) ++ intRange s (e - 1)) ++ [e] := by
          simp
        rw [hsnoc, hassoc, hassoc2, withGaps_append_cons]
        by_cases h3 : e < totalPages - 1
        · have h3b : totalPages - e > 1 := by omega
          rw [if_pos h3, if_pos h3b]
          rfl
        · have h3b : ¬ totalPages - e > 1 := by omega
          rw [if_neg h3, if_neg h3b]
          rfl
      rw [hlast, hfirst]
      split_ifs <;> simp
    · rw [if_neg h2, if_neg h2, List.append_nil, List.append_nil, hfirst]
  · rw [heq, hcons]
    by_cases h1 : s > 1
    · rw [if_pos h1]
      split_ifs <;> rfl
    · have : s = 1 := by omega
      rw [if_neg h1, this]
      rfl
  · rw [heq]
    by_cases h2 : e < totalPages
    · rw [if_pos h2]
      by_cases h3 : e < totalPages - 1
      · have : [PageItem.ellipsis, PageItem.page totalPages] =
            [PageItem.ellipsis] ++ [PageItem.page totalPages] := rfl
        rw [if_pos h3, this, ← List.append_assoc, List.getLast?_concat]
      · rw [if_neg h3, List.getLast?_concat]
    · have : e = totalPages := by omega
      rw [if_neg h2, List.append_nil, hsnoc, List.map_append, ← List.append_assoc]
      simp only [List.map_cons, List.map_nil]
      rw [List.getLast?_concat, this]

/-- The default pager on page 5 of 10: the page numbers are 1, 3, ..., 7, 10 and
an ellipsis stands between 1 and 3 and between 7 and 10. -/
theorem getPageRange_shape_witness :
    (1 : Int) ≤ 10 ∧
    pageNumbers (({ (PaginationService.new : PaginationService Nat) with
      currentPage := 5 }).getPageRange 10) = [1, 3, 4, 5, 6, 7, 10] ∧
    withGaps [1, 3, 4, 5, 6, 7, 10] =
      [.page 1, .ellipsis, .page 3, .page 4, .page 5, .page 6, .page 7, .ellipsis, .page 10] ∧
    ({ (PaginationService.new : PaginationService Nat) with
      currentPage := 5 }).getPageRange 10 =
      withGaps (pageNumbers (({ (PaginationService.new : PaginationService Nat) with
        currentPage := 5 }).getPageRange 10)) :=
  ⟨by decide, by decide, by decide,
    (getPageRange_shape ({ (PaginationService.new : PaginationService Nat) with
      currentPage := 5 }) 10 (by decide) (by decide) (by decide)).2.2.2.2.1⟩

/-! ## Validator: names and phone numbers -/

theorem jsLength_le_of_bmp (s : String) (h : ∀ c ∈ s.data, c.toNat < 0x10000) :
    jsLength s = s.data.length := by
  unfold jsLength
  generalize s.data = l at h
  induction l with
  | nil => rfl
  | cons c t ih =>
    have hc := h c (List.mem_cons_self c t)
    have ht := ih (fun x hx => h x (List.mem_cons_of_mem c hx))
    simp only [List.map_cons, List.sum_cons, List.length_cons, ht, if_pos hc]
    omega

theorem minLength_message :
    formatMessage "MESSAGES.VALIDATION.MIN_LENGTH" [("min", MIN_NAME_LENGTH)] =
      "Must be at least 2 characters long." := by decide

theorem maxLength_name_message :
    formatMessage "MESSAGES.VALIDATION.MAX_LENGTH" [("max", MAX_NAME_LENGTH)] =
      "Must be no more than 50 characters long." := by decide

theorem maxLength_email_message :
    formatMessage "MESSAGES.VALIDATION.MAX_LENGTH" [("max", MAX_EMAIL_LENGTH)] =
      "Must be no more than 100 characters long." := by decide

theorem maxLength_phone_message :
    formatMessage "MESSAGES.VALIDATION.MAX_LENGTH" [("max", MAX_PHONE_LENGTH)] =
      "Must be no more than 20 characters long." := by decide

theorem validateName_of_nonblank (value : String) (h : trim value ≠ "") :
    validateName value =
      (if jsLength (trim value) < 2 then ["Must be at least 2 characters long."] else []) ++
      (if jsLength (trim value) > 50 then ["Must be no more than 50 characters long."]
        else []) := by
  unfold validateName
  rw [minLength_message, maxLength_name_message]
  simp only [h, if_false, MIN_NAME_LENGTH, MAX_NAME_LENGTH]
  split_ifs <;> simp

/-- Claim C33. For a non-blank value, `validateName` (what `validateField` runs for
`firstName` and `lastName`) returns no violation exactly when the length of the
trimmed value is within `[2, 50]`; a trimmed length below 2 yields exactly
`Must be at least 2 characters long.` and a trimmed length above 50 yields
exactly `Must be no more than 50 characters long.`. The length is the `length`
property of the string, which equals the number of characters when all of them lie
in the Basic Multilingual Plane. -/
theorem validateName_spec (value : String) (existingUsers : List User)
    (h : trim value ≠ "") :
    (validateName value = [] ↔ 2 ≤ jsLength (trim value) ∧ jsLength (trim value) ≤ 50) ∧
    (jsLength (trim value) < 2 →
      validateName value = ["Must be at least 2 characters long."]) ∧
    (jsLength (trim value) > 50 →
      validateName value = ["Must be no more than 50 characters long."]) ∧
    validateField "firstName" value existingUsers = validateName value ∧
    validateField "lastName" value existingUsers = validateName value ∧
    ((∀ c ∈ (trim value).data, c.toNat < 0x10000) →
      jsLength (trim value) = (trim value).data.length) := by
  have heq := validateName_of_nonblank value h
  refine ⟨?_, ?_, ?_, by simp [validateField], by simp [validateField],
    jsLength_le_of_bmp (trim value)⟩
  · rw [heq]
    constructor
    · intro hnil
      by_contra hcon
      by_cases h1 : jsLength (trim value) < 2
      · rw [if_pos h1] at hnil
        simp at hnil
      · have h2 : jsLength (trim value) > 50 := by omega
        rw [if_pos h2] at hnil
        simp at hnil
    · rintro ⟨h1, h2⟩
      have h1b : ¬ jsLength (trim value) < 2 := by omega
      have h2b : ¬ jsLength (trim value) > 50 := by omega
      rw [if_neg h1b, if_neg h2b]
      rfl
  · intro h1
    have h2 : ¬ jsLength (trim value) > 50 := by omega
    rw [heq, if_pos h1, if_neg h2]
    rfl
  · intro h2
    have h1 : ¬ jsLength (trim value) < 2 := by omega
    rw [heq, if_neg h1, if_pos h2]
    rfl

/-- The one-letter first name `A`, padded with blanks, is too short. -/
theorem validateName_spec_witness :
    trim " A " ≠ "" ∧ jsLength (trim " A ") < 2 ∧
    validateField "firstName" " A " [] = ["Must be at least 2 characters long."] ∧
    validateName " A " = ["Must be at least 2 characters long."] ∧
    validateName "Al" = [] :=
  ⟨by decide, by decide, by decide,
    (validateName_spec " A " [] (by decide)).2.1 (by decide), by decide⟩

theorem RegExp.matches_opt (r : RegExp) (s : List Char) :
    RegExp.Matches (RegExp.opt r) s ↔ RegExp.Matches r s ∨ s = [] := by
  unfold RegExp.opt
  constructor
  · intro h
    cases h with
    | altLeft _ _ _ hx => exact Or.inl hx
    | altRight _ _ _ hx =>
      cases hx
      exact Or.inr rfl
  · rintro (h | h)
    · exact .altLeft _ _ _ h
    · rw [h]
      exact .altRight _ _ _ .eps

theorem RegExp.matches_upTo_cls (p : Char → Bool) (n : Nat) (s : List Char) :
    RegExp.Matches (RegExp.upTo n (.cls p)) s ↔ (∀ x ∈ s, p x = true) ∧ s.length ≤ n := by
  induction n generalizing s with
  | zero =>
    simp only [RegExp.upTo]
    constructor
    · intro h
      cases h
      simp
    · rintro ⟨_, hl⟩
      have : s = [] := List.length_eq_zero.1 (by omega)
      rw [this]
      exact .eps
  | succ n ih =>
    simp only [RegExp.upTo]
    rw [RegExp.matches_opt, RegExp.matches_seq]
    constructor
    · rintro (⟨x, y, hs, hx, hy⟩ | hs)
      · obtain ⟨c, hxc, hc⟩ := (RegExp.matches_cls p x).1 hx
        obtain ⟨hy1, hy2⟩ := (ih y).1 hy
        rw [hs, hxc]
        refine ⟨?_, by simp; omega⟩
        intro z hz
        rcases List.mem_append.1 hz with h1 | h2
        · rw [List.mem_singleton.1 h1]
          exact hc
        · exact hy1 z h2
      · rw [hs]
        simp
    · rintro ⟨hall, hl⟩
      cases s with
      | nil => exact Or.inr rfl
      | cons c t =>
        refine Or.inl ⟨[c], t, rfl, .cls p c (hall c (List.mem_cons_self c t)), (ih t).2 ⟨?_, ?_⟩⟩
        · exact fun x hx => hall x (List.mem_cons_of_mem c hx)
        · simp at hl
          omega

theorem phonePattern_iff (s : List Char) : RegExp.Matches PHONE_PATTERN s ↔ phoneShape s := by
  unfold PHONE_PATTERN phoneShape
  simp only [RegExp.matches_seq, RegExp.matches_opt, RegExp.matches_chr, RegExp.matches_cls,
    RegExp.matches_upTo_cls, isDigitChar, decide_eq_true_eq]
  constructor
  · rintro ⟨sign, r1, hs, hsign, d1, rest, h1, ⟨d, hd1, hd⟩, hrest, hlen⟩
    refine ⟨sign, d, rest, hsign.symm, hd, hrest, hlen, ?_⟩
    rw [hs, h1, hd1]
    rfl
  · rintro ⟨sign, d, rest, hsign, hd, hrest, hlen, hs⟩
    exact ⟨sign, d :: rest, hs, hsign.symm, [d], rest, rfl, ⟨d, rfl, hd⟩, hrest, hlen⟩

theorem phonePattern_test_iff (s : String) :
    PHONE_PATTERN.test s = true ↔ phoneShape s.data := by
  rw [RegExp.test_iff, phonePattern_iff]

theorem jsLength_of_phoneShape (s : String) (h : phoneShape s.data) : jsLength s ≤ 17 := by
  obtain ⟨sign, d, rest, hsign, hd, hrest, hlen, hs⟩ := h
  have hbmp : ∀ c ∈ s.data, c.toNat < 0x10000 := by
    intro c hc
    rw [hs] at hc
    have h9 : ∀ x : Char, x ≤ '9' → x.toNat < 0x10000 := by
      intro x hx
      have : x.toNat ≤ '9'.toNat := hx
      have h57 : '9'.toNat = 57 := rfl
      omega
    rcases List.mem_append.1 hc with h1 | h1
    · rcases hsign with h0 | h0
      · rw [h0] at h1
        cases h1
      · rw [h0, List.mem_singleton] at h1
        rw [h1]
        decide
    · rcases List.mem_cons.1 h1 with h2 | h2
      · rw [h2]
        exact h9 d hd.2
      · exact h9 c (hrest c h2).2
  rw [jsLength_le_of_bmp s hbmp, hs]
  rcases hsign with h0 | h0 <;> rw [h0] <;> simp <;> omega

theorem validatePhone_of_nonblank (value : String) (h : trim value ≠ "") :
    validatePhone value =
      (if PHONE_PATTERN.test (trim value) then [] else ["Please enter a valid phone number."]) ++
      (if jsLength (trim value) > 20 then ["Must be no more than 20 characters long."]
        else []) := by
  unfold validatePhone
  rw [maxLength_phone_message]
  simp only [MAX_PHONE_LENGTH, INVALID_PHONE]
  cases PHONE_PATTERN.test (trim value)
  · simp only [h, ne_eq, not_false_eq_true, Bool.not_false, and_self, if_true, Bool.false_eq_true,
      if_false]
    split_ifs <;> rfl
  · simp

/-- Claim C34. For a non-blank phone value, `validateField('phone', value)`
returns no violation exactly when the trimmed value is an optional `+`, one digit
from 1 to 9 and at most 15 further digits, and is at most 20 long (which that
shape implies). Every other non-blank value yields
`Please enter a valid phone number.` as first violation, followed by
`Must be no more than 20 characters long.` when the trimmed value is longer than
20. -/
theorem validatePhone_spec (value : String) (existingUsers : List User)
    (h : trim value ≠ "") :
    (validateField "phone" value existingUsers = [] ↔
      phoneShape (trim value).data ∧ jsLength (trim value) ≤ 20) ∧
    (phoneShape (trim value).data → jsLength (trim value) ≤ 20) ∧
    (¬ (phoneShape (trim value).data ∧ jsLength (trim value) ≤ 20) →
      "Please enter a valid phone number." ∈ validateField "phone" value existingUsers ∧
      validateField "phone" value existingUsers =
        "Please enter a valid phone number." ::
          (if jsLength (trim value) > 20 then ["Must be no more than 20 characters long."]
            else [])) := by
  have hfield : validateField "phone" value existingUsers = validatePhone value := by
    simp [validateField, h]
  have heq := validatePhone_of_nonblank value h
  have hlen : phoneShape (trim value).data → jsLength (trim value) ≤ 20 := fun hs =>
    le_trans (jsLength_of_phoneShape _ hs) (by decide)
  rw [hfield, heq]
  refine ⟨?_, hlen, ?_⟩
  · constructor
    · intro hnil
      cases ht : PHONE_PATTERN.test (trim value) with
      | true =>
        have hs := (phonePattern_test_iff _).1 ht
        exact ⟨hs, hlen hs⟩
      | false =>
        rw [ht] at hnil
        simp at hnil
    · rintro ⟨hs, hl⟩
      have hl2 : ¬ jsLength (trim value) > 20 := by omega
      rw [(phonePattern_test_iff _).2 hs, if_neg hl2]
      rfl
  · intro hnot
    have ht : PHONE_PATTERN.test (trim value) = false := by
      cases ht : PHONE_PATTERN.test (trim value) with
      | false => rfl
      | true =>
        have hs := (phonePattern_test_iff _).1 ht
        exact absurd ⟨hs, hlen hs⟩ hnot
    rw [ht]
    simp

/-- The value `+14155550123` is accepted; `0123` and `12-34` are not. -/
theorem validatePhone_spec_witness :
    trim "12-34" ≠ "" ∧ ¬ (phoneShape (trim "12-34").data ∧ jsLength (trim "12-34") ≤ 20) ∧
    validateField "phone" "12-34" [] = ["Please enter a valid phone number."] ∧
    validateField "phone" "0123" [] = ["Please enter a valid phone number."] ∧
    validateField "phone" " +14155550123 " [] = [] ∧
    "Please enter a valid phone number." ∈ validateField "phone" "12-34" [] :=
  have hbad : ¬ (phoneShape (trim "12-34").data ∧ jsLength (trim "12-34") ≤ 20) := by
    rintro ⟨hs, _⟩
    have := (phonePattern_test_iff _).2 hs
    exact absurd this (by decide)
  ⟨by decide, hbad, by decide, by decide, by decide,
    ((validatePhone_spec "12-34" [] (by decide)).2.2 hbad).1⟩

/-! ## Validator: accumulation of violations -/

theorem any_iff_exists_username (users : List User) (t : String) :
    users.any (fun user => toLowerCase user.username == toLowerCase t) = true ↔
      ∃ u ∈ users, toLowerCase u.username = toLowerCase t := by
  simp [List.any_eq_true]

theorem any_iff_exists_email (users : List User) (t : String) :
    users.any (fun user => toLowerCase user.email == toLowerCase t) = true ↔
      ∃ u ∈ users, toLowerCase u.email = toLowerCase t := by
  simp [List.any_eq_true]

theorem validateUsername_of_nonblank (value : String) (existingUsers : List User)
    (h : trim value ≠ "") :
    validateUsername value existingUsers =
      (if jsLength (trim value) < 2 then ["Must be at least 2 characters long."] else []) ++
      (if jsLength (trim value) > 50 then ["Must be no more than 50 characters long."]
        else []) ++
      (if ∃ u ∈ existingUsers, toLowerCase u.username = toLowerCase (trim value) then
        ["Username already exists."] else []) := by
  unfold validateUsername
  rw [minLength_message, maxLength_name_message]
  simp only [h, if_false, MIN_NAME_LENGTH, MAX_NAME_LENGTH, DUPLICATE_USERNAME,
    any_iff_exists_username]
  split_ifs <;> simp

theorem validateEmail_of_nonblank (value : String) (existingUsers : List User)
    (h : trim value ≠ "") :
    validateEmail value existingUsers =
      (if EMAIL_PATTERN.test (trim value) = true then []
        else ["Please enter a valid email address."]) ++
      (if jsLength (trim value) > 100 then ["Must be no more than 100 characters long."]
        else []) ++
      (if ∃ u ∈ existingUsers, toLowerCase u.email = toLowerCase (trim value) then
        ["Email already exists."] else []) := by
  unfold validateEmail
  rw [maxLength_email_message]
  simp only [h, if_false, MAX_EMAIL_LENGTH, DUPLICATE_EMAIL, INVALID_EMAIL,
    any_iff_exists_email]
  cases EMAIL_PATTERN.test (trim value) <;> simp <;> split_ifs <;> simp

/-- Claim C35, amended. For a blank value `validateUsername` and `validateEmail`
return `This field is required.` alone. For a non-blank value no check hides
another: `validateUsername` returns, in this order, the minimum-length violation
when the trimmed length is below 2, the maximum-length violation when it is above
50 and the duplicate violation when an existing record has that username up to
letter case; `validateEmail` returns, in this order, the invalid-pattern
violation when the trimmed value does not match the pattern, the maximum-length
violation when the trimmed length is above 100 and the duplicate violation when
an existing record has that email up to letter case. Each violation is in the
list exactly when its own condition holds. -/
theorem validators_accumulate (value : String) (existingUsers : List User) :
    (trim value = "" →
      validateUsername value existingUsers = ["This field is required."] ∧
      validateEmail value existingUsers = ["This field is required."]) ∧
    (trim value ≠ "" →
      validateUsername value existingUsers =
        (if jsLength (trim value) < 2 then ["Must be at least 2 characters long."] else []) ++
        (if jsLength (trim value) > 50 then ["Must be no more than 50 characters long."]
          else []) ++
        (if ∃ u ∈ existingUsers, toLowerCase u.username = toLowerCase (trim value) then
          ["Username already exists."] else []) ∧
      validateEmail value existingUsers =
        (if EMAIL_PATTERN.test (trim value) = true then []
          else ["Please enter a valid email address."]) ++
        (if jsLength (trim value) > 100 then ["Must be no more than 100 characters long."]
          else []) ++
        (if ∃ u ∈ existingUsers, toLowerCase u.email = toLowerCase (trim value) then
          ["Email already exists."] else []) ∧
      (EMAIL_PATTERN.test (trim value) = true ↔ emailShape (trim value).data) ∧
      "This field is required." ∉ validateUsername value existingUsers ∧
      ("Must be at least 2 characters long." ∈ validateUsername value existingUsers ↔
        jsLength (trim value) < 2) ∧
      ("Must be no more than 50 characters long." ∈ validateUsername value existingUsers ↔
        jsLength (trim value) > 50) ∧
      ("Username already exists." ∈ validateUsername value existingUsers ↔
        ∃ u ∈ existingUsers, toLowerCase u.username = toLowerCase (trim value)) ∧
      "This field is required." ∉ validateEmail value existingUsers ∧
      ("Please enter a valid email address." ∈ validateEmail value existingUsers ↔
        ¬ emailShape (trim value).data) ∧
      ("Must be no more than 100 characters long." ∈ validateEmail value existingUsers ↔
        jsLength (trim value) > 100) ∧
      ("Email already exists." ∈ validateEmail value existingUsers ↔
        ∃ u ∈ existingUsers, toLowerCase u.email = toLowerCase (trim value))) := by
  constructor
  · intro h
    simp [validateUsername, validateEmail, h, REQUIRED_FIELD]
  · intro h
    have hu := validateUsername_of_nonblank value existingUsers h
    have he := validateEmail_of_nonblank value existingUsers h
    have hshape := emailPattern_test_iff (trim value)
    refine ⟨hu, he, hshape, ?_, ?_, ?_, ?_, ?_, ?_, ?_, ?_⟩
    · rw [hu]
      split_ifs <;> simp
    · rw [hu]
      split_ifs <;> simp <;> omega
    · rw [hu]
      split_ifs <;> simp <;> omega
    · rw [hu]
      by_cases hd : ∃ u ∈ existingUsers, toLowerCase u.username = toLowerCase (trim value)
      · rw [if_pos hd]
        exact ⟨fun _ => hd, fun _ => by simp⟩
      · rw [if_neg hd]
        refine ⟨fun hmem => ?_, fun hex => absurd hex hd⟩
        exfalso
        revert hmem
        split_ifs <;> simp
    · rw [he]
      split_ifs <;> simp
    · rw [he, ← hshape]
      split_ifs with h1 <;> simp [h1]
    · rw [he]
      split_ifs <;> simp <;> omega
    · rw [he]
      by_cases hd : ∃ u ∈ existingUsers, toLowerCase u.email = toLowerCase (trim value)
      · rw [if_pos hd]
        exact ⟨fun _ => hd, fun _ => by simp⟩
      · rw [if_neg hd]
        refine ⟨fun hmem => ?_, fun hex => absurd hex hd⟩
        exfalso
        revert hmem
        split_ifs <;> simp

/-- The one-letter username `b` against an existing username `B`: both the
minimum-length and the duplicate violation are reported. The username `ÉRIC`
against the existing username `éric`, and the email `ERIC1@X.IO` against the
existing email `eric1@x.io`, are reported as duplicates. -/
theorem validators_accumulate_witness :
    trim "b" ≠ "" ∧ jsLength (trim "b") < 2 ∧
    toLowerCase userB.username = toLowerCase (trim "b") ∧
    validateUsername "b" [userB] =
      ["Must be at least 2 characters long.", "Username already exists."] ∧
    toLowerCase ericLower.username = toLowerCase (trim "ÉRIC") ∧
    validateUsername "ÉRIC" [ericLower] = ["Username already exists."] ∧
    validateUsername "ÉRIC" [johnDoe] = [] ∧
    validateEmail "ERIC1@X.IO" [ericLower] = ["Email already exists."] ∧
    ("Must be at least 2 characters long." ∈ validateUsername "b" [userB] ↔
      jsLength (trim "b") < 2) :=
  ⟨by decide, by decide, by decide, by decide, by decide, by decide, by decide, by decide,
    ((validators_accumulate "b" [userB]).2 (by decide)).2.2.2.2.1⟩

/-- Claim C35 as stated fails. For the empty username the minimum-length condition
holds (the length 0 is below 2) and the duplicate condition holds against the
record `namelessUser`, whose username is empty, yet `validateUsername` returns
`This field is required.` alone; likewise `validateEmail` does not report the
invalid pattern of the empty value. For a value of 101 letters `validateEmail`
reports the invalid pattern before the maximum length. -/
theorem validateUsername_required_only :
    jsLength (trim "") < 2 ∧
    toLowerCase namelessUser.username = toLowerCase (trim "") ∧
    validateUsername "" [namelessUser] = ["This field is required."] ∧
    EMAIL_PATTERN.test (trim "") = false ∧
    validateEmail "" [] = ["This field is required."] ∧
    validateEmail longInvalidEmail [] =
      ["Please enter a valid email address.", "Must be no more than 100 characters long."] ∧
    ¬ (∀ (value : String) (existingUsers : List User), jsLength (trim value) < 2 →
        "Must be at least 2 characters long." ∈ validateUsername value existingUsers) := by
  refine ⟨by decide, by decide, by decide, by decide, by decide, by decide, ?_⟩
  intro hall
  exact absurd (hall "" [namelessUser] (by decide)) (by decide)

/-! ## Record forms: round trip of the name split -/

theorem dropWhile_head_not (p : Char → Bool) (l r : List Char) (x : Char)
    (h : l.dropWhile p = x :: r) : p x = false := by
  induction l with
  | nil => cases h
  | cons a t ih =>
    by_cases ha : p a = true
    · rw [List.dropWhile_cons_of_pos ha] at h
      exact ih h
    · rw [List.dropWhile_cons_of_neg ha] at h
      cases h
      simpa using ha

theorem rdropWhile_last_not_of_eq (p : Char → Bool) (l m : List Char) (z : Char)
    (h : l.rdropWhile p = m ++ [z]) : p z = false := by
  have h1 : (l.reverse.dropWhile p).reverse = m ++ [z] := h
  have h2 : l.reverse.dropWhile p = z :: m.reverse := by
    have := congrArg List.reverse h1
    simpa using this
  exact dropWhile_head_not p _ _ _ h2

theorem trim_data_cases (s : String) :
    (trim s).data = [] ∨
      ∃ (x z : Char) (m : List Char), isTrimChar x = false ∧ isTrimChar z = false ∧
        ((trim s).data = [x] ∧ x = z ∨ (trim s).data = x :: m ++ [z]) := by
  have hdata : (trim s).data = (s.data.dropWhile isTrimChar).rdropWhile isTrimChar := rfl
  obtain ⟨t, ht⟩ : (s.data.dropWhile isTrimChar).rdropWhile isTrimChar <+:
      s.data.dropWhile isTrimChar := ( List.rdropWhile_prefix isTrimChar _)
  cases hl : (s.data.dropWhile isTrimChar).rdropWhile isTrimChar with
  | nil => exact Or.inl (by rw [hdata, hl])
  | cons x r =>
    right
    have hd : s.data.dropWhile isTrimChar = x :: (r ++ t) := by
      rw [← ht, hl]
      rfl
    have hx : isTrimChar x = false := dropWhile_head_not isTrimChar _ _ _ hd
    by_cases hr : r = []
    · subst hr
      exact ⟨x, x, [], hx, hx, Or.inl ⟨by rw [hdata, hl], rfl⟩⟩
    · have hshape : x :: r = x :: r.dropLast ++ [r.getLast hr] := by
        rw [List.cons_append, List.dropLast_append_getLast hr]
      have hz : isTrimChar (r.getLast hr) = false :=
        rdropWhile_last_not_of_eq isTrimChar _ (x :: r.dropLast) _ (by rw [hl, hshape])
      exact ⟨x, r.getLast hr, r.dropLast, hx, hz, Or.inr (by rw [hdata, hl, hshape])⟩

theorem trim_join_names (f l : String) (hf : trim f ≠ "") :
    trim (trim f ++ " " ++ trim l) =
      if trim l = "" then trim f else trim f ++ " " ++ trim l := by
  have hFne : (trim f).data ≠ [] := by
    intro h0
    apply hf
    exact String.ext h0
  have hdata : (trim f ++ " " ++ trim l).data = (trim f).data ++ ' ' :: (trim l).data := by
    simp [String.data_append]
  rcases trim_data_cases f with hF | ⟨x, z, m, hx, hz, hF⟩
  · exact absurd hF hFne
  · by_cases hl : trim l = ""
    · rw [if_pos hl]
      have hdata2 : (trim f ++ " " ++ trim l).data = (trim f).data ++ [' '] := by
        rw [hdata, hl]
      have hFr : (trim f).data.rdropWhile isTrimChar = (trim f).data := by
        rw [List.rdropWhile_eq_self_iff]
        intro hne
        rcases hF with ⟨h1, h2⟩ | h1
        · simp only [h1, List.getLast_singleton]
          simp [hx]
        · simp only [h1]
          rw [List.getLast_append_of_ne_nil (by simp)]
          simp [hz]
      apply String.ext
      show ((trim f ++ " " ++ trim l).data.dropWhile isTrimChar).rdropWhile isTrimChar =
        (trim f).data
      rw [hdata2]
      have hd1 : ((trim f).data ++ [' ']).dropWhile isTrimChar = (trim f).data ++ [' '] := by
        rcases hF with ⟨h1, _⟩ | h1 <;> rw [h1] <;> simp [List.dropWhile, hx]
      rw [hd1, List.rdropWhile_concat_pos _ _ _ (by decide), hFr]
    · rw [if_neg hl]
      have hLne : (trim l).data ≠ [] := by
        intro h0
        apply hl
        exact String.ext h0
      rcases trim_data_cases l with hL | ⟨x2, z2, m2, _, hz2, hL⟩
      · exact absurd hL hLne
      · have hshape : ∃ (a : Char) (mid : List Char) (b : Char), isTrimChar a = false ∧
            isTrimChar b = false ∧
            (trim f ++ " " ++ trim l).data = a :: mid ++ [b] := by
          obtain ⟨F', hF'⟩ : ∃ F', (trim f).data = x :: F' := by
            rcases hF with ⟨h1, _⟩ | h1
            · exact ⟨[], h1⟩
            · exact ⟨m ++ [z], by rw [h1]; rfl⟩
          obtain ⟨L', hL'⟩ : ∃ L', (trim l).data = L' ++ [z2] := by
            rcases hL with ⟨h1, h2⟩ | h1
            · exact ⟨[], by rw [h1, h2]; rfl⟩
            · exact ⟨x2 :: m2, by rw [h1]⟩
          refine ⟨x, F' ++ ' ' :: L', z2, hx, hz2, ?_⟩
          rw [hdata, hF', hL']
          simp
        obtain ⟨a, mid, b, ha, hb, hs⟩ := hshape
        exact trim_eq_self _ mid [b] a hs (by simp) ha (by simp [hb])

theorem takeWhile_append_cons (p : Char → Bool) (a b : List Char) (c : Char)
    (ha : ∀ x ∈ a, p x = true) (hc : p c = false) : (a ++ c :: b).takeWhile p = a := by
  induction a with
  | nil => simp [List.takeWhile, hc]
  | cons x t ih =>
    have hx := ha x (List.mem_cons_self x t)
    rw [List.cons_append, List.takeWhile_cons_of_pos hx,
      ih (fun y hy => ha y (List.mem_cons_of_mem x hy))]

theorem dropWhile_append_cons (p : Char → Bool) (a b : List Char) (c : Char)
    (ha : ∀ x ∈ a, p x = true) (hc : p c = false) : (a ++ c :: b).dropWhile p = c :: b := by
  induction a with
  | nil => simp [List.dropWhile, hc]
  | cons x t ih =>
    have hx := ha x (List.mem_cons_self x t)
    rw [List.cons_append, List.dropWhile_cons_of_pos hx,
      ih (fun y hy => ha y (List.mem_cons_of_mem x hy))]

theorem name_split (first last : String) (h : ' ' ∉ first.data) :
    (firstNameOf (if last = "" then first else first ++ " " ++ last) = first) ∧
    (lastNameOf (if last = "" then first else first ++ " " ++ last) = last) := by
  have hp : ∀ x ∈ first.data, (x != ' ') = true := by
    intro x hx
    simp only [bne_iff_ne, ne_eq]
    intro hxs
    exact h (hxs ▸ hx)
  by_cases hl : last = ""
  · rw [if_pos hl, hl]
    constructor
    · apply String.ext
      show first.data.takeWhile (fun c => c != ' ') = first.data
      rw [List.takeWhile_eq_self_iff]
      exact hp
    · apply String.ext
      show (first.data.dropWhile (fun c => c != ' ')).drop 1 = []
      have : first.data.dropWhile (fun c => c != ' ') = [] := by
        rw [List.dropWhile_eq_nil_iff]
        exact hp
      rw [this]
      rfl
  · rw [if_neg hl]
    have hdata : (first ++ " " ++ last).data = first.data ++ ' ' :: last.data := by
      simp [String.data_append]
    constructor
    · apply String.ext
      show (first ++ " " ++ last).data.takeWhile (fun c => c != ' ') = first.data
      rw [hdata, takeWhile_append_cons _ _ _ _ hp (by decide)]
    · apply String.ext
      show ((first ++ " " ++ last).data.dropWhile (fun c => c != ' ')).drop 1 = last.data
      rw [hdata, dropWhile_append_cons _ _ _ _ hp (by decide)]
      rfl

/-- Claim C36. For a form whose trimmed `firstName` is non-empty and contains no
space, whatever its `lastName`, `extractFormDataFromUser` applied to the record
formatted by `formatUserDataForAPI` (with any id) returns the trimmed `firstName`
as `firstName`, the trimmed `lastName`, inner spaces included, as `lastName`,
and the trimmed `username`, `email`, `phone` and `website`. -/
theorem extract_format_roundtrip (formData : FormData) (id : Int)
    (hne : trim formData.firstName ≠ "") (hsp : ' ' ∉ (trim formData.firstName).data) :
    (extractFormDataFromUser ((formatUserDataForAPI formData).withId id)).firstName =
      trim formData.firstName ∧
    (extractFormDataFromUser ((formatUserDataForAPI formData).withId id)).lastName =
      trim formData.lastName ∧
    (extractFormDataFromUser ((formatUserDataForAPI formData).withId id)).username =
      trim formData.username ∧
    (extractFormDataFromUser ((formatUserDataForAPI formData).withId id)).email =
      trim formData.email ∧
    (extractFormDataFromUser ((formatUserDataForAPI formData).withId id)).phone =
      trim formData.phone ∧
    (extractFormDataFromUser ((formatUserDataForAPI formData).withId id)).website =
      trim formData.website ∧
    (extractFormDataFromUser ((formatUserDataForAPI formData).withId id)).department =
      (if trim formData.department = "" then "Not specified" else trim formData.department) := by
  have hname : ((formatUserDataForAPI formData).withId id).name =
      if trim formData.lastName = "" then trim formData.firstName
      else trim formData.firstName ++ " " ++ trim formData.lastName :=
    trim_join_names formData.firstName formData.lastName hne
  obtain ⟨h1, h2⟩ := name_split (trim formData.firstName) (trim formData.lastName) hsp
  refine ⟨?_, ?_, rfl, rfl, rfl, rfl, rfl⟩
  · show orEmpty (splitSpace ((formatUserDataForAPI formData).withId id).name).head? = _
    rw [firstName_eq, hname, h1]
  · show joinSpace ((splitSpace ((formatUserDataForAPI formData).withId id).name).drop 1) = _
    rw [lastName_eq, hname, h2]

/-- The form with first name ` Ann ` and last name ` van  Dyk `: the record is
named `Ann van  Dyk` and the extracted names are `Ann` and `van  Dyk`. -/
theorem extract_format_roundtrip_witness :
    trim " Ann " ≠ "" ∧ ' ' ∉ (trim " Ann ").data ∧
    (formatUserDataForAPI ⟨" Ann ", " van  Dyk ", " ann ", "ann@x.io", "", "", ""⟩).name =
      "Ann van  Dyk" ∧
    (extractFormDataFromUser ((formatUserDataForAPI
      ⟨" Ann ", " van  Dyk ", " ann ", "ann@x.io", "", "", ""⟩).withId 3)).firstName = "Ann" ∧
    (extractFormDataFromUser ((formatUserDataForAPI
      ⟨" Ann ", " van  Dyk ", " ann ", "ann@x.io", "", "", ""⟩).withId 3)).lastName =
      trim " van  Dyk " ∧
    trim " van  Dyk " = "van  Dyk" :=
  ⟨by decide, by decide, by decide, by decide,
    (extract_format_roundtrip ⟨" Ann ", " van  Dyk ", " ann ", "ann@x.io", "", "", ""⟩ 3
      (by decide) (by decide)).2.1, by decide⟩

/-! ## Query engine: explicit sort and sort directions -/

theorem orElse_some_of_ne (v fallback : String) (h : v ≠ "") : orElse (some v) fallback = v := by
  simp [orElse, h]

/-- Claim C37. `sortUsers(list, field, order)` with a non-empty field and a
non-empty order sets `currentSort` to that field and order and returns the list
sorted by them (a permutation of the list, ordered by the comparator), and
leaves `filteredUsers`, `users`, `originalUsers`, the filters and the search query
as they were: `getFilteredUsers()` returns the same view as before the call. The
view follows the new sort only once `applyFiltersAndSearch` runs again. The input
list is a value here; the source sorts a copy of it. -/
theorem sortUsers_explicit (self : UserService) (users : List User) (field order : String)
    (hf : field ≠ "") (ho : order ≠ "") :
    (self.sortUsers users (some field) (some order)).1.currentSort =
      { field := field, order := order } ∧
    (self.sortUsers users (some field) (some order)).2 =
      arraySort (compareUsers field order) users ∧
    (self.sortUsers users (some field) (some order)).2.Perm users ∧
    (self.sortUsers users (some field) (some order)).2.Pairwise
      (fun a b => compareUsers field order a b ≤ 0) ∧
    (self.sortUsers users (some field) (some order)).1.filteredUsers = self.filteredUsers ∧
    (self.sortUsers users (some field) (some order)).1.users = self.users ∧
    (self.sortUsers users (some field) (some order)).1.originalUsers = self.originalUsers ∧
    (self.sortUsers users (some field) (some order)).1.currentFilters = self.currentFilters ∧
    (self.sortUsers users (some field) (some order)).1.searchQuery = self.searchQuery ∧
    (self.sortUsers users (some field) (some order)).1.getFilteredUsers =
      self.getFilteredUsers ∧
    (self.sortUsers users (some field) (some order)).1.applyFiltersAndSearch.1.filteredUsers =
      arraySort (compareUsers field order)
        (self.users.filter (fun user =>
          matchesSearch self.searchQuery user && matchesFilters self.currentFilters user)) := by
  have hstate : (self.sortUsers users (some field) (some order)).1 =
      { self with currentSort := { field := field, order := order } } := by
    simp [UserService.sortUsers, truthy, hf, ho]
  have hres : (self.sortUsers users (some field) (some order)).2 =
      arraySort (compareUsers field order) users := by
    rw [sortUsers_snd, orElse_some_of_ne field _ hf, orElse_some_of_ne order _ ho]
  refine ⟨by rw [hstate], hres, ?_, ?_, by rw [hstate], by rw [hstate], by rw [hstate],
    by rw [hstate], by rw [hstate], by rw [hstate]; rfl, ?_⟩
  · rw [hres]
    exact arraySort_perm _ _
  · rw [hres]
    exact arraySort_compareUsers_pairwise field order users
  · rw [hstate, applyFiltersAndSearch_fst]
    show ({ self with currentSort := { field := field, order := order } } :
      UserService).applyFiltersAndSearch.2 = _
    rw [applyFiltersAndSearch_snd]

/-- The sort field selector on a store viewed by `id`: the call returns the
records by name, the stored view keeps the order by `id`. -/
theorem sortUsers_explicit_witness :
    ("name" : String) ≠ "" ∧ ("asc" : String) ≠ "" ∧
    ({ UserService.new with users := [alice3, zed1, alice2],
                            originalUsers := [alice3, zed1, alice2] } :
      UserService).applyFiltersAndSearch.1.filteredUsers = [zed1, alice2, alice3] ∧
    staleStore.currentSort = { field := "name", order := "asc" } ∧
    staleStore.filteredUsers = [zed1, alice2, alice3] ∧
    staleStore.applyFiltersAndSearch.1.filteredUsers = [alice3, alice2, zed1] ∧
    (UserService.new.sortUsers [zed1, alice2, alice3] (some "name") (some "asc")).2 =
      [alice2, alice3, zed1] ∧
    (UserService.new.sortUsers [zed1, alice2, alice3] (some "name") (some "asc")).1.filteredUsers =
      UserService.new.filteredUsers :=
  ⟨by decide, by decide, by decide, by decide, by decide, by decide, by decide,
    (sortUsers_explicit UserService.new [zed1, alice2, alice3] "name" "asc" (by decide)
      (by decide)).2.2.2.2.1⟩

theorem sortValue_lt_or_gt (field : String)
    (hf : field = "id" ∨ field = "name" ∨ field = "email" ∨ field = "username") (a b : User)
    (h : sortValue field a ≠ sortValue field b) :
    (sortValue field a).lt (sortValue field b) = true ∨
      (sortValue field b).lt (sortValue field a) = true := by
  by_contra hcon
  have h1 : (sortValue field a).lt (sortValue field b) = false := by
    cases hlt : (sortValue field a).lt (sortValue field b) with
    | false => rfl
    | true => exact absurd (Or.inl hlt) hcon
  have h2 : (sortValue field b).lt (sortValue field a) = false := by
    cases hlt : (sortValue field b).lt (sortValue field a) with
    | false => rfl
    | true => exact absurd (Or.inr hlt) hcon
  apply h
  rcases hf with hf | hf | hf | hf <;> subst hf
  · have e : ∀ u : User, sortValue "id" u = .num u.id := fun u => by simp [sortValue]
    rw [e, e] at h1 h2 ⊢
    rw [num_lt_false_iff] at h1 h2
    rw [le_antisymm h1 h2]
  · have e : ∀ u : User, sortValue "name" u = .str (toLowerCase u.name) :=
      fun u => by simp [sortValue]
    rw [e, e] at h1 h2 ⊢
    rw [str_lt_false_iff] at h1 h2
    rw [codeUnits_injective _ _ (le_antisymm h1 h2)]
  · have e : ∀ u : User, sortValue "email" u = .str (toLowerCase u.email) :=
      fun u => by simp [sortValue]
    rw [e, e] at h1 h2 ⊢
    rw [str_lt_false_iff] at h1 h2
    rw [codeUnits_injective _ _ (le_antisymm h1 h2)]
  · have e : ∀ u : User, sortValue "username" u = .str (toLowerCase u.username) :=
      fun u => by simp [sortValue]
    rw [e, e] at h1 h2 ⊢
    rw [str_lt_false_iff] at h1 h2
    rw [codeUnits_injective _ _ (le_antisymm h1 h2)]

theorem arraySort_desc_eq_reverse (field sortOrder : String)
    (hf : field = "id" ∨ field = "name" ∨ field = "email" ∨ field = "username")
    (ho : sortOrder ≠ ASC) (users : List User)
    (hd : users.Pairwise (fun a b => sortValue field a ≠ sortValue field b)) :
    arraySort (compareUsers field sortOrder) users =
      (arraySort (compareUsers field ASC) users).reverse := by
  have hpa := arraySort_perm (compareUsers field ASC) users
  have hpd := arraySort_perm (compareUsers field sortOrder) users
  have hda : (arraySort (compareUsers field ASC) users).Pairwise
      (fun a b => sortValue field a ≠ sortValue field b) := (hpa.pairwise_iff (fun {a b} h => Ne.symm h)).2 hd
  have hdd : (arraySort (compareUsers field sortOrder) users).Pairwise
      (fun a b => sortValue field a ≠ sortValue field b) := (hpd.pairwise_iff (fun {a b} h => Ne.symm h)).2 hd
  have hasc : (arraySort (compareUsers field ASC) users).Pairwise
      (fun a b => (sortValue field a).lt (sortValue field b) = true) := by
    refine ((arraySort_compareUsers_pairwise field ASC users).and hda).imp ?_
    rintro a b ⟨h1, h2⟩
    rw [compareUsers_le_zero_asc] at h1
    rcases sortValue_lt_or_gt field hf a b h2 with h | h
    · exact h
    · rw [h] at h1
      cases h1
  have hdesc : (arraySort (compareUsers field sortOrder) users).Pairwise
      (fun a b => (sortValue field b).lt (sortValue field a) = true) := by
    refine ((arraySort_compareUsers_pairwise field sortOrder users).and hdd).imp ?_
    rintro a b ⟨h1, h2⟩
    rw [compareUsers_le_zero_desc _ _ ho] at h1
    rcases sortValue_lt_or_gt field hf a b h2 with h | h
    · rw [h] at h1
      cases h1
    · exact h
  have hrev : (arraySort (compareUsers field sortOrder) users).reverse.Pairwise
      (fun a b => (sortValue field a).lt (sortValue field b) = true) :=
    List.pairwise_reverse.2 hdesc
  haveI : IsAntisymm User (fun a b => (sortValue field a).lt (sortValue field b) = true) :=
    ⟨fun a b hab hba => by
      rw [JSValue.lt_asymm hab] at hba
      cases hba⟩
  have hperm : (arraySort (compareUsers field sortOrder) users).reverse.Perm
      (arraySort (compareUsers field ASC) users) :=
    ((List.reverse_perm _).trans hpd).trans hpa.symm
  have heq := List.eq_of_perm_of_sorted hperm hrev hasc
  rw [← heq, List.reverse_reverse]

/-- Claim C38. For the sort fields `id`, `name`, `email` and `username` and a list
whose sort keys on the field (the number, or the lower-cased string) are
pairwise distinct, the descending output of `sortUsers` is the reverse of its
ascending output. With equal keys this fails: `Alice` and `alice` keep their
input order in both directions, and so do `éric a` and `Éric a`. -/
theorem sortUsers_desc_reverse (self : UserService) (users : List User) (field : String)
    (hf : field = "id" ∨ field = "name" ∨ field = "email" ∨ field = "username")
    (hd : users.Pairwise (fun a b => sortValue field a ≠ sortValue field b)) :
    (self.sortUsers users (some field) (some DESC)).2 =
      (self.sortUsers users (some field) (some ASC)).2.reverse ∧
    (∀ u : User, sortValue "id" u = .num u.id ∧
      sortValue "name" u = .str (toLowerCase u.name) ∧
      sortValue "email" u = .str (toLowerCase u.email) ∧
      sortValue "username" u = .str (toLowerCase u.username)) ∧
    (sortValue "name" alice3 = sortValue "name" alice2 ∧
      (self.sortUsers [alice3, alice2] (some "name") (some ASC)).2 = [alice3, alice2] ∧
      (self.sortUsers [alice3, alice2] (some "name") (some DESC)).2 = [alice3, alice2] ∧
      (self.sortUsers [alice3, alice2] (some "name") (some DESC)).2 ≠
        (self.sortUsers [alice3, alice2] (some "name") (some ASC)).2.reverse) ∧
    (sortValue "name" ericLower = sortValue "name" ericUpper ∧
      (self.sortUsers [ericLower, ericUpper] (some "name") (some ASC)).2 =
        [ericLower, ericUpper] ∧
      (self.sortUsers [ericLower, ericUpper] (some "name") (some DESC)).2 =
        [ericLower, ericUpper]) := by
  have hne : field ≠ "" := by
    rcases hf with hf | hf | hf | hf <;> rw [hf] <;> decide
  have h1 : orElse (some DESC) self.currentSort.order = DESC := rfl
  have h2 : orElse (some ASC) self.currentSort.order = ASC := rfl
  have h3 : orElse (some "name") self.currentSort.field = "name" := rfl
  have hasc : arraySort (compareUsers "name" ASC) [alice3, alice2] = [alice3, alice2] := by
    decide
  have hdesc : arraySort (compareUsers "name" DESC) [alice3, alice2] = [alice3, alice2] := by
    decide
  have hasc2 : arraySort (compareUsers "name" ASC) [ericLower, ericUpper] =
      [ericLower, ericUpper] := by decide
  have hdesc2 : arraySort (compareUsers "name" DESC) [ericLower, ericUpper] =
      [ericLower, ericUpper] := by decide
  refine ⟨?_, fun u => by simp [sortValue], ⟨by decide, ?_, ?_, ?_⟩, by decide, ?_, ?_⟩
  · rw [sortUsers_snd, sortUsers_snd, orElse_some_of_ne field _ hne, h1, h2]
    exact arraySort_desc_eq_reverse field DESC hf (by decide) users hd
  · rw [sortUsers_snd, h2, h3, hasc]
  · rw [sortUsers_snd, h1, h3, hdesc]
  · rw [sortUsers_snd, sortUsers_snd, h1, h2, h3, hasc, hdesc]
    decide
  · rw [sortUsers_snd, h2, h3, hasc2]
  · rw [sortUsers_snd, h1, h3, hdesc2]

/-- Three records with the ids 3, 1, 2: the descending order by `id` is the reverse
of the ascending one. The names `Éz` and `éa` have distinct keys, and their
descending order is the reverse of the ascending one; the names `éric a` and
`Éric a` do not have distinct keys. -/
theorem sortUsers_desc_reverse_witness :
    [alice3, zed1, alice2].Pairwise (fun a b => sortValue "id" a ≠ sortValue "id" b) ∧
    (UserService.new.sortUsers [alice3, zed1, alice2] (some "id") (some ASC)).2 =
      [zed1, alice2, alice3] ∧
    (UserService.new.sortUsers [alice3, zed1, alice2] (some "id") (some DESC)).2 =
      [alice3, alice2, zed1] ∧
    [nameEz, nameEa].Pairwise (fun a b => sortValue "name" a ≠ sortValue "name" b) ∧
    (UserService.new.sortUsers [nameEz, nameEa] (some "name") (some ASC)).2 =
      [nameEa, nameEz] ∧
    (UserService.new.sortUsers [nameEz, nameEa] (some "name") (some DESC)).2 =
      [nameEz, nameEa] ∧
    ¬ [ericLower, ericUpper].Pairwise
      (fun a b => sortValue "name" a ≠ sortValue "name" b) ∧
    (UserService.new.sortUsers [alice3, zed1, alice2] (some "id") (some DESC)).2 =
      (UserService.new.sortUsers [alice3, zed1, alice2] (some "id") (some ASC)).2.reverse :=
  ⟨by decide, by decide, by decide, by decide, by decide, by decide, by decide,
    (sortUsers_desc_reverse UserService.new [alice3, zed1, alice2] "id" (Or.inl rfl)
      (by decide)).1⟩

end UserManagement
